import Mathlib

/-!
Shallow embedding of the intersection/acceleration core of the `Ray-Tracing`
repository (files `vec3.h`, `ray.h`, `aabb.h`, `sphere.h`, `moving_sphere.h`,
`hittable_list.h`, `bvh.h`, `constant_medium.h`).

Modelling conventions:
* C++ `double` values are modelled as exact reals (`ℝ`).  The interval bounds
  `t_min`/`t_max` of `hit` are modelled as `EReal`, because the code passes the
  IEEE infinities there (`constant_medium::hit` calls the boundary with
  `(-infinity, infinity)`).
* Inside `aabb::hit` the code deliberately divides by zero direction
  components and relies on IEEE semantics (`1/0 = +inf`, `0 * inf = NaN`,
  all comparisons with NaN false).  That arithmetic is modelled faithfully by
  the small type `DReal` below (reals extended by both infinities and NaN).
  The IEEE signed zero `-0.0` is not representable in `ℝ`; `1/0` is modelled
  as `+inf`, which is the IEEE result for `+0.0`.
* RNG: `random_double()` draws from a process-wide `mt19937`; it is modelled
  as a stream `ℕ → ℝ` of pre-drawn values together with a cursor that every
  `hit` call threads through (only `constant_medium::hit` consumes a value).
* The by-reference output parameters (`hit_record& rec`, `aabb& output_box`)
  are modelled as `Option` results; on failure the C++ code may leave a
  partially written output behind, which the model discards.
* `shared_ptr<material>` is opaque to this core and is modelled as a `ℕ` id.
-/

noncomputable section

open scoped Classical

/-- Three-component real vector (`vec3.h`); `point3`/`color` are aliases. -/
structure Vec3 where
  x : ℝ
  y : ℝ
  z : ℝ

namespace Vec3

def zero : Vec3 := ⟨0, 0, 0⟩

def add (u v : Vec3) : Vec3 := ⟨u.x + v.x, u.y + v.y, u.z + v.z⟩

def sub (u v : Vec3) : Vec3 := ⟨u.x - v.x, u.y - v.y, u.z - v.z⟩

def neg (v : Vec3) : Vec3 := ⟨-v.x, -v.y, -v.z⟩

def smul (t : ℝ) (v : Vec3) : Vec3 := ⟨t * v.x, t * v.y, t * v.z⟩

/-- `operator/(vec3, double)` is implemented in the source as `(1/t) * v`. -/
def divs (v : Vec3) (t : ℝ) : Vec3 := smul (1 / t) v

def dot (u v : Vec3) : ℝ := u.x * v.x + u.y * v.y + u.z * v.z

def lengthSquared (v : Vec3) : ℝ := v.x * v.x + v.y * v.y + v.z * v.z

def length (v : Vec3) : ℝ := Real.sqrt v.lengthSquared

end Vec3

/-- Ray `P(t) = orig + t*dir` with a time sample (`ray.h`). -/
structure Ray where
  orig : Vec3
  dir : Vec3
  tm : ℝ

/-- `ray::at`. -/
def Ray.at (r : Ray) (t : ℝ) : Vec3 := r.orig.add (Vec3.smul t r.dir)

/-!
IEEE-style extended values used inside `aabb::hit` (`aabb.h`).  Only the
operations that `aabb::hit` performs are provided.
-/

/-- A double as used inside the slab test: a real, an infinity, or NaN. -/
inductive DReal where
  | fin (val : ℝ)
  | pinf
  | ninf
  | nan

namespace DReal

/-- IEEE `<` : every comparison involving NaN is false. -/
def lt : DReal → DReal → Prop
  | fin a, fin b => a < b
  | fin _, pinf => True
  | ninf, fin _ => True
  | ninf, pinf => True
  | _, _ => False

/-- IEEE `<=` : every comparison involving NaN is false. -/
def le : DReal → DReal → Prop
  | fin a, fin b => a ≤ b
  | fin _, pinf => True
  | ninf, fin _ => True
  | ninf, pinf => True
  | ninf, ninf => True
  | pinf, pinf => True
  | _, _ => False

/-- IEEE `1.0 / d`; for `d = 0` the code gets `+inf` (dividing by `+0.0`). -/
def recip (d : ℝ) : DReal := if d = 0 then pinf else fin (1 / d)

/-- IEEE product of a finite double with a possibly-infinite one
(`0 * inf = NaN`). -/
def mul (a : ℝ) : DReal → DReal
  | fin b => fin (a * b)
  | pinf => if 0 < a then pinf else if a < 0 then ninf else nan
  | ninf => if 0 < a then ninf else if a < 0 then pinf else nan
  | nan => nan

/-- Embedding of the extended reals (no NaN) into `DReal`. -/
def ofEReal : EReal → DReal
  | ⊥ => ninf
  | ⊤ => pinf
  | (val : ℝ) => fin val

end DReal

/-- Axis-aligned bounding box (`aabb.h`). -/
structure Aabb where
  minimum : Vec3
  maximum : Vec3

/-- The default-constructed `aabb` (`aabb()` leaves two default `vec3`s,
whose components are zero). -/
def defAabb : Aabb := ⟨Vec3.zero, Vec3.zero⟩

/-- One iteration of the Andrew Kensler loop body of `aabb::hit` for a single
axis: slab planes `lo`,`hi`, ray components `o`,`d`, and the running
`(t_min, t_max)` pair, which it tightens. -/
def slabAxis (lo hi o d : ℝ) (m M : DReal) : DReal × DReal :=
  let invD := DReal.recip d
  let t0 := DReal.mul (lo - o) invD
  let t1 := DReal.mul (hi - o) invD
  let p := if DReal.lt invD (.fin 0) then (t1, t0) else (t0, t1)
  (if DReal.lt m p.1 then p.1 else m, if DReal.lt p.2 M then p.2 else M)

/-- `aabb::hit` (`aabb.h`): the three-axis slab test.  The source early-outs
as soon as `t_max <= t_min`; value-wise that is the conjunction below. -/
def aabbHit (bb : Aabb) (r : Ray) (tmin tmax : EReal) : Prop :=
  let s0 := slabAxis bb.minimum.x bb.maximum.x r.orig.x r.dir.x
    (DReal.ofEReal tmin) (DReal.ofEReal tmax)
  ¬ DReal.le s0.2 s0.1 ∧
    (let s1 := slabAxis bb.minimum.y bb.maximum.y r.orig.y r.dir.y s0.1 s0.2
     ¬ DReal.le s1.2 s1.1 ∧
       (let s2 := slabAxis bb.minimum.z bb.maximum.z r.orig.z r.dir.z s1.1 s1.2
        ¬ DReal.le s2.2 s2.1))

/-- `surrounding_box` (`aabb.h`): componentwise min of minima, max of maxima. -/
def surroundingBox (box0 box1 : Aabb) : Aabb :=
  ⟨⟨min box0.minimum.x box1.minimum.x,
    min box0.minimum.y box1.minimum.y,
    min box0.minimum.z box1.minimum.z⟩,
   ⟨max box0.maximum.x box1.maximum.x,
    max box0.maximum.y box1.maximum.y,
    max box0.maximum.z box1.maximum.z⟩⟩

/-- The record a successful `hit` fills in.  `hittable.h` is not among the
sources; the field list is reconstructed from the spec's data model
(`point, normal, parameterT, u, v, frontFace, material`). -/
structure HitRecord where
  p : Vec3
  normal : Vec3
  t : ℝ
  u : ℝ
  v : ℝ
  frontFace : Prop
  mat : ℕ

/-- Modelled from the spec: `hit_record::set_face_normal` lives in
`hittable.h`, which is absent from the sources.  The spec says: dot of ray
direction and outward normal negative ⇒ front face and the normal is kept
as-is; otherwise the normal is negated.  Returns `(front_face, normal)`. -/
def setFaceNormal (r : Ray) (outward : Vec3) : Prop × Vec3 :=
  let front := Vec3.dot r.dir outward < 0
  (front, if front then outward else outward.neg)

/-- The C library `atan2`, as used by `sphere::get_sphere_uv` (signed zeroes
are not distinguished in `ℝ`). -/
def atan2 (y x : ℝ) : ℝ :=
  if 0 < x then Real.arctan (y / x)
  else if x < 0 then
    (if 0 ≤ y then Real.arctan (y / x) + Real.pi else Real.arctan (y / x) - Real.pi)
  else if 0 < y then Real.pi / 2
  else if y < 0 then -(Real.pi / 2)
  else 0

/-- `sphere::get_sphere_uv` (`sphere.h`). -/
def getSphereUV (p : Vec3) : ℝ × ℝ :=
  let theta := Real.arccos (-p.y)
  let phi := atan2 (-p.z) p.x + Real.pi
  (phi / (2 * Real.pi), theta / Real.pi)

/-- The hittable variants of the repository: `sphere.h`, `moving_sphere.h`,
`constant_medium.h` (whose `neg_inv_density` field stores the constructor's
`-1/d`, and whose phase-function material is an opaque id), `hittable_list.h`
and `bvh.h`. -/
inductive Hittable where
  | sphere (center : Vec3) (radius : ℝ) (mat : ℕ)
  | movingSphere (center0 center1 : Vec3) (time0 time1 radius : ℝ) (mat : ℕ)
  | constantMedium (boundary : Hittable) (negInvDensity : ℝ) (mat : ℕ)
  | list (objects : List Hittable)
  | bvhNode (left right : Hittable) (box : Aabb)

/-- `moving_sphere::center` (`moving_sphere.h`). -/
def msCenter (c0 c1 : Vec3) (tm0 tm1 time : ℝ) : Vec3 :=
  c0.add (Vec3.smul ((time - tm0) / (tm1 - tm0)) (c1.sub c0))

/-- The record that `sphere::hit` fills in for an accepted root
(`sphere.h`, lines 90-95). -/
def sphereRec (c : Vec3) (rad : ℝ) (m : ℕ) (r : Ray) (root : ℝ) : HitRecord :=
  let p := r.at root
  let outward := (p.sub c).divs rad
  let fn := setFaceNormal r outward
  let uv := getSphereUV outward
  { p := p, normal := fn.2, t := root, u := uv.1, v := uv.2,
    frontFace := fn.1, mat := m }

/-- The root-acceptance and record construction of `sphere::hit`
(`sphere.h`): try the smaller quadratic root first, fall back to the larger
one, reject when both lie outside `[t_min, t_max]`. -/
def sphereHit (c : Vec3) (rad : ℝ) (m : ℕ) (r : Ray) (tmin tmax : EReal) :
    Option HitRecord :=
  let oc := r.orig.sub c
  let a := r.dir.lengthSquared
  let halfB := Vec3.dot oc r.dir
  let cc := oc.lengthSquared - rad * rad
  let disc := halfB * halfB - a * cc
  if disc < 0 then none
  else
    let sqrtd := Real.sqrt disc
    let root1 : ℝ := (-halfB - sqrtd) / a
    let root2 : ℝ := (-halfB + sqrtd) / a
    if (root1 : EReal) < tmin ∨ tmax < (root1 : EReal) then
      (if (root2 : EReal) < tmin ∨ tmax < (root2 : EReal) then none
       else some (sphereRec c rad m r root2))
    else some (sphereRec c rad m r root1)

/-- The record that `moving_sphere::hit` fills in for an accepted root; no
texture coordinates are written (the C++ caller's garbage, modelled as `0`). -/
def movingSphereRec (ctr : Vec3) (rad : ℝ) (m : ℕ) (r : Ray) (root : ℝ) :
    HitRecord :=
  let p := r.at root
  let outward := (p.sub ctr).divs rad
  let fn := setFaceNormal r outward
  { p := p, normal := fn.2, t := root, u := 0, v := 0,
    frontFace := fn.1, mat := m }

/-- `moving_sphere::hit` (`moving_sphere.h`): the same quadratic as
`sphere::hit` against the interpolated center. -/
def movingSphereHit (c0 c1 : Vec3) (tm0 tm1 rad : ℝ) (m : ℕ) (r : Ray)
    (tmin tmax : EReal) : Option HitRecord :=
  let ctr := msCenter c0 c1 tm0 tm1 r.tm
  let oc := r.orig.sub ctr
  let a := r.dir.lengthSquared
  let halfB := Vec3.dot oc r.dir
  let cc := oc.lengthSquared - rad * rad
  let disc := halfB * halfB - a * cc
  if disc < 0 then none
  else
    let sqrtd := Real.sqrt disc
    let root1 : ℝ := (-halfB - sqrtd) / a
    let root2 : ℝ := (-halfB + sqrtd) / a
    if (root1 : EReal) < tmin ∨ tmax < (root1 : EReal) then
      (if (root2 : EReal) < tmin ∨ tmax < (root2 : EReal) then none
       else some (movingSphereRec ctr rad m r root2))
    else some (movingSphereRec ctr rad m r root1)

/-- IEEE product of a finite double with an extended one, as needed for
`neg_inv_density * log(random_double())` in `constant_medium::hit`.  The IEEE
`0 * inf` is NaN; it is modelled as `0` (that corner is unreachable for the
strictly negative `neg_inv_density` of a sensible medium). -/
def mulE (a : ℝ) : EReal → EReal
  | ⊥ => if 0 < a then ⊥ else if a < 0 then ⊤ else 0
  | ⊤ => if 0 < a then ⊤ else if a < 0 then ⊥ else 0
  | (b : ℝ) => ((a * b : ℝ) : EReal)

/-- The C `log`: `log 0 = -inf`; negative arguments give NaN in IEEE, which
is not modelled (`random_double()` only produces values in `[0,1)`). -/
def logE (u : ℝ) : EReal := if u = 0 then ⊥ else ((Real.log u : ℝ) : EReal)

/-- The tail of `constant_medium::hit` (`constant_medium.h`) after the two
boundary hits produced `rec1.t` and `rec2.t`: clip to `[t_min, t_max]`,
clamp the entry to `0`, draw the exponential free path, and either scatter
inside the span or miss.  `rec.u`/`rec.v` are never written by the C++ code
(caller garbage), modelled as `0`; the draw advances the RNG cursor. -/
def mediumStep (negInv : ℝ) (m : ℕ) (r : Ray) (tmin tmax : EReal)
    (rec1t rec2t : ℝ) (g : ℕ → ℝ) (n : ℕ) : Option HitRecord × ℕ :=
  let r1a : EReal := if (rec1t : EReal) < tmin then tmin else (rec1t : EReal)
  let r2a : EReal := if tmax < (rec2t : EReal) then tmax else (rec2t : EReal)
  if r2a ≤ r1a then (none, n)
  else
    let r1b : EReal := if r1a < (0 : EReal) then 0 else r1a
    let rayLength := r.dir.length
    let distanceInside := (r2a.toReal - r1b.toReal) * rayLength
    let hitDistance := mulE negInv (logE (g n))
    if (distanceInside : EReal) < hitDistance then (none, n + 1)
    else
      let t := r1b.toReal + hitDistance.toReal / rayLength
      (some { p := r.at t, normal := ⟨1, 0, 0⟩, t := t, u := 0, v := 0,
              frontFace := True, mat := m }, n + 1)

mutual

/-- The polymorphic `hit(ray, t_min, t_max, rec)` of every variant:
`sphere::hit`, `moving_sphere::hit`, `constant_medium::hit` (boundary hit
over `(-infinity, infinity)`, then again from `rec1.t + 0.0001`),
`hittable_list::hit` and `bvh_node::hit` (box test, left child, then right
child over `[t_min, hit_left ? rec.t : t_max]`).  The RNG stream/cursor pair
models the process-wide `random_double` state. -/
def Hittable.hit : Hittable → Ray → EReal → EReal → (ℕ → ℝ) → ℕ →
    Option HitRecord × ℕ
  | .sphere c rad m, r, tmin, tmax, _g, n => (sphereHit c rad m r tmin tmax, n)
  | .movingSphere c0 c1 tm0 tm1 rad m, r, tmin, tmax, _g, n =>
      (movingSphereHit c0 c1 tm0 tm1 rad m r tmin tmax, n)
  | .constantMedium b negInv m, r, tmin, tmax, g, n =>
      (match Hittable.hit b r ⊥ ⊤ g n with
       | (none, n1) => (none, n1)
       | (some rec1, n1) =>
         match Hittable.hit b r ((rec1.t + 1 / 10000 : ℝ) : EReal) ⊤ g n1 with
         | (none, n2) => (none, n2)
         | (some rec2, n2) => mediumStep negInv m r tmin tmax rec1.t rec2.t g n2)
  | .list objs, r, tmin, tmax, g, n => hitLoop objs r tmin tmax none g n
  | .bvhNode l rgt box, r, tmin, tmax, g, n =>
      if aabbHit box r tmin tmax then
        match Hittable.hit l r tmin tmax g n with
        | (some recL, n1) =>
          (match Hittable.hit rgt r tmin (recL.t : EReal) g n1 with
           | (some recR, n2) => (some recR, n2)
           | (none, n2) => (some recL, n2))
        | (none, n1) =>
          (match Hittable.hit rgt r tmin tmax g n1 with
           | (some recR, n2) => (some recR, n2)
           | (none, n2) => (none, n2))
      else (none, n)

/-- The member loop of `hittable_list::hit`: each member is tested against
`[t_min, closest_so_far]`; `closest_so_far` starts at `t_max` and shrinks to
the accepted record's `t` (the accumulator holds the current record). -/
def hitLoop : List Hittable → Ray → EReal → EReal → Option HitRecord →
    (ℕ → ℝ) → ℕ → Option HitRecord × ℕ
  | [], _r, _tmin, _tmax, acc, _g, n => (acc, n)
  | o :: os, r, tmin, tmax, acc, g, n =>
      let closest : EReal := match acc with
        | some rec => (rec.t : EReal)
        | none => tmax
      match Hittable.hit o r tmin closest g n with
      | (some rec, n1) => hitLoop os r tmin tmax (some rec) g n1
      | (none, n1) => hitLoop os r tmin tmax acc g n1

end

mutual

/-- The polymorphic `bounding_box(time0, time1, output_box)`; the `bool`
plus by-reference output is modelled as an `Option` (partial writes made by
failing calls are discarded). -/
def Hittable.boundingBox : Hittable → ℝ → ℝ → Option Aabb
  | .sphere c rad _, _tm0, _tm1 =>
      some ⟨c.sub ⟨rad, rad, rad⟩, c.add ⟨rad, rad, rad⟩⟩
  | .movingSphere c0 c1 tm0 tm1 rad _, t0, t1 =>
      let cA := msCenter c0 c1 tm0 tm1 t0
      let cB := msCenter c0 c1 tm0 tm1 t1
      some (surroundingBox ⟨cA.sub ⟨rad, rad, rad⟩, cA.add ⟨rad, rad, rad⟩⟩
        ⟨cB.sub ⟨rad, rad, rad⟩, cB.add ⟨rad, rad, rad⟩⟩)
  | .constantMedium b _ _, t0, t1 => Hittable.boundingBox b t0 t1
  | .list objs, t0, t1 =>
      (match objs with
       | [] => none
       | _ :: _ => bbLoop objs t0 t1 none)
  | .bvhNode _ _ box, _tm0, _tm1 => some box

/-- The member loop of `hittable_list::bounding_box`: any member without a
box aborts with failure; otherwise the boxes are folded with
`surrounding_box` (the accumulator is `none` before the first box). -/
def bbLoop : List Hittable → ℝ → ℝ → Option Aabb → Option Aabb
  | [], _t0, _t1, acc => acc
  | o :: os, t0, t1, acc =>
      match Hittable.boundingBox o t0 t1 with
      | none => none
      | some tb =>
        match acc with
        | none => bbLoop os t0 t1 (some tb)
        | some ob => bbLoop os t0 t1 (some (surroundingBox ob tb))

end

/-- Component access like the source's `e[axis]`. -/
def Vec3.nth (v : Vec3) (i : Fin 3) : ℝ :=
  if i = 0 then v.x else if i = 1 then v.y else v.z

/-- `box_compare` (`bvh.h`): compare two hittables by their bounding boxes'
minimum coordinate on the given axis.  The boxes are requested for the time
window `(0, 0)` — not the construction window.  A missing box only produces
a `stderr` diagnostic in the source and the comparison proceeds with the
default-constructed `aabb`. -/
def boxCompare (a b : Hittable) (axis : Fin 3) : Prop :=
  ((a.boundingBox 0 0).getD defAabb).minimum.nth axis <
    ((b.boundingBox 0 0).getD defAabb).minimum.nth axis

/-- The box stored by the `bvh_node` constructor: union of the children's
boxes over the construction window; a child that reports no box only
produces a `stderr` diagnostic and its default-constructed `aabb` is used. -/
def nodeBox (left right : Hittable) (time0 time1 : ℝ) : Aabb :=
  surroundingBox ((left.boundingBox time0 time1).getD defAabb)
    ((right.boundingBox time0 time1).getD defAabb)

/-- The recursive `bvh_node` constructor (`bvh.h`).  `g` is the stream of
random axis choices (`random_int(0,2)` per node, drawn before the span
dispatch) and `k` the cursor into it; the returned cursor threads to the
sibling subtree.  `std::sort` with the strict comparator is modelled by the
stable `List.mergeSort` on the induced "not greater" relation.  The C++
code never terminates on an empty range (the span-0 case falls into the
sort-and-recurse branch with two empty halves); the model returns an inert
empty list node there. -/
def buildNode : List Hittable → (ℕ → Fin 3) → ℕ → ℝ → ℝ → Hittable × ℕ
  | objects, g, k, time0, time1 =>
    let axis := g k
    match objects with
    | [] => (.list [], k + 1)
    | [a] => (.bvhNode a a (nodeBox a a time0 time1), k + 1)
    | [a, b] =>
        if boxCompare a b axis then (.bvhNode a b (nodeBox a b time0 time1), k + 1)
        else (.bvhNode b a (nodeBox b a time0 time1), k + 1)
    | a :: b :: c :: rest =>
        let objs := List.mergeSort (a :: b :: c :: rest)
          (fun u v => !(decide (boxCompare v u axis)))
        let mid := (a :: b :: c :: rest).length / 2
        let lp := buildNode (objs.take mid) g (k + 1) time0 time1
        let rp := buildNode (objs.drop mid) g lp.2 time0 time1
        (.bvhNode lp.1 rp.1 (nodeBox lp.1 rp.1 time0 time1), rp.2)
  termination_by objects _ _ _ _ => objects.length
  decreasing_by
    all_goals simp_all [List.length_take, List.length_drop]
    all_goals omega

/-- Erase the stored box of every `bvh_node` of a tree, to state that the
tree shape the constructor builds does not depend on the time window. -/
def eraseBoxes : Hittable → Hittable
  | .bvhNode l r _ => .bvhNode (eraseBoxes l) (eraseBoxes r) defAabb
  | h => h

/-- The leaf objects reachable from a hittable through `bvh_node` children. -/
def leaves : Hittable → List Hittable
  | .bvhNode l r _ => leaves l ++ leaves r
  | h => [h]

mutual

/-- A scene with no `constant_medium` anywhere (hence no RNG consumption). -/
def NoMedium : Hittable → Prop
  | .sphere _ _ _ => True
  | .movingSphere _ _ _ _ _ _ => True
  | .constantMedium _ _ _ => False
  | .list objs => NoMediumL objs
  | .bvhNode l r _ => NoMedium l ∧ NoMedium r

def NoMediumL : List Hittable → Prop
  | [] => True
  | o :: os => NoMedium o ∧ NoMediumL os

end

mutual

/-- Every `constant_medium` of the scene stores a strictly negative
`neg_inv_density`, i.e. was built from a strictly positive density. -/
def MediaNeg : Hittable → Prop
  | .sphere _ _ _ => True
  | .movingSphere _ _ _ _ _ _ => True
  | .constantMedium b d _ => d < 0 ∧ MediaNeg b
  | .list objs => MediaNegL objs
  | .bvhNode l r _ => MediaNeg l ∧ MediaNeg r

def MediaNegL : List Hittable → Prop
  | [] => True
  | o :: os => MediaNeg o ∧ MediaNegL os

end

mutual

/-- Every sphere or moving sphere of the scene has a nonzero radius. -/
def RadNZ : Hittable → Prop
  | .sphere _ rad _ => rad ≠ 0
  | .movingSphere _ _ _ _ rad _ => rad ≠ 0
  | .constantMedium b _ _ => RadNZ b
  | .list objs => RadNZL objs
  | .bvhNode l r _ => RadNZ l ∧ RadNZ r

def RadNZL : List Hittable → Prop
  | [] => True
  | o :: os => RadNZ o ∧ RadNZL os

end

/-- A static sphere with strictly positive radius. -/
def IsPS (h : Hittable) : Prop :=
  ∃ c rad m, h = Hittable.sphere c rad m ∧ 0 < rad

/-- A primitive member: a static or a moving sphere. -/
def SphereLike (h : Hittable) : Prop :=
  (∃ c rad m, h = Hittable.sphere c rad m) ∨
    (∃ c0 c1 tm0 tm1 rad m, h = Hittable.movingSphere c0 c1 tm0 tm1 rad m)

/-- An arbitrary fixed RNG stream, used to state facts about hittables whose
`hit` provably ignores the stream. -/
def g0 : ℕ → ℝ := fun _ => 0

/-- The hit result alone, on the fixed stream `g0` (used for deterministic
scenes, whose `hit` neither reads nor advances the RNG). -/
def hit1 (h : Hittable) (r : Ray) (tmin tmax : EReal) : Option HitRecord :=
  (Hittable.hit h r tmin tmax g0 0).1

/-- The accepted parameter of a member on an interval, if any. -/
def acceptT (h : Hittable) (r : Ray) (tmin tmax : EReal) : Option ℝ :=
  (hit1 h r tmin tmax).map HitRecord.t

/-- Minimum of two optional parameters (`none` = no hit). -/
def ominT : Option ℝ → Option ℝ → Option ℝ
  | none, b => b
  | some t, none => some t
  | some t, some t2 => some (min t t2)

/-- Specification-side definition, following the spec's words: the linear
scan "that manually tracks the minimum `t` among all member hits". -/
def minT (S : List Hittable) (r : Ray) (tmin tmax : EReal) : Option ℝ :=
  S.foldr (fun o acc => ominT (acceptT o r tmin tmax) acc) none

/-- Box `B` contains box `A` componentwise. -/
def boxContains (B A : Aabb) : Prop :=
  B.minimum.x ≤ A.minimum.x ∧ B.minimum.y ≤ A.minimum.y ∧
    B.minimum.z ≤ A.minimum.z ∧ A.maximum.x ≤ B.maximum.x ∧
    A.maximum.y ≤ B.maximum.y ∧ A.maximum.z ≤ B.maximum.z

/-- Specification-side: one axis of the slab test is feasible for a ray when
the direction component is nonzero, or the origin lies (closed) between the
two slab planes — the case the spec singles out as handled by the IEEE
infinities. -/
def axFeasible (lo hi o d : ℝ) : Prop := d ≠ 0 ∨ (lo ≤ o ∧ o ≤ hi)

/-- Specification-side: the lower slab parameter of one axis (`⊥` when the
axis constrains nothing because the direction component is zero). -/
def axLo (lo hi o d : ℝ) : EReal :=
  if d = 0 then ⊥ else ((min ((lo - o) / d) ((hi - o) / d) : ℝ) : EReal)

/-- Specification-side: the upper slab parameter of one axis. -/
def axHi (lo hi o d : ℝ) : EReal :=
  if d = 0 then ⊤ else ((max ((lo - o) / d) ((hi - o) / d) : ℝ) : EReal)

/-- Specification-side characterization of the slab test, following the
spec's words: per axis the two plane parameters (swapped by direction sign,
here min/max), tightening of `[t_min, t_max]`, rejection iff some axis makes
the interval degenerate (`t_max <= t_min`), with zero direction components
resolved by the ordering of signed infinities over the closed slab. -/
def slabSpecHit (bb : Aabb) (r : Ray) (tmin tmax : EReal) : Prop :=
  (axFeasible bb.minimum.x bb.maximum.x r.orig.x r.dir.x ∧
   axFeasible bb.minimum.y bb.maximum.y r.orig.y r.dir.y ∧
   axFeasible bb.minimum.z bb.maximum.z r.orig.z r.dir.z) ∧
  max (max (max tmin (axLo bb.minimum.x bb.maximum.x r.orig.x r.dir.x))
        (axLo bb.minimum.y bb.maximum.y r.orig.y r.dir.y))
      (axLo bb.minimum.z bb.maximum.z r.orig.z r.dir.z) <
    min (min (min tmax (axHi bb.minimum.x bb.maximum.x r.orig.x r.dir.x))
          (axHi bb.minimum.y bb.maximum.y r.orig.y r.dir.y))
        (axHi bb.minimum.z bb.maximum.z r.orig.z r.dir.z)

/-- Specification-side definition for C5: the union ("fold of
`surrounding_box`") of a nonempty list of boxes. -/
def unionBoxes : List Aabb → Option Aabb
  | [] => none
  | b :: bs => some (bs.foldl surroundingBox b)

/-- Specification-side variant of `box_compare` that evaluates the boxes at
an arbitrary time window instead of the hard-coded `(0, 0)`. -/
def boxCompareAt (a b : Hittable) (axis : Fin 3) (t0 t1 : ℝ) : Prop :=
  ((a.boundingBox t0 t1).getD defAabb).minimum.nth axis <
    ((b.boundingBox t0 t1).getD defAabb).minimum.nth axis

/-- A member whose `hit` commutes with shrinking the upper bound: a hit on
`[tmin, c]` is exactly a hit on `[tmin, tmax]` whose parameter is at most `c`
(for `c ≤ tmax`).  The primitive sphere variants satisfy this. -/
def ShrinkOK (h : Hittable) : Prop :=
  ∀ (r : Ray) (tmin c tmax : EReal) (rec : HitRecord), c ≤ tmax →
    (hit1 h r tmin c = some rec ↔
      hit1 h r tmin tmax = some rec ∧ (rec.t : EReal) ≤ c)

/-- Closed membership of a point in a box. -/
def inBox (bb : Aabb) (p : Vec3) : Prop :=
  bb.minimum.x ≤ p.x ∧ p.x ≤ bb.maximum.x ∧
    bb.minimum.y ≤ p.y ∧ p.y ≤ bb.maximum.y ∧
    bb.minimum.z ≤ p.z ∧ p.z ≤ bb.maximum.z

/-- A well-formed BVH tree over positive-radius static spheres: every leaf is
such a sphere and every interior node's box contains the boxes of all the
leaves below it (which is what the constructor establishes). -/
inductive SBT : Hittable → Prop where
  | leaf : ∀ {h : Hittable}, IsPS h → SBT h
  | node : ∀ {l r : Hittable} {box : Aabb}, SBT l → SBT r →
      (∀ s ∈ leaves l ++ leaves r,
        boxContains box ((Hittable.boundingBox s 0 0).getD defAabb)) →
      SBT (.bvhNode l r box)


/-! ### Basic facts about the IEEE slab arithmetic -/

section DRealLemmas

lemma DReal.not_lt_nan_right (x : DReal) : ¬ DReal.lt x .nan := by
  cases x <;> simp [DReal.lt]

lemma DReal.not_lt_ninf_right (x : DReal) : ¬ DReal.lt x .ninf := by
  cases x <;> simp [DReal.lt]

lemma DReal.not_lt_pinf_left (x : DReal) : ¬ DReal.lt .pinf x := by
  cases x <;> simp [DReal.lt]

lemma DReal.ofEReal_coe (q : ℝ) : DReal.ofEReal (q : EReal) = .fin q := rfl

lemma DReal.ofEReal_top : DReal.ofEReal ⊤ = .pinf := rfl

lemma DReal.ofEReal_bot : DReal.ofEReal ⊥ = .ninf := rfl

lemma DReal.ofEReal_ne_nan (a : EReal) : DReal.ofEReal a ≠ .nan := by
  induction a using EReal.rec <;>
    simp [DReal.ofEReal_bot, DReal.ofEReal_top, DReal.ofEReal_coe]

lemma DReal.lt_ofEReal_iff (a b : EReal) :
    DReal.lt (.ofEReal a) (.ofEReal b) ↔ a < b := by
  induction a using EReal.rec <;> induction b using EReal.rec <;>
    simp [DReal.ofEReal_bot, DReal.ofEReal_top, DReal.ofEReal_coe, DReal.lt,
      EReal.bot_lt_coe, EReal.coe_lt_top, EReal.coe_lt_coe_iff]

lemma DReal.le_ofEReal_iff (a b : EReal) :
    DReal.le (.ofEReal a) (.ofEReal b) ↔ a ≤ b := by
  induction a using EReal.rec <;> induction b using EReal.rec <;>
    simp [DReal.ofEReal_bot, DReal.ofEReal_top, DReal.ofEReal_coe, DReal.le,
      bot_le, le_top, EReal.coe_le_coe_iff]

lemma DReal.le_pinf (x : DReal) (h : x ≠ .nan) : DReal.le x .pinf := by
  cases x <;> simp_all [DReal.le]

lemma DReal.ninf_le (x : DReal) (h : x ≠ .nan) : DReal.le .ninf x := by
  cases x <;> simp_all [DReal.le]

lemma DReal.not_lt_nan_left (x : DReal) : ¬ DReal.lt .nan x := by
  cases x <;> simp [DReal.lt]

/-- The `t_min`-update of the loop body, on NaN-free values, is an `EReal`
maximum. -/
lemma dmax_ofEReal (em : EReal) (q : ℝ) :
    (if DReal.lt (.ofEReal em) (.fin q) then DReal.fin q else .ofEReal em) =
      .ofEReal (max em (q : EReal)) := by
  rw [show DReal.fin q = DReal.ofEReal (q : EReal) from rfl]
  by_cases h : em < (q : EReal)
  · rw [if_pos ((DReal.lt_ofEReal_iff _ _).mpr h), max_eq_right h.le]
  · rw [if_neg (fun hc => h ((DReal.lt_ofEReal_iff _ _).mp hc)),
      max_eq_left (not_lt.mp h)]

/-- The `t_max`-update of the loop body, on NaN-free values, is an `EReal`
minimum. -/
lemma dmin_ofEReal (eM : EReal) (q : ℝ) :
    (if DReal.lt (.fin q) (.ofEReal eM) then DReal.fin q else .ofEReal eM) =
      .ofEReal (min eM (q : EReal)) := by
  rw [show DReal.fin q = DReal.ofEReal (q : EReal) from rfl]
  by_cases h : (q : EReal) < eM
  · rw [if_pos ((DReal.lt_ofEReal_iff _ _).mpr h), min_eq_right h.le]
  · rw [if_neg (fun hc => h ((DReal.lt_ofEReal_iff _ _).mp hc)),
      min_eq_left (not_lt.mp h)]

/-- One feasible axis of the slab test tightens the running interval exactly
by the spec-side `axLo`/`axHi` pair. -/
lemma slabAxis_feasible (lo hi o d : ℝ) (hax : axFeasible lo hi o d)
    (hlh : lo ≤ hi) (em eM : EReal) :
    slabAxis lo hi o d (.ofEReal em) (.ofEReal eM) =
      (.ofEReal (max em (axLo lo hi o d)),
       .ofEReal (min eM (axHi lo hi o d))) := by
  rcases eq_or_ne d 0 with hd | hd
  · subst hd
    rcases hax with hd | ⟨hlo, hho⟩
    · exact absurd rfl hd
    have hrecip : DReal.recip 0 = .pinf := by simp [DReal.recip]
    have hswapc : ¬ DReal.lt DReal.pinf (.fin 0) := DReal.not_lt_pinf_left _
    have hmax : max em (axLo lo hi o 0) = em := by
      simp [axLo, max_eq_left bot_le]
    have hmin : min eM (axHi lo hi o 0) = eM := by
      simp [axHi, min_eq_left le_top]
    rw [hmax, hmin]
    have ht0 : DReal.mul (lo - o) DReal.pinf = .ninf ∨
        DReal.mul (lo - o) DReal.pinf = .nan := by
      rcases lt_or_eq_of_le hlo with h | h
      · left; have : lo - o < 0 := by linarith
        simp [DReal.mul, not_lt_of_gt this, this]
      · right; have : lo - o = 0 := by linarith
        simp [DReal.mul, this]
    have ht1 : DReal.mul (hi - o) DReal.pinf = .pinf ∨
        DReal.mul (hi - o) DReal.pinf = .nan := by
      rcases lt_or_eq_of_le hho with h | h
      · left; have : 0 < hi - o := by linarith
        simp [DReal.mul, this]
      · right; have : hi - o = 0 := by linarith
        simp [DReal.mul, this]
    rcases ht0 with ht0 | ht0 <;> rcases ht1 with ht1 | ht1 <;>
      simp only [slabAxis, hrecip, ht0, ht1, if_neg hswapc,
        if_neg (DReal.not_lt_ninf_right (DReal.ofEReal em)),
        if_neg (DReal.not_lt_nan_right (DReal.ofEReal em)),
        if_neg (DReal.not_lt_pinf_left (DReal.ofEReal eM)),
        if_neg (DReal.not_lt_nan_left (DReal.ofEReal eM))]
  · have hrecip : DReal.recip d = .fin (1 / d) := by simp [DReal.recip, hd]
    have hmul0 : DReal.mul (lo - o) (DReal.fin (1 / d)) = .fin ((lo - o) / d) := by
      simp [DReal.mul, div_eq_mul_inv]
    have hmul1 : DReal.mul (hi - o) (DReal.fin (1 / d)) = .fin ((hi - o) / d) := by
      simp [DReal.mul, div_eq_mul_inv]
    rcases lt_or_gt_of_ne hd with hdneg | hdpos
    · have hswapc : DReal.lt (DReal.fin (1 / d)) (.fin 0) := by
        simp only [DReal.lt]; exact one_div_neg.mpr hdneg
      have hord : (hi - o) / d ≤ (lo - o) / d :=
        div_le_div_of_nonpos_of_le (le_of_lt hdneg) (by linarith)
      have hql : axLo lo hi o d = (((hi - o) / d : ℝ) : EReal) := by
        simp [axLo, hd, min_eq_right hord]
      have hqh : axHi lo hi o d = (((lo - o) / d : ℝ) : EReal) := by
        simp [axHi, hd, max_eq_left hord]
      simp only [slabAxis, hrecip, hmul0, hmul1, if_pos hswapc, hql, hqh,
        dmax_ofEReal, dmin_ofEReal]
    · have hswapc : ¬ DReal.lt (DReal.fin (1 / d)) (.fin 0) := by
        simp only [DReal.lt]
        exact not_lt.mpr (le_of_lt (one_div_pos.mpr hdpos))
      have hord : (lo - o) / d ≤ (hi - o) / d :=
        (div_le_div_iff_of_pos_right hdpos).mpr (by linarith)
      have hql : axLo lo hi o d = (((lo - o) / d : ℝ) : EReal) := by
        simp [axLo, hd, min_eq_left hord]
      have hqh : axHi lo hi o d = (((hi - o) / d : ℝ) : EReal) := by
        simp [axHi, hd, max_eq_right hord]
      simp only [slabAxis, hrecip, hmul0, hmul1, if_neg hswapc, hql, hqh,
        dmax_ofEReal, dmin_ofEReal]

/-- An infeasible axis (zero direction component, origin outside the closed
slab) makes the tightened interval degenerate. -/
lemma slabAxis_infeasible (lo hi o : ℝ) (hlh : lo ≤ hi)
    (hout : ¬ (lo ≤ o ∧ o ≤ hi)) (em eM : EReal) :
    DReal.le (slabAxis lo hi o 0 (.ofEReal em) (.ofEReal eM)).2
      (slabAxis lo hi o 0 (.ofEReal em) (.ofEReal eM)).1 := by
  have hrecip : DReal.recip 0 = .pinf := by simp [DReal.recip]
  have hswapc : ¬ DReal.lt DReal.pinf (.fin 0) := DReal.not_lt_pinf_left _
  rcases not_and_or.mp hout with hlt | hgt
  · have hol : o < lo := not_le.mp hlt
    have ht0 : DReal.mul (lo - o) DReal.pinf = .pinf := by
      have : 0 < lo - o := by linarith
      simp [DReal.mul, this]
    have ht1 : DReal.mul (hi - o) DReal.pinf = .pinf := by
      have : 0 < hi - o := by linarith
      simp [DReal.mul, this]
    have hm : (if DReal.lt (DReal.ofEReal em) DReal.pinf then DReal.pinf
        else DReal.ofEReal em) = DReal.pinf := by
      induction em using EReal.rec <;>
        simp [DReal.ofEReal_bot, DReal.ofEReal_top, DReal.ofEReal_coe, DReal.lt]
    simp only [slabAxis, hrecip, ht0, ht1, if_neg hswapc, hm,
      if_neg (DReal.not_lt_pinf_left (DReal.ofEReal eM))]
    exact DReal.le_pinf _ (DReal.ofEReal_ne_nan _)
  · have hoh : hi < o := not_le.mp hgt
    have ht0 : DReal.mul (lo - o) DReal.pinf = .ninf := by
      have h1 : lo - o < 0 := by linarith
      simp [DReal.mul, not_lt_of_gt h1, h1]
    have ht1 : DReal.mul (hi - o) DReal.pinf = .ninf := by
      have h1 : hi - o < 0 := by linarith
      simp [DReal.mul, not_lt_of_gt h1, h1]
    have hM : (if DReal.lt DReal.ninf (DReal.ofEReal eM) then DReal.ninf
        else DReal.ofEReal eM) = DReal.ninf := by
      induction eM using EReal.rec <;>
        simp [DReal.ofEReal_bot, DReal.ofEReal_top, DReal.ofEReal_coe, DReal.lt]
    simp only [slabAxis, hrecip, ht0, ht1, if_neg hswapc, hM,
      if_neg (DReal.not_lt_ninf_right (DReal.ofEReal em))]
    exact DReal.ninf_le _ (DReal.ofEReal_ne_nan _)

/-- The slab test of the source is equivalent to the spec-side
characterization, for boxes with `min <= max` on every axis. -/
lemma aabbHit_iff_slabSpec (bb : Aabb) (r : Ray) (tmin tmax : EReal)
    (hx : bb.minimum.x ≤ bb.maximum.x) (hy : bb.minimum.y ≤ bb.maximum.y)
    (hz : bb.minimum.z ≤ bb.maximum.z) :
    aabbHit bb r tmin tmax ↔ slabSpecHit bb r tmin tmax := by
  by_cases Fx : axFeasible bb.minimum.x bb.maximum.x r.orig.x r.dir.x
  · by_cases Fy : axFeasible bb.minimum.y bb.maximum.y r.orig.y r.dir.y
    · by_cases Fz : axFeasible bb.minimum.z bb.maximum.z r.orig.z r.dir.z
      · simp only [aabbHit, slabSpecHit,
          slabAxis_feasible _ _ _ _ Fx hx, slabAxis_feasible _ _ _ _ Fy hy,
          slabAxis_feasible _ _ _ _ Fz hz, DReal.le_ofEReal_iff, not_le]
        constructor
        · rintro ⟨-, -, h3⟩
          exact ⟨⟨Fx, Fy, Fz⟩, h3⟩
        · rintro ⟨-, h3⟩
          refine ⟨?_, ?_, h3⟩
          · exact lt_of_le_of_lt (le_trans (le_max_left _ _) (le_max_left _ _))
              (lt_of_lt_of_le h3 (le_trans (min_le_left _ _) (min_le_left _ _)))
          · exact lt_of_le_of_lt (le_max_left _ _)
              (lt_of_lt_of_le h3 (min_le_left _ _))
      · refine iff_of_false ?_ ?_
        · unfold axFeasible at Fz
          push_neg at Fz
          intro h
          have hform := h
          simp only [aabbHit, slabAxis_feasible _ _ _ _ Fx hx,
            slabAxis_feasible _ _ _ _ Fy hy] at hform
          refine hform.2.2 ?_
          rw [Fz.1]
          exact slabAxis_infeasible _ _ _ hz
            (fun hc => absurd hc.2 (not_le.mpr (Fz.2 hc.1))) _ _
        · intro h
          exact Fz h.1.2.2
    · refine iff_of_false ?_ ?_
      · unfold axFeasible at Fy
        push_neg at Fy
        intro h
        have hform := h
        simp only [aabbHit, slabAxis_feasible _ _ _ _ Fx hx] at hform
        refine hform.2.1 ?_
        rw [Fy.1]
        exact slabAxis_infeasible _ _ _ hy
          (fun hc => absurd hc.2 (not_le.mpr (Fy.2 hc.1))) _ _
      · intro h
        exact Fy h.1.2.1
  · refine iff_of_false ?_ ?_
    · unfold axFeasible at Fx
      push_neg at Fx
      intro h
      have h1 := h.1
      refine absurd ?_ h1
      rw [Fx.1]
      exact slabAxis_infeasible _ _ _ hx
        (fun hc => absurd hc.2 (not_le.mpr (Fx.2 hc.1))) _ _
    · intro h
      exact Fx h.1.1

end DRealLemmas

/-! ### Vector algebra and the sphere quadratic -/

section SphereLemmas

lemma Vec3.lengthSquared_nonneg (v : Vec3) : 0 ≤ v.lengthSquared := by
  unfold Vec3.lengthSquared; nlinarith [sq_nonneg v.x, sq_nonneg v.y, sq_nonneg v.z]

lemma Vec3.lengthSquared_pos (v : Vec3) (h : v ≠ Vec3.zero) :
    0 < v.lengthSquared := by
  by_contra hcon
  push_neg at hcon
  have h0 : v.lengthSquared = 0 := le_antisymm hcon (Vec3.lengthSquared_nonneg v)
  apply h
  obtain ⟨a, b, c⟩ := v
  have h0e : a * a + b * b + c * c = 0 := h0
  have ha : a = 0 := mul_self_eq_zero.mp
    (by nlinarith [mul_self_nonneg b, mul_self_nonneg c])
  have hb : b = 0 := mul_self_eq_zero.mp
    (by nlinarith [mul_self_nonneg a, mul_self_nonneg c])
  have hcz : c = 0 := mul_self_eq_zero.mp
    (by nlinarith [mul_self_nonneg a, mul_self_nonneg b])
  simp [Vec3.zero, ha, hb, hcz]

lemma Ray.at_sub (r : Ray) (c : Vec3) (t : ℝ) :
    (r.at t).sub c = (r.orig.sub c).add (Vec3.smul t r.dir) := by
  simp only [Ray.at, Vec3.sub, Vec3.add, Vec3.smul, Vec3.mk.injEq]
  refine ⟨by ring, by ring, by ring⟩

lemma Vec3.lengthSquared_add_smul (u d : Vec3) (t : ℝ) :
    (u.add (Vec3.smul t d)).lengthSquared =
      u.lengthSquared + 2 * t * Vec3.dot u d + t ^ 2 * d.lengthSquared := by
  simp only [Vec3.add, Vec3.smul, Vec3.lengthSquared, Vec3.dot]
  ring

lemma Vec3.lengthSquared_neg (v : Vec3) :
    v.neg.lengthSquared = v.lengthSquared := by
  simp only [Vec3.neg, Vec3.lengthSquared]; ring

lemma Vec3.length_neg (v : Vec3) : v.neg.length = v.length := by
  simp [Vec3.length, Vec3.lengthSquared_neg]

lemma Vec3.lengthSquared_divs (v : Vec3) (s : ℝ) :
    (v.divs s).lengthSquared = (1 / s) ^ 2 * v.lengthSquared := by
  simp only [Vec3.divs, Vec3.smul, Vec3.lengthSquared]; ring

/-- The quadratic roots of the sphere intersection are ordered (in the model
even when `a = 0`, where both collapse to `0`). -/
lemma quadRoots_ordered (hb s a : ℝ) (hs : 0 ≤ s) (ha : 0 ≤ a) :
    (-hb - s) / a ≤ (-hb + s) / a := by
  rcases eq_or_lt_of_le ha with ha0 | hapos
  · rw [← ha0]; simp
  · exact (div_le_div_iff_of_pos_right hapos).mpr (by linarith)

/-- Root selection of `sphere::hit`: a hit on a shrunk upper bound is
exactly the hit on the wide bound whose parameter fits in the shrunk one. -/
lemma quadSel_shrink (root1 root2 : ℝ) (h12 : root1 ≤ root2)
    (f : ℝ → HitRecord) (hft : ∀ s, (f s).t = s)
    (tmin c tmax : EReal) (hc : c ≤ tmax) (rec : HitRecord) :
    ((if (root1 : EReal) < tmin ∨ c < (root1 : EReal) then
        (if (root2 : EReal) < tmin ∨ c < (root2 : EReal) then none
         else some (f root2))
      else some (f root1)) = some rec) ↔
    (((if (root1 : EReal) < tmin ∨ tmax < (root1 : EReal) then
        (if (root2 : EReal) < tmin ∨ tmax < (root2 : EReal) then none
         else some (f root2))
      else some (f root1)) = some rec) ∧ (rec.t : EReal) ≤ c) := by
  have h12e : (root1 : EReal) ≤ (root2 : EReal) := EReal.coe_le_coe_iff.mpr h12
  by_cases hA1c : (root1 : EReal) < tmin ∨ c < (root1 : EReal)
  · by_cases hA2c : (root2 : EReal) < tmin ∨ c < (root2 : EReal)
    · rw [if_pos hA1c, if_pos hA2c]
      simp only [reduceCtorEq, false_iff, not_and]
      intro hfull
      by_cases hA1t : (root1 : EReal) < tmin ∨ tmax < (root1 : EReal)
      · rw [if_pos hA1t] at hfull
        by_cases hA2t : (root2 : EReal) < tmin ∨ tmax < (root2 : EReal)
        · rw [if_pos hA2t] at hfull; exact absurd hfull (by simp)
        · rw [if_neg hA2t] at hfull
          have hrec : rec = f root2 := (Option.some.inj hfull).symm
          push_neg at hA2t
          rw [hrec, hft]
          intro hle
          rcases hA2c with h | h
          · exact absurd h (not_lt.mpr hA2t.1)
          · exact absurd hle (not_le.mpr h)
      · rw [if_neg hA1t] at hfull
        have hrec : rec = f root1 := (Option.some.inj hfull).symm
        push_neg at hA1t
        rw [hrec, hft]
        intro hle
        rcases hA1c with h | h
        · exact absurd h (not_lt.mpr hA1t.1)
        · exact absurd hle (not_le.mpr h)
    · rw [if_pos hA1c, if_neg hA2c]
      push_neg at hA2c
      have hA2t : ¬ ((root2 : EReal) < tmin ∨ tmax < (root2 : EReal)) := by
        push_neg
        exact ⟨hA2c.1, le_trans hA2c.2 hc⟩
      by_cases hA1t : (root1 : EReal) < tmin ∨ tmax < (root1 : EReal)
      · rw [if_pos hA1t, if_neg hA2t]
        constructor
        · intro h
          refine ⟨h, ?_⟩
          have hrec : rec = f root2 := (Option.some.inj h).symm
          rw [hrec, hft]
          exact hA2c.2
        · exact fun h => h.1
      · exfalso
        push_neg at hA1t
        rcases hA1c with h | h
        · exact absurd h (not_lt.mpr hA1t.1)
        · exact absurd (le_trans h12e hA2c.2) (not_le.mpr h)
  · push_neg at hA1c
    have hA1t : ¬ ((root1 : EReal) < tmin ∨ tmax < (root1 : EReal)) := by
      push_neg
      exact ⟨hA1c.1, le_trans hA1c.2 hc⟩
    rw [if_neg (by push_neg; exact hA1c), if_neg hA1t]
    constructor
    · intro h
      refine ⟨h, ?_⟩
      have hrec : rec = f root1 := (Option.some.inj h).symm
      rw [hrec, hft]
      exact hA1c.2
    · exact fun h => h.1

/-- The accepted root parameter of the sphere quadratic puts the hit point
exactly on the sphere. -/
lemma quad_root_dist (oc d : Vec3) (rad t : ℝ) (ha : d.lengthSquared ≠ 0)
    (hdisc : 0 ≤ Vec3.dot oc d * Vec3.dot oc d -
      d.lengthSquared * (oc.lengthSquared - rad * rad))
    (hroot :
      t = (-(Vec3.dot oc d) - Real.sqrt (Vec3.dot oc d * Vec3.dot oc d -
            d.lengthSquared * (oc.lengthSquared - rad * rad))) / d.lengthSquared ∨
      t = (-(Vec3.dot oc d) + Real.sqrt (Vec3.dot oc d * Vec3.dot oc d -
            d.lengthSquared * (oc.lengthSquared - rad * rad))) / d.lengthSquared) :
    (oc.add (Vec3.smul t d)).lengthSquared = rad * rad := by
  have hs2 : Real.sqrt (Vec3.dot oc d * Vec3.dot oc d -
        d.lengthSquared * (oc.lengthSquared - rad * rad)) *
      Real.sqrt (Vec3.dot oc d * Vec3.dot oc d -
        d.lengthSquared * (oc.lengthSquared - rad * rad)) =
      Vec3.dot oc d * Vec3.dot oc d -
        d.lengthSquared * (oc.lengthSquared - rad * rad) :=
    Real.mul_self_sqrt hdisc
  have hkey : (d.lengthSquared * t + Vec3.dot oc d) *
      (d.lengthSquared * t + Vec3.dot oc d) =
      Vec3.dot oc d * Vec3.dot oc d -
        d.lengthSquared * (oc.lengthSquared - rad * rad) := by
    rcases hroot with h | h
    · have : d.lengthSquared * t + Vec3.dot oc d =
          -(Real.sqrt (Vec3.dot oc d * Vec3.dot oc d -
            d.lengthSquared * (oc.lengthSquared - rad * rad))) := by
        rw [h]; field_simp; try ring
      rw [this, neg_mul_neg]; exact hs2
    · have : d.lengthSquared * t + Vec3.dot oc d =
          Real.sqrt (Vec3.dot oc d * Vec3.dot oc d -
            d.lengthSquared * (oc.lengthSquared - rad * rad)) := by
        rw [h]; field_simp; try ring
      rw [this]; exact hs2
  have hmul : d.lengthSquared * (d.lengthSquared * t ^ 2 +
      2 * Vec3.dot oc d * t + (oc.lengthSquared - rad * rad)) = 0 := by
    linear_combination hkey
  have hinner : d.lengthSquared * t ^ 2 + 2 * Vec3.dot oc d * t +
      (oc.lengthSquared - rad * rad) = 0 :=
    (mul_eq_zero.mp hmul).resolve_left ha
  rw [Vec3.lengthSquared_add_smul]
  linear_combination hinner

/-- Shrinking the upper query bound of `sphere::hit` keeps exactly the hits
whose parameter fits. -/
lemma sphereHit_shrink (c : Vec3) (rad : ℝ) (m : ℕ) (r : Ray)
    (tmin cB tmax : EReal) (hc : cB ≤ tmax) (rec : HitRecord) :
    sphereHit c rad m r tmin cB = some rec ↔
      sphereHit c rad m r tmin tmax = some rec ∧ (rec.t : EReal) ≤ cB := by
  simp only [sphereHit]
  by_cases hd : Vec3.dot (r.orig.sub c) r.dir * Vec3.dot (r.orig.sub c) r.dir -
      r.dir.lengthSquared * ((r.orig.sub c).lengthSquared - rad * rad) < 0
  · rw [if_pos hd, if_pos hd]
    simp
  · rw [if_neg hd, if_neg hd]
    refine quadSel_shrink _ _
      (quadRoots_ordered _ _ _ (Real.sqrt_nonneg _) (Vec3.lengthSquared_nonneg _))
      _ ?_ tmin cB tmax hc rec
    exact fun _ => rfl

/-- Shrinking the upper query bound of `moving_sphere::hit` keeps exactly
the hits whose parameter fits. -/
lemma movingSphereHit_shrink (c0 c1 : Vec3) (tm0 tm1 rad : ℝ) (m : ℕ)
    (r : Ray) (tmin cB tmax : EReal) (hc : cB ≤ tmax) (rec : HitRecord) :
    movingSphereHit c0 c1 tm0 tm1 rad m r tmin cB = some rec ↔
      movingSphereHit c0 c1 tm0 tm1 rad m r tmin tmax = some rec ∧
        (rec.t : EReal) ≤ cB := by
  simp only [movingSphereHit]
  by_cases hd : Vec3.dot (r.orig.sub (msCenter c0 c1 tm0 tm1 r.tm)) r.dir *
      Vec3.dot (r.orig.sub (msCenter c0 c1 tm0 tm1 r.tm)) r.dir -
      r.dir.lengthSquared *
        ((r.orig.sub (msCenter c0 c1 tm0 tm1 r.tm)).lengthSquared - rad * rad) < 0
  · rw [if_pos hd, if_pos hd]
    simp
  · rw [if_neg hd, if_neg hd]
    refine quadSel_shrink _ _
      (quadRoots_ordered _ _ _ (Real.sqrt_nonneg _) (Vec3.lengthSquared_nonneg _))
      _ ?_ tmin cB tmax hc rec
    exact fun _ => rfl

/-- Everything a successful `sphere::hit` guarantees about its record. -/
lemma sphereHit_some_facts (c : Vec3) (rad : ℝ) (m : ℕ) (r : Ray)
    (tmin tmax : EReal) (rec : HitRecord)
    (h : sphereHit c rad m r tmin tmax = some rec) :
    tmin ≤ (rec.t : EReal) ∧ (rec.t : EReal) ≤ tmax ∧ rec.p = r.at rec.t ∧
      rec.mat = m ∧
      rec.normal = (setFaceNormal r (((r.at rec.t).sub c).divs rad)).2 ∧
      rec.frontFace = (setFaceNormal r (((r.at rec.t).sub c).divs rad)).1 ∧
      (r.dir ≠ Vec3.zero →
        ((r.at rec.t).sub c).lengthSquared = rad * rad) := by
  simp only [sphereHit] at h
  split at h
  · exact absurd h (by simp)
  · rename_i hdisc
    push_neg at hdisc
    split at h
    · rename_i hA1
      split at h
      · exact absurd h (by simp)
      · rename_i hA2
        push_neg at hA2
        obtain rfl : rec = _ := (Option.some.inj h).symm
        refine ⟨hA2.1, hA2.2, rfl, rfl, rfl, rfl, fun hdir => ?_⟩
        rw [Ray.at_sub]
        exact quad_root_dist _ _ _ _
          (ne_of_gt (Vec3.lengthSquared_pos _ hdir)) hdisc (Or.inr rfl)
    · rename_i hA1
      push_neg at hA1
      obtain rfl : rec = _ := (Option.some.inj h).symm
      refine ⟨hA1.1, hA1.2, rfl, rfl, rfl, rfl, fun hdir => ?_⟩
      rw [Ray.at_sub]
      exact quad_root_dist _ _ _ _
        (ne_of_gt (Vec3.lengthSquared_pos _ hdir)) hdisc (Or.inl rfl)

/-- Everything a successful `moving_sphere::hit` guarantees about its
record. -/
lemma movingSphereHit_some_facts (c0 c1 : Vec3) (tm0 tm1 rad : ℝ) (m : ℕ)
    (r : Ray) (tmin tmax : EReal) (rec : HitRecord)
    (h : movingSphereHit c0 c1 tm0 tm1 rad m r tmin tmax = some rec) :
    tmin ≤ (rec.t : EReal) ∧ (rec.t : EReal) ≤ tmax ∧ rec.p = r.at rec.t ∧
      rec.mat = m ∧
      rec.normal = (setFaceNormal r
        (((r.at rec.t).sub (msCenter c0 c1 tm0 tm1 r.tm)).divs rad)).2 ∧
      rec.frontFace = (setFaceNormal r
        (((r.at rec.t).sub (msCenter c0 c1 tm0 tm1 r.tm)).divs rad)).1 ∧
      (r.dir ≠ Vec3.zero →
        ((r.at rec.t).sub (msCenter c0 c1 tm0 tm1 r.tm)).lengthSquared =
          rad * rad) := by
  simp only [movingSphereHit] at h
  split at h
  · exact absurd h (by simp)
  · rename_i hdisc
    push_neg at hdisc
    split at h
    · rename_i hA1
      split at h
      · exact absurd h (by simp)
      · rename_i hA2
        push_neg at hA2
        obtain rfl : rec = _ := (Option.some.inj h).symm
        refine ⟨hA2.1, hA2.2, rfl, rfl, rfl, rfl, fun hdir => ?_⟩
        rw [Ray.at_sub]
        exact quad_root_dist _ _ _ _
          (ne_of_gt (Vec3.lengthSquared_pos _ hdir)) hdisc (Or.inr rfl)
    · rename_i hA1
      push_neg at hA1
      obtain rfl : rec = _ := (Option.some.inj h).symm
      refine ⟨hA1.1, hA1.2, rfl, rfl, rfl, rfl, fun hdir => ?_⟩
      rw [Ray.at_sub]
      exact quad_root_dist _ _ _ _
        (ne_of_gt (Vec3.lengthSquared_pos _ hdir)) hdisc (Or.inl rfl)

end SphereLemmas

/-! ### Unfolding equations of the polymorphic hit -/

section HitEquations

lemma hit_sphere (c : Vec3) (rad : ℝ) (m : ℕ) (r : Ray) (tmin tmax : EReal)
    (g : ℕ → ℝ) (n : ℕ) :
    Hittable.hit (.sphere c rad m) r tmin tmax g n =
      (sphereHit c rad m r tmin tmax, n) := by
  simp [Hittable.hit]

lemma hit_movingSphere (c0 c1 : Vec3) (tm0 tm1 rad : ℝ) (m : ℕ) (r : Ray)
    (tmin tmax : EReal) (g : ℕ → ℝ) (n : ℕ) :
    Hittable.hit (.movingSphere c0 c1 tm0 tm1 rad m) r tmin tmax g n =
      (movingSphereHit c0 c1 tm0 tm1 rad m r tmin tmax, n) := by
  simp [Hittable.hit]

lemma hit_list (objs : List Hittable) (r : Ray) (tmin tmax : EReal)
    (g : ℕ → ℝ) (n : ℕ) :
    Hittable.hit (.list objs) r tmin tmax g n =
      hitLoop objs r tmin tmax none g n := by
  simp [Hittable.hit]

lemma hit_bvh (l rgt : Hittable) (box : Aabb) (r : Ray) (tmin tmax : EReal)
    (g : ℕ → ℝ) (n : ℕ) :
    Hittable.hit (.bvhNode l rgt box) r tmin tmax g n =
      (if aabbHit box r tmin tmax then
        match Hittable.hit l r tmin tmax g n with
        | (some recL, n1) =>
          (match Hittable.hit rgt r tmin (recL.t : EReal) g n1 with
           | (some recR, n2) => (some recR, n2)
           | (none, n2) => (some recL, n2))
        | (none, n1) =>
          (match Hittable.hit rgt r tmin tmax g n1 with
           | (some recR, n2) => (some recR, n2)
           | (none, n2) => (none, n2))
      else (none, n)) := by
  rw [Hittable.hit]

lemma hit_medium (b : Hittable) (negInv : ℝ) (m : ℕ) (r : Ray)
    (tmin tmax : EReal) (g : ℕ → ℝ) (n : ℕ) :
    Hittable.hit (.constantMedium b negInv m) r tmin tmax g n =
      (match Hittable.hit b r ⊥ ⊤ g n with
       | (none, n1) => (none, n1)
       | (some rec1, n1) =>
         match Hittable.hit b r ((rec1.t + 1 / 10000 : ℝ) : EReal) ⊤ g n1 with
         | (none, n2) => (none, n2)
         | (some rec2, n2) => mediumStep negInv m r tmin tmax rec1.t rec2.t g n2) := by
  rw [Hittable.hit]

lemma hitLoop_nil (r : Ray) (tmin tmax : EReal) (acc : Option HitRecord)
    (g : ℕ → ℝ) (n : ℕ) :
    hitLoop [] r tmin tmax acc g n = (acc, n) := by
  simp [hitLoop]

lemma hitLoop_cons (o : Hittable) (os : List Hittable) (r : Ray)
    (tmin tmax : EReal) (acc : Option HitRecord) (g : ℕ → ℝ) (n : ℕ) :
    hitLoop (o :: os) r tmin tmax acc g n =
      (match Hittable.hit o r tmin
          (match acc with
           | some rec => (rec.t : EReal)
           | none => tmax) g n with
       | (some rec, n1) => hitLoop os r tmin tmax (some rec) g n1
       | (none, n1) => hitLoop os r tmin tmax acc g n1) := by
  rw [hitLoop.eq_def]

lemma hit_bvh_nobox (l rgt : Hittable) (box : Aabb) (r : Ray)
    (tmin tmax : EReal) (g : ℕ → ℝ) (n : ℕ) (hbox : ¬ aabbHit box r tmin tmax) :
    Hittable.hit (.bvhNode l rgt box) r tmin tmax g n = (none, n) := by
  rw [Hittable.hit, if_neg hbox]

lemma hit_bvh_ss (l rgt : Hittable) (box : Aabb) (r : Ray)
    (tmin tmax : EReal) (g : ℕ → ℝ) (n n1 n2 : ℕ) (recL recR : HitRecord)
    (hbox : aabbHit box r tmin tmax)
    (hL : Hittable.hit l r tmin tmax g n = (some recL, n1))
    (hR : Hittable.hit rgt r tmin (recL.t : EReal) g n1 = (some recR, n2)) :
    Hittable.hit (.bvhNode l rgt box) r tmin tmax g n = (some recR, n2) := by
  rw [Hittable.hit, if_pos hbox, hL]
  rw [show (match (some recL, n1) with
    | (some recL, n1) =>
      (match Hittable.hit rgt r tmin (recL.t : EReal) g n1 with
       | (some recR, n2) => (some recR, n2)
       | (none, n2) => (some recL, n2))
    | (none, n1) =>
      (match Hittable.hit rgt r tmin tmax g n1 with
       | (some recR, n2) => (some recR, n2)
       | (none, n2) => ((none : Option HitRecord), n2)) :
      Option HitRecord × ℕ) =
    (match Hittable.hit rgt r tmin (recL.t : EReal) g n1 with
     | (some recR, n2) => (some recR, n2)
     | (none, n2) => (some recL, n2)) from rfl, hR]

lemma hit_bvh_sn (l rgt : Hittable) (box : Aabb) (r : Ray)
    (tmin tmax : EReal) (g : ℕ → ℝ) (n n1 n2 : ℕ) (recL : HitRecord)
    (hbox : aabbHit box r tmin tmax)
    (hL : Hittable.hit l r tmin tmax g n = (some recL, n1))
    (hR : Hittable.hit rgt r tmin (recL.t : EReal) g n1 = (none, n2)) :
    Hittable.hit (.bvhNode l rgt box) r tmin tmax g n = (some recL, n2) := by
  rw [Hittable.hit, if_pos hbox, hL]
  rw [show (match (some recL, n1) with
    | (some recL, n1) =>
      (match Hittable.hit rgt r tmin (recL.t : EReal) g n1 with
       | (some recR, n2) => (some recR, n2)
       | (none, n2) => (some recL, n2))
    | (none, n1) =>
      (match Hittable.hit rgt r tmin tmax g n1 with
       | (some recR, n2) => (some recR, n2)
       | (none, n2) => ((none : Option HitRecord), n2)) :
      Option HitRecord × ℕ) =
    (match Hittable.hit rgt r tmin (recL.t : EReal) g n1 with
     | (some recR, n2) => (some recR, n2)
     | (none, n2) => (some recL, n2)) from rfl, hR]

lemma hit_bvh_ns (l rgt : Hittable) (box : Aabb) (r : Ray)
    (tmin tmax : EReal) (g : ℕ → ℝ) (n n1 n2 : ℕ) (recR : HitRecord)
    (hbox : aabbHit box r tmin tmax)
    (hL : Hittable.hit l r tmin tmax g n = (none, n1))
    (hR : Hittable.hit rgt r tmin tmax g n1 = (some recR, n2)) :
    Hittable.hit (.bvhNode l rgt box) r tmin tmax g n = (some recR, n2) := by
  rw [Hittable.hit, if_pos hbox, hL]
  rw [show (match ((none : Option HitRecord), n1) with
    | (some recL, n1) =>
      (match Hittable.hit rgt r tmin (recL.t : EReal) g n1 with
       | (some recR, n2) => (some recR, n2)
       | (none, n2) => (some recL, n2))
    | (none, n1) =>
      (match Hittable.hit rgt r tmin tmax g n1 with
       | (some recR, n2) => (some recR, n2)
       | (none, n2) => ((none : Option HitRecord), n2)) :
      Option HitRecord × ℕ) =
    (match Hittable.hit rgt r tmin tmax g n1 with
     | (some recR, n2) => (some recR, n2)
     | (none, n2) => ((none : Option HitRecord), n2)) from rfl, hR]

lemma hit_bvh_nn (l rgt : Hittable) (box : Aabb) (r : Ray)
    (tmin tmax : EReal) (g : ℕ → ℝ) (n n1 n2 : ℕ)
    (hbox : aabbHit box r tmin tmax)
    (hL : Hittable.hit l r tmin tmax g n = (none, n1))
    (hR : Hittable.hit rgt r tmin tmax g n1 = (none, n2)) :
    Hittable.hit (.bvhNode l rgt box) r tmin tmax g n = (none, n2) := by
  rw [Hittable.hit, if_pos hbox, hL]
  rw [show (match ((none : Option HitRecord), n1) with
    | (some recL, n1) =>
      (match Hittable.hit rgt r tmin (recL.t : EReal) g n1 with
       | (some recR, n2) => (some recR, n2)
       | (none, n2) => (some recL, n2))
    | (none, n1) =>
      (match Hittable.hit rgt r tmin tmax g n1 with
       | (some recR, n2) => (some recR, n2)
       | (none, n2) => ((none : Option HitRecord), n2)) :
      Option HitRecord × ℕ) =
    (match Hittable.hit rgt r tmin tmax g n1 with
     | (some recR, n2) => (some recR, n2)
     | (none, n2) => ((none : Option HitRecord), n2)) from rfl, hR]

lemma hitLoop_cons_some (o : Hittable) (os : List Hittable) (r : Ray)
    (tmin tmax : EReal) (acc : Option HitRecord) (g : ℕ → ℝ) (n n1 : ℕ)
    (rec : HitRecord)
    (h : Hittable.hit o r tmin
      (match acc with
       | some rec0 => (rec0.t : EReal)
       | none => tmax) g n = (some rec, n1)) :
    hitLoop (o :: os) r tmin tmax acc g n =
      hitLoop os r tmin tmax (some rec) g n1 := by
  rw [hitLoop_cons, h]

lemma hitLoop_cons_none (o : Hittable) (os : List Hittable) (r : Ray)
    (tmin tmax : EReal) (acc : Option HitRecord) (g : ℕ → ℝ) (n n1 : ℕ)
    (h : Hittable.hit o r tmin
      (match acc with
       | some rec0 => (rec0.t : EReal)
       | none => tmax) g n = (none, n1)) :
    hitLoop (o :: os) r tmin tmax acc g n =
      hitLoop os r tmin tmax acc g n1 := by
  rw [hitLoop_cons, h]

end HitEquations

/-! ### Deterministic scenes ignore the RNG -/

section DetLemmas

lemma NoMedium_list (objs : List Hittable) :
    NoMedium (.list objs) ↔ NoMediumL objs := by
  rw [NoMedium]

lemma NoMedium_bvh (l rgt : Hittable) (box : Aabb) :
    NoMedium (.bvhNode l rgt box) ↔ NoMedium l ∧ NoMedium rgt := by
  rw [NoMedium]

lemma NoMedium_medium (b : Hittable) (d : ℝ) (m : ℕ) :
    ¬ NoMedium (.constantMedium b d m) := by
  rw [NoMedium]
  exact fun h => h

lemma NoMediumL_cons (o : Hittable) (os : List Hittable) :
    NoMediumL (o :: os) ↔ NoMedium o ∧ NoMediumL os := by
  rw [NoMediumL]

/-- A scene without `constant_medium` neither advances the RNG cursor nor
lets the stream influence the result. -/
lemma hit_det (h : Hittable) (r : Ray) (tmin tmax : EReal) (g : ℕ → ℝ)
    (n : ℕ) :
    NoMedium h → ∀ (gp : ℕ → ℝ) (np : ℕ),
      (Hittable.hit h r tmin tmax g n).2 = n ∧
      (Hittable.hit h r tmin tmax g n).1 =
        (Hittable.hit h r tmin tmax gp np).1 := by
  refine Hittable.hit.induct
    (fun h r tmin tmax g n => NoMedium h → ∀ (gp : ℕ → ℝ) (np : ℕ),
      (Hittable.hit h r tmin tmax g n).2 = n ∧
      (Hittable.hit h r tmin tmax g n).1 =
        (Hittable.hit h r tmin tmax gp np).1)
    (fun os r tmin tmax acc g n => NoMediumL os → ∀ (gp : ℕ → ℝ) (np : ℕ),
      (hitLoop os r tmin tmax acc g n).2 = n ∧
      (hitLoop os r tmin tmax acc g n).1 =
        (hitLoop os r tmin tmax acc gp np).1)
    ?_ ?_ ?_ ?_ ?_ ?_ ?_ ?_ ?_ ?_ ?_ ?_ ?_ ?_ h r tmin tmax g n
  · intro c rad m r tmin tmax g n _ gp np
    rw [hit_sphere, hit_sphere]
    exact ⟨rfl, rfl⟩
  · intro c0 c1 tm0 tm1 rad m r tmin tmax g n _ gp np
    rw [hit_movingSphere, hit_movingSphere]
    exact ⟨rfl, rfl⟩
  · intro b negInv m r tmin tmax g n n2 _ _ hNM
    exact absurd hNM (NoMedium_medium _ _ _)
  · intro b negInv m r tmin tmax g n rec2 n2 _ n3 _ _ _ hNM
    exact absurd hNM (NoMedium_medium _ _ _)
  · intro b negInv m r tmin tmax g n rec2 n2 _ rec3 n3 _ _ _ hNM
    exact absurd hNM (NoMedium_medium _ _ _)
  · intro objs r tmin tmax g n ih hNM gp np
    rw [hit_list, hit_list]
    exact ih ((NoMedium_list objs).mp hNM) gp np
  · intro l rgt box r tmin tmax g n hbox recL n1 hL recR n2 hR ihL ihR hNM gp np
    obtain ⟨hNl, hNr⟩ := (NoMedium_bvh l rgt box).mp hNM
    have hn1 : n1 = n := by
      have := (ihL hNl g n).1
      rw [hL] at this
      exact this
    have hn2 : n2 = n1 := by
      have := (ihR hNr g n1).1
      rw [hR] at this
      exact this
    obtain ⟨vL, mL, hLp⟩ : ∃ v m',
        Hittable.hit l r tmin tmax gp np = (v, m') := ⟨_, _, rfl⟩
    have hvL : vL = some recL := by
      have := (ihL hNl gp np).2
      rw [hL, hLp] at this
      exact this.symm
    subst hvL
    obtain ⟨vR, mR, hRp⟩ : ∃ v m',
        Hittable.hit rgt r tmin (recL.t : EReal) gp mL = (v, m') := ⟨_, _, rfl⟩
    have hvR : vR = some recR := by
      have := (ihR hNr gp mL).2
      rw [hR, hRp] at this
      exact this.symm
    subst hvR
    rw [hit_bvh_ss l rgt box r tmin tmax g n n1 n2 recL recR hbox hL hR,
      hit_bvh_ss l rgt box r tmin tmax gp np mL mR recL recR hbox hLp hRp]
    exact ⟨by omega, rfl⟩
  · intro l rgt box r tmin tmax g n hbox recL n1 hL n2 hR ihL ihR hNM gp np
    obtain ⟨hNl, hNr⟩ := (NoMedium_bvh l rgt box).mp hNM
    have hn1 : n1 = n := by
      have := (ihL hNl g n).1
      rw [hL] at this
      exact this
    have hn2 : n2 = n1 := by
      have := (ihR hNr g n1).1
      rw [hR] at this
      exact this
    obtain ⟨vL, mL, hLp⟩ : ∃ v m',
        Hittable.hit l r tmin tmax gp np = (v, m') := ⟨_, _, rfl⟩
    have hvL : vL = some recL := by
      have := (ihL hNl gp np).2
      rw [hL, hLp] at this
      exact this.symm
    subst hvL
    obtain ⟨vR, mR, hRp⟩ : ∃ v m',
        Hittable.hit rgt r tmin (recL.t : EReal) gp mL = (v, m') := ⟨_, _, rfl⟩
    have hvR : vR = none := by
      have := (ihR hNr gp mL).2
      rw [hR, hRp] at this
      exact this.symm
    subst hvR
    rw [hit_bvh_sn l rgt box r tmin tmax g n n1 n2 recL hbox hL hR,
      hit_bvh_sn l rgt box r tmin tmax gp np mL mR recL hbox hLp hRp]
    exact ⟨by omega, rfl⟩
  · intro l rgt box r tmin tmax g n hbox n1 hL recR n2 hR ihL ihR hNM gp np
    obtain ⟨hNl, hNr⟩ := (NoMedium_bvh l rgt box).mp hNM
    have hn1 : n1 = n := by
      have := (ihL hNl g n).1
      rw [hL] at this
      exact this
    have hn2 : n2 = n1 := by
      have := (ihR hNr g n1).1
      rw [hR] at this
      exact this
    obtain ⟨vL, mL, hLp⟩ : ∃ v m',
        Hittable.hit l r tmin tmax gp np = (v, m') := ⟨_, _, rfl⟩
    have hvL : vL = none := by
      have := (ihL hNl gp np).2
      rw [hL, hLp] at this
      exact this.symm
    subst hvL
    obtain ⟨vR, mR, hRp⟩ : ∃ v m',
        Hittable.hit rgt r tmin tmax gp mL = (v, m') := ⟨_, _, rfl⟩
    have hvR : vR = some recR := by
      have := (ihR hNr gp mL).2
      rw [hR, hRp] at this
      exact this.symm
    subst hvR
    rw [hit_bvh_ns l rgt box r tmin tmax g n n1 n2 recR hbox hL hR,
      hit_bvh_ns l rgt box r tmin tmax gp np mL mR recR hbox hLp hRp]
    exact ⟨by omega, rfl⟩
  · intro l rgt box r tmin tmax g n hbox n1 hL n2 hR ihL ihR hNM gp np
    obtain ⟨hNl, hNr⟩ := (NoMedium_bvh l rgt box).mp hNM
    have hn1 : n1 = n := by
      have := (ihL hNl g n).1
      rw [hL] at this
      exact this
    have hn2 : n2 = n1 := by
      have := (ihR hNr g n1).1
      rw [hR] at this
      exact this
    obtain ⟨vL, mL, hLp⟩ : ∃ v m',
        Hittable.hit l r tmin tmax gp np = (v, m') := ⟨_, _, rfl⟩
    have hvL : vL = none := by
      have := (ihL hNl gp np).2
      rw [hL, hLp] at this
      exact this.symm
    subst hvL
    obtain ⟨vR, mR, hRp⟩ : ∃ v m',
        Hittable.hit rgt r tmin tmax gp mL = (v, m') := ⟨_, _, rfl⟩
    have hvR : vR = none := by
      have := (ihR hNr gp mL).2
      rw [hR, hRp] at this
      exact this.symm
    subst hvR
    rw [hit_bvh_nn l rgt box r tmin tmax g n n1 n2 hbox hL hR,
      hit_bvh_nn l rgt box r tmin tmax gp np mL mR hbox hLp hRp]
    exact ⟨by omega, rfl⟩
  · intro l rgt box r tmin tmax g n hbox _hNM gp np
    rw [hit_bvh_nobox _ _ _ _ _ _ _ _ hbox, hit_bvh_nobox _ _ _ _ _ _ _ _ hbox]
    exact ⟨rfl, rfl⟩
  · intro r tmin tmax acc g n _ gp np
    rw [hitLoop_nil, hitLoop_nil]
    exact ⟨rfl, rfl⟩
  · intro o os r tmin tmax acc g n closest rec n1 hO ihO ihLoop hNM gp np
    obtain ⟨hNo, hNos⟩ := (NoMediumL_cons o os).mp hNM
    have hn1 : n1 = n := by
      have := (ihO hNo g n).1
      rw [hO] at this
      exact this
    obtain ⟨vO, mO, hOp⟩ : ∃ v m',
        Hittable.hit o r tmin closest gp np = (v, m') := ⟨_, _, rfl⟩
    have hvO : vO = some rec := by
      have := (ihO hNo gp np).2
      rw [hO, hOp] at this
      exact this.symm
    subst hvO
    rw [hitLoop_cons_some o os r tmin tmax acc g n n1 rec hO,
      hitLoop_cons_some o os r tmin tmax acc gp np mO rec hOp]
    have hrest := ihLoop hNos gp mO
    refine ⟨by rw [hrest.1]; omega, hrest.2⟩
  · intro o os r tmin tmax acc g n closest n1 hO ihO ihLoop hNM gp np
    obtain ⟨hNo, hNos⟩ := (NoMediumL_cons o os).mp hNM
    have hn1 : n1 = n := by
      have := (ihO hNo g n).1
      rw [hO] at this
      exact this
    obtain ⟨vO, mO, hOp⟩ : ∃ v m',
        Hittable.hit o r tmin closest gp np = (v, m') := ⟨_, _, rfl⟩
    have hvO : vO = none := by
      have := (ihO hNo gp np).2
      rw [hO, hOp] at this
      exact this.symm
    subst hvO
    rw [hitLoop_cons_none o os r tmin tmax acc g n n1 hO,
      hitLoop_cons_none o os r tmin tmax acc gp np mO hOp]
    have hrest := ihLoop hNos gp mO
    refine ⟨by rw [hrest.1]; omega, hrest.2⟩

/-- Value of a deterministic hit on any stream equals `hit1`. -/
lemma hit_eq_hit1 (h : Hittable) (r : Ray) (tmin tmax : EReal) (g : ℕ → ℝ)
    (n : ℕ) (hNM : NoMedium h) :
    (Hittable.hit h r tmin tmax g n).1 = hit1 h r tmin tmax :=
  (hit_det h r tmin tmax g n hNM g0 0).2

/-- Any deterministic hit's accepted parameter lies inside the query
interval (the spec's C3-style bound, here for media-free scenes). -/
lemma hit_bounds_det (h : Hittable) (r : Ray) (tmin tmax : EReal)
    (g : ℕ → ℝ) (n : ℕ) :
    NoMedium h → ∀ rec, (Hittable.hit h r tmin tmax g n).1 = some rec →
      tmin ≤ (rec.t : EReal) ∧ (rec.t : EReal) ≤ tmax := by
  refine Hittable.hit.induct
    (fun h r tmin tmax g n => NoMedium h → ∀ rec,
      (Hittable.hit h r tmin tmax g n).1 = some rec →
      tmin ≤ (rec.t : EReal) ∧ (rec.t : EReal) ≤ tmax)
    (fun os r tmin tmax acc g n => NoMediumL os →
      (∀ rec0, acc = some rec0 → tmin ≤ (rec0.t : EReal) ∧ (rec0.t : EReal) ≤ tmax) →
      ∀ rec, (hitLoop os r tmin tmax acc g n).1 = some rec →
      tmin ≤ (rec.t : EReal) ∧ (rec.t : EReal) ≤ tmax)
    ?_ ?_ ?_ ?_ ?_ ?_ ?_ ?_ ?_ ?_ ?_ ?_ ?_ ?_ h r tmin tmax g n
  · intro c rad m r tmin tmax g n _ rec hrec
    rw [hit_sphere] at hrec
    have hfacts := sphereHit_some_facts c rad m r tmin tmax rec hrec
    exact ⟨hfacts.1, hfacts.2.1⟩
  · intro c0 c1 tm0 tm1 rad m r tmin tmax g n _ rec hrec
    rw [hit_movingSphere] at hrec
    have hfacts := movingSphereHit_some_facts c0 c1 tm0 tm1 rad m r tmin tmax rec hrec
    exact ⟨hfacts.1, hfacts.2.1⟩
  · intro b negInv m r tmin tmax g n n2 _ _ hNM
    exact absurd hNM (NoMedium_medium _ _ _)
  · intro b negInv m r tmin tmax g n rec2 n2 _ n3 _ _ _ hNM
    exact absurd hNM (NoMedium_medium _ _ _)
  · intro b negInv m r tmin tmax g n rec2 n2 _ rec3 n3 _ _ _ hNM
    exact absurd hNM (NoMedium_medium _ _ _)
  · intro objs r tmin tmax g n ih hNM rec hrec
    rw [hit_list] at hrec
    exact ih ((NoMedium_list objs).mp hNM) (by simp) rec hrec
  · intro l rgt box r tmin tmax g n hbox recL n1 hL recR n2 hR ihL ihR hNM rec hrec
    obtain ⟨hNl, hNr⟩ := (NoMedium_bvh l rgt box).mp hNM
    rw [hit_bvh_ss l rgt box r tmin tmax g n n1 n2 recL recR hbox hL hR] at hrec
    obtain rfl : recR = rec := Option.some.inj hrec
    have hbR := ihR hNr recR (by rw [hR])
    have hbL := ihL hNl recL (by rw [hL])
    exact ⟨hbR.1, le_trans hbR.2 hbL.2⟩
  · intro l rgt box r tmin tmax g n hbox recL n1 hL n2 hR ihL ihR hNM rec hrec
    obtain ⟨hNl, hNr⟩ := (NoMedium_bvh l rgt box).mp hNM
    rw [hit_bvh_sn l rgt box r tmin tmax g n n1 n2 recL hbox hL hR] at hrec
    obtain rfl : recL = rec := Option.some.inj hrec
    exact ihL hNl recL (by rw [hL])
  · intro l rgt box r tmin tmax g n hbox n1 hL recR n2 hR ihL ihR hNM rec hrec
    obtain ⟨hNl, hNr⟩ := (NoMedium_bvh l rgt box).mp hNM
    rw [hit_bvh_ns l rgt box r tmin tmax g n n1 n2 recR hbox hL hR] at hrec
    obtain rfl : recR = rec := Option.some.inj hrec
    exact ihR hNr recR (by rw [hR])
  · intro l rgt box r tmin tmax g n hbox n1 hL n2 hR ihL ihR hNM rec hrec
    rw [hit_bvh_nn l rgt box r tmin tmax g n n1 n2 hbox hL hR] at hrec
    exact absurd hrec (by simp)
  · intro l rgt box r tmin tmax g n hbox _hNM rec hrec
    rw [hit_bvh_nobox _ _ _ _ _ _ _ _ hbox] at hrec
    exact absurd hrec (by simp)
  · intro r tmin tmax acc g n _ hacc rec hrec
    rw [hitLoop_nil] at hrec
    exact hacc rec hrec
  · intro o os r tmin tmax acc g n closest rec1 n1 hO ihO ihLoop hNM hacc rec hrec
    obtain ⟨hNo, hNos⟩ := (NoMediumL_cons o os).mp hNM
    have hclosest0 : ∀ (a : Option HitRecord),
        (∀ rec0, a = some rec0 →
          tmin ≤ (rec0.t : EReal) ∧ (rec0.t : EReal) ≤ tmax) →
        (match a with
         | some rec0 => (rec0.t : EReal)
         | none => tmax) ≤ tmax := by
      intro a ha
      match a, ha with
      | some rec0, ha => exact (ha rec0 rfl).2
      | none, _ => exact le_refl tmax
    have hclosest : closest ≤ tmax := hclosest0 acc hacc
    have hb1 := ihO hNo rec1 (by rw [hO])
    rw [hitLoop_cons_some o os r tmin tmax acc g n n1 rec1 hO] at hrec
    refine ihLoop hNos ?_ rec hrec
    intro rec0 h0
    obtain rfl : rec1 = rec0 := Option.some.inj h0
    exact ⟨hb1.1, le_trans hb1.2 hclosest⟩
  · intro o os r tmin tmax acc g n closest n1 hO ihO ihLoop hNM hacc rec hrec
    obtain ⟨hNo, hNos⟩ := (NoMediumL_cons o os).mp hNM
    rw [hitLoop_cons_none o os r tmin tmax acc g n n1 hO] at hrec
    exact ihLoop ((NoMediumL_cons o os).mp hNM).2 hacc rec hrec

lemma hit1_sphere (c : Vec3) (rad : ℝ) (m : ℕ) (r : Ray) (tmin tmax : EReal) :
    hit1 (.sphere c rad m) r tmin tmax = sphereHit c rad m r tmin tmax := by
  rw [hit1, hit_sphere]

lemma hit1_movingSphere (c0 c1 : Vec3) (tm0 tm1 rad : ℝ) (m : ℕ) (r : Ray)
    (tmin tmax : EReal) :
    hit1 (.movingSphere c0 c1 tm0 tm1 rad m) r tmin tmax =
      movingSphereHit c0 c1 tm0 tm1 rad m r tmin tmax := by
  rw [hit1, hit_movingSphere]

lemma shrinkOK_sphere (c : Vec3) (rad : ℝ) (m : ℕ) :
    ShrinkOK (.sphere c rad m) := by
  intro r tmin cB tmax rec hc
  rw [hit1_sphere, hit1_sphere]
  exact sphereHit_shrink c rad m r tmin cB tmax hc rec

lemma shrinkOK_movingSphere (c0 c1 : Vec3) (tm0 tm1 rad : ℝ) (m : ℕ) :
    ShrinkOK (.movingSphere c0 c1 tm0 tm1 rad m) := by
  intro r tmin cB tmax rec hc
  rw [hit1_movingSphere, hit1_movingSphere]
  exact movingSphereHit_shrink c0 c1 tm0 tm1 rad m r tmin cB tmax hc rec

lemma shrinkOK_of_sphereLike (h : Hittable) (hs : SphereLike h) :
    ShrinkOK h := by
  rcases hs with ⟨c, rad, m, rfl⟩ | ⟨c0, c1, tm0, tm1, rad, m, rfl⟩
  · exact shrinkOK_sphere c rad m
  · exact shrinkOK_movingSphere c0 c1 tm0 tm1 rad m

lemma noMedium_of_sphereLike (h : Hittable) (hs : SphereLike h) :
    NoMedium h := by
  rcases hs with ⟨c, rad, m, rfl⟩ | ⟨c0, c1, tm0, tm1, rad, m, rfl⟩ <;>
    rw [NoMedium] <;> trivial

lemma sphereLike_of_isPS (h : Hittable) (hs : IsPS h) : SphereLike h := by
  obtain ⟨c, rad, m, rfl, -⟩ := hs
  exact Or.inl ⟨c, rad, m, rfl⟩

end DetLemmas

/-! ### The minimum-tracking scan -/

section MinTLemmas

lemma minT_nil (r : Ray) (tmin tmax : EReal) : minT [] r tmin tmax = none := rfl

lemma minT_cons (o : Hittable) (S : List Hittable) (r : Ray)
    (tmin tmax : EReal) :
    minT (o :: S) r tmin tmax =
      ominT (acceptT o r tmin tmax) (minT S r tmin tmax) := rfl

lemma ominT_none_left (b : Option ℝ) : ominT none b = b := rfl

lemma ominT_assoc (a b c : Option ℝ) :
    ominT (ominT a b) c = ominT a (ominT b c) := by
  cases a <;> cases b <;> cases c <;> simp [ominT, min_assoc]

lemma minT_none_iff (S : List Hittable) (r : Ray) (tmin tmax : EReal) :
    minT S r tmin tmax = none ↔ ∀ o ∈ S, acceptT o r tmin tmax = none := by
  induction S with
  | nil => simp [minT_nil]
  | cons o S ih =>
    rw [minT_cons]
    constructor
    · intro h
      have hA : acceptT o r tmin tmax = none := by
        cases hA : acceptT o r tmin tmax with
        | none => rfl
        | some t =>
          rw [hA] at h
          cases hM : minT S r tmin tmax <;> rw [hM] at h <;>
            simp [ominT] at h
      rw [hA, ominT_none_left] at h
      intro o2 ho2
      rcases List.mem_cons.mp ho2 with rfl | ho2
      · exact hA
      · exact (ih.mp h) o2 ho2
    · intro h
      have hA := h o (List.mem_cons_self o S)
      have hM := ih.mpr (fun o2 ho2 => h o2 (List.mem_cons_of_mem o ho2))
      rw [hA, hM]
      rfl

lemma minT_le (S : List Hittable) (r : Ray) (tmin tmax : EReal) (t : ℝ)
    (h : minT S r tmin tmax = some t) :
    ∀ o ∈ S, ∀ t2, acceptT o r tmin tmax = some t2 → t ≤ t2 := by
  induction S generalizing t with
  | nil => simp [minT_nil] at h
  | cons o S ih =>
    rw [minT_cons] at h
    intro o2 ho2 t2 h2
    rcases List.mem_cons.mp ho2 with rfl | ho2
    · rw [h2] at h
      cases hM : minT S r tmin tmax with
      | none =>
        rw [hM] at h
        simp only [ominT] at h
        exact le_of_eq (Option.some.inj h).symm
      | some t1 =>
        rw [hM] at h
        simp only [ominT] at h
        rw [← Option.some.inj h]
        exact min_le_left _ _
    · cases hA : acceptT o r tmin tmax with
      | none =>
        rw [hA, ominT_none_left] at h
        exact ih t h o2 ho2 t2 h2
      | some t0 =>
        rw [hA] at h
        cases hM : minT S r tmin tmax with
        | none =>
          have := (minT_none_iff S r tmin tmax).mp hM o2 ho2
          rw [h2] at this
          exact absurd this (by simp)
        | some t1 =>
          rw [hM] at h
          simp only [ominT] at h
          rw [← Option.some.inj h]
          exact le_trans (min_le_right _ _) (ih t1 hM o2 ho2 t2 h2)

lemma minT_mem (S : List Hittable) (r : Ray) (tmin tmax : EReal) (t : ℝ)
    (h : minT S r tmin tmax = some t) :
    ∃ o ∈ S, acceptT o r tmin tmax = some t := by
  induction S generalizing t with
  | nil => simp [minT_nil] at h
  | cons o S ih =>
    rw [minT_cons] at h
    cases hA : acceptT o r tmin tmax with
    | none =>
      rw [hA, ominT_none_left] at h
      obtain ⟨o2, ho2, hacc⟩ := ih t h
      exact ⟨o2, List.mem_cons_of_mem o ho2, hacc⟩
    | some t0 =>
      rw [hA] at h
      cases hM : minT S r tmin tmax with
      | none =>
        rw [hM] at h
        simp [ominT] at h
        exact ⟨o, List.mem_cons_self o S, by rw [hA, h]⟩
      | some t1 =>
        rw [hM] at h
        simp [ominT] at h
        rcases le_total t0 t1 with hle | hle
        · exact ⟨o, List.mem_cons_self o S, by rw [hA, ← h, min_eq_left hle]⟩
        · obtain ⟨o2, ho2, hacc⟩ := ih t1 hM
          exact ⟨o2, List.mem_cons_of_mem o ho2,
            by rw [hacc, ← h, min_eq_right hle]⟩

lemma minT_some_of_accept (S : List Hittable) (r : Ray) (tmin tmax : EReal)
    (o : Hittable) (ho : o ∈ S) (t2 : ℝ)
    (h2 : acceptT o r tmin tmax = some t2) :
    ∃ t, minT S r tmin tmax = some t ∧ t ≤ t2 := by
  cases hM : minT S r tmin tmax with
  | none => exact absurd ((minT_none_iff S r tmin tmax).mp hM o ho) (by rw [h2]; simp)
  | some t => exact ⟨t, rfl, minT_le S r tmin tmax t hM o ho t2 h2⟩

lemma minT_congr (A B : List Hittable) (r : Ray) (tmin tmax : EReal)
    (hAB : ∀ x, x ∈ A ↔ x ∈ B) :
    minT A r tmin tmax = minT B r tmin tmax := by
  cases hA : minT A r tmin tmax with
  | none =>
    have h := (minT_none_iff A r tmin tmax).mp hA
    exact ((minT_none_iff B r tmin tmax).mpr
      (fun o ho => h o ((hAB o).mpr ho))).symm
  | some t =>
    obtain ⟨o, ho, hacc⟩ := minT_mem A r tmin tmax t hA
    obtain ⟨t2, hB, ht2⟩ :=
      minT_some_of_accept B r tmin tmax o ((hAB o).mp ho) t hacc
    obtain ⟨o2, ho2, hacc2⟩ := minT_mem B r tmin tmax t2 hB
    have hge := minT_le A r tmin tmax t hA o2 ((hAB o2).mpr ho2) t2 hacc2
    rw [hB, le_antisymm ht2 hge]

lemma minT_append (A B : List Hittable) (r : Ray) (tmin tmax : EReal) :
    minT (A ++ B) r tmin tmax =
      ominT (minT A r tmin tmax) (minT B r tmin tmax) := by
  induction A with
  | nil => rw [List.nil_append, minT_nil, ominT_none_left]
  | cons o A ih => rw [List.cons_append, minT_cons, minT_cons, ih, ominT_assoc]

/-- Member-level shrink: for `ShrinkOK` members the accepted parameter on a
shrunk interval is the accepted parameter on the wide one, filtered. -/
lemma acceptT_shrink (o : Hittable) (hS : ShrinkOK o) (r : Ray)
    (tmin cB tmax : EReal) (hc : cB ≤ tmax) :
    acceptT o r tmin cB =
      (match acceptT o r tmin tmax with
       | some t => if (t : EReal) ≤ cB then some t else none
       | none => none) := by
  unfold acceptT
  cases hF : hit1 o r tmin tmax with
  | none =>
    cases hC : hit1 o r tmin cB with
    | none => simp
    | some rec =>
      have hfull := ((hS r tmin cB tmax rec hc).mp hC).1
      rw [hfull] at hF
      exact absurd hF (by simp)
  | some recF =>
    cases hC : hit1 o r tmin cB with
    | some rec2 =>
      have h2 := (hS r tmin cB tmax rec2 hc).mp hC
      rw [hF] at h2
      have heq : recF = rec2 := Option.some.inj h2.1
      subst heq
      show some recF.t = if (recF.t : EReal) ≤ cB then some recF.t else none
      rw [if_pos h2.2]
    | none =>
      by_cases hle : (recF.t : EReal) ≤ cB
      · have := (hS r tmin cB tmax recF hc).mpr ⟨hF, hle⟩
        rw [this] at hC
        exact absurd hC (by simp)
      · show (none : Option ℝ) = if (recF.t : EReal) ≤ cB then some recF.t else none
        rw [if_neg hle]

/-- The filter of `acceptT_shrink` lifted through the minimum. -/
lemma minT_shrink (S : List Hittable) (hS : ∀ o ∈ S, ShrinkOK o) (r : Ray)
    (tmin cB tmax : EReal) (hc : cB ≤ tmax) :
    minT S r tmin cB =
      (match minT S r tmin tmax with
       | some t => if (t : EReal) ≤ cB then some t else none
       | none => none) := by
  induction S with
  | nil => simp [minT_nil]
  | cons o S ih =>
    rw [minT_cons, minT_cons,
      acceptT_shrink o (hS o (List.mem_cons_self o S)) r tmin cB tmax hc,
      ih (fun o2 ho2 => hS o2 (List.mem_cons_of_mem o ho2))]
    cases hA : acceptT o r tmin tmax with
    | none => simp [ominT_none_left]
    | some t0 =>
      cases hM : minT S r tmin tmax with
      | none =>
        by_cases h0 : (t0 : EReal) ≤ cB <;> simp [ominT, h0]
      | some t1 =>
        by_cases h0 : (t0 : EReal) ≤ cB <;> by_cases h1 : (t1 : EReal) ≤ cB
        · have : (↑(min t0 t1) : EReal) ≤ cB := by
            rcases le_total t0 t1 with h | h
            · rw [min_eq_left h]; exact h0
            · rw [min_eq_right h]; exact h1
          simp [ominT, h0, h1, this]
        · have ht01 : t0 ≤ t1 := by
            have := lt_of_le_of_lt h0 (not_le.mp h1)
            exact_mod_cast le_of_lt this
          have : (↑(min t0 t1) : EReal) ≤ cB := by rw [min_eq_left ht01]; exact h0
          simp [ominT, h0, h1, this, min_eq_left ht01]
        · have ht10 : t1 ≤ t0 := by
            have := lt_of_le_of_lt h1 (not_le.mp h0)
            exact_mod_cast le_of_lt this
          have : (↑(min t0 t1) : EReal) ≤ cB := by rw [min_eq_right ht10]; exact h1
          simp [ominT, h0, h1, this, min_eq_right ht10]
        · have : ¬ (↑(min t0 t1) : EReal) ≤ cB := by
            rcases le_total t0 t1 with h | h
            · rw [min_eq_left h]; exact h0
            · rw [min_eq_right h]; exact h1
          simp [ominT, h0, h1, this]

lemma ominT_some_some (a b : ℝ) : ominT (some a) (some b) = some (min a b) := rfl

lemma ominT_some_none (a : ℝ) : ominT (some a) none = some a := rfl

/-- The member loop of `hittable_list::hit` computes, in its parameter
component, exactly the minimum-tracking scan of the spec; and every record
it returns is either the accumulator or a member's full-interval hit. -/
lemma hitLoop_minT (S : List Hittable) (r : Ray) (tmin tmax : EReal)
    (hS : ∀ o ∈ S, SphereLike o) :
    ∀ (acc : Option HitRecord) (g : ℕ → ℝ) (n : ℕ),
      (∀ rec0, acc = some rec0 → (rec0.t : EReal) ≤ tmax) →
      (Option.map HitRecord.t (hitLoop S r tmin tmax acc g n).1 =
        ominT (Option.map HitRecord.t acc)
          (minT S r tmin
            (match acc with
             | some rec0 => (rec0.t : EReal)
             | none => tmax))) ∧
      (∀ rec, (hitLoop S r tmin tmax acc g n).1 = some rec →
        (acc = some rec ∨ ∃ o ∈ S, hit1 o r tmin tmax = some rec)) := by
  induction S with
  | nil =>
    intro acc g n hacc
    rw [hitLoop_nil]
    constructor
    · rw [minT_nil]
      cases acc <;> rfl
    · intro rec hrec
      exact Or.inl hrec
  | cons o S ih =>
    intro acc g n hacc
    have hoSL : SphereLike o := hS o (List.mem_cons_self o S)
    have hSrest : ∀ o2 ∈ S, SphereLike o2 :=
      fun o2 ho2 => hS o2 (List.mem_cons_of_mem o ho2)
    have hShr : ∀ o2 ∈ S, ShrinkOK o2 :=
      fun o2 ho2 => shrinkOK_of_sphereLike o2 (hSrest o2 ho2)
    have hoNM : NoMedium o := noMedium_of_sphereLike o hoSL
    have hoSh : ShrinkOK o := shrinkOK_of_sphereLike o hoSL
    rcases acc with _ | rec0
    · -- accumulator empty: closest = tmax
      have hdet := hit_det o r tmin tmax g n hoNM g0 0
      cases hO : hit1 o r tmin tmax with
      | some rec1 =>
        have hpair : Hittable.hit o r tmin tmax g n = (some rec1, n) := by
          refine Prod.ext ?_ hdet.1
          rw [hdet.2]
          exact hO
        have hstep := hitLoop_cons_some o S r tmin tmax none g n n rec1 hpair
        have hb1 := hit_bounds_det o r tmin tmax g0 0 hoNM rec1 hO
        obtain ⟨ihv, ihp⟩ := ih hSrest (some rec1) g n
          (fun rec2 h2 => by rw [← Option.some.inj h2]; exact hb1.2)
        refine ⟨?_, ?_⟩
        · rw [hstep, ihv]
          show ominT (some rec1.t) (minT S r tmin (rec1.t : EReal)) =
            ominT none (minT (o :: S) r tmin tmax)
          rw [ominT_none_left, minT_cons,
            show acceptT o r tmin tmax = some rec1.t by rw [acceptT, hO]; rfl,
            minT_shrink S hShr r tmin (rec1.t : EReal) tmax hb1.2]
          cases hM : minT S r tmin tmax with
          | none => rfl
          | some tm =>
            show ominT (some rec1.t)
                (if (tm : EReal) ≤ (rec1.t : EReal) then some tm else none) =
              ominT (some rec1.t) (some tm)
            by_cases htm : (tm : EReal) ≤ (rec1.t : EReal)
            · rw [if_pos htm]
            · rw [if_neg htm]
              have h1tm : rec1.t ≤ tm := by
                have := le_of_lt (not_le.mp htm)
                exact_mod_cast this
              rw [ominT_some_none, ominT_some_some, min_eq_left h1tm]
        · intro rec hrec
          rw [hstep] at hrec
          rcases ihp rec hrec with h1 | ⟨o2, ho2, h2⟩
          · exact Or.inr ⟨o, List.mem_cons_self o S, by rw [hO, h1]⟩
          · exact Or.inr ⟨o2, List.mem_cons_of_mem o ho2, h2⟩
      | none =>
        have hpair : Hittable.hit o r tmin tmax g n = (none, n) := by
          refine Prod.ext ?_ hdet.1
          rw [hdet.2]
          exact hO
        have hstep := hitLoop_cons_none o S r tmin tmax none g n n hpair
        obtain ⟨ihv, ihp⟩ := ih hSrest none g n (by simp)
        refine ⟨?_, ?_⟩
        · rw [hstep, ihv]
          show ominT none (minT S r tmin tmax) =
            ominT none (minT (o :: S) r tmin tmax)
          rw [ominT_none_left, ominT_none_left, minT_cons,
            show acceptT o r tmin tmax = none by rw [acceptT, hO]; rfl,
            ominT_none_left]
        · intro rec hrec
          rw [hstep] at hrec
          rcases ihp rec hrec with h1 | ⟨o2, ho2, h2⟩
          · exact absurd h1 (by simp)
          · exact Or.inr ⟨o2, List.mem_cons_of_mem o ho2, h2⟩
    · -- accumulator holds rec0: closest = rec0.t
      have hacc0 : (rec0.t : EReal) ≤ tmax := hacc rec0 rfl
      have hdet := hit_det o r tmin (rec0.t : EReal) g n hoNM g0 0
      cases hO : hit1 o r tmin (rec0.t : EReal) with
      | some rec1 =>
        have hpair : Hittable.hit o r tmin (rec0.t : EReal) g n = (some rec1, n) := by
          refine Prod.ext ?_ hdet.1
          rw [hdet.2]
          exact hO
        have hstep := hitLoop_cons_some o S r tmin tmax (some rec0) g n n rec1 hpair
        have hb1 := hit_bounds_det o r tmin (rec0.t : EReal) g0 0 hoNM rec1 hO
        have h10 : rec1.t ≤ rec0.t := by exact_mod_cast hb1.2
        have hb1max : (rec1.t : EReal) ≤ tmax := le_trans hb1.2 hacc0
        have hfull : hit1 o r tmin tmax = some rec1 :=
          ((hoSh r tmin (rec0.t : EReal) tmax rec1 hacc0).mp hO).1
        obtain ⟨ihv, ihp⟩ := ih hSrest (some rec1) g n
          (fun rec2 h2 => by rw [← Option.some.inj h2]; exact hb1max)
        refine ⟨?_, ?_⟩
        · rw [hstep, ihv]
          show ominT (some rec1.t) (minT S r tmin (rec1.t : EReal)) =
            ominT (some rec0.t) (minT (o :: S) r tmin (rec0.t : EReal))
          rw [minT_cons,
            show acceptT o r tmin (rec0.t : EReal) = some rec1.t by
              rw [acceptT, hO]; rfl,
            minT_shrink S hShr r tmin (rec1.t : EReal) (rec0.t : EReal) hb1.2]
          cases hM : minT S r tmin (rec0.t : EReal) with
          | none =>
            show ominT (some rec1.t) none =
              ominT (some rec0.t) (ominT (some rec1.t) none)
            rw [ominT_some_none, ominT_some_some, min_eq_right h10]
          | some tm =>
            show ominT (some rec1.t)
                (if (tm : EReal) ≤ (rec1.t : EReal) then some tm else none) =
              ominT (some rec0.t) (ominT (some rec1.t) (some tm))
            by_cases htm : (tm : EReal) ≤ (rec1.t : EReal)
            · have htmr : tm ≤ rec1.t := by exact_mod_cast htm
              rw [if_pos htm, ominT_some_some, min_eq_right htmr,
                ominT_some_some, min_eq_right (le_trans htmr h10)]
            · have h1tm : rec1.t ≤ tm := by
                have := le_of_lt (not_le.mp htm)
                exact_mod_cast this
              rw [if_neg htm, ominT_some_none, ominT_some_some,
                min_eq_left h1tm, ominT_some_some, min_eq_right h10]
        · intro rec hrec
          rw [hstep] at hrec
          rcases ihp rec hrec with h1 | ⟨o2, ho2, h2⟩
          · exact Or.inr ⟨o, List.mem_cons_self o S, by rw [hfull, h1]⟩
          · exact Or.inr ⟨o2, List.mem_cons_of_mem o ho2, h2⟩
      | none =>
        have hpair : Hittable.hit o r tmin (rec0.t : EReal) g n = (none, n) := by
          refine Prod.ext ?_ hdet.1
          rw [hdet.2]
          exact hO
        have hstep := hitLoop_cons_none o S r tmin tmax (some rec0) g n n hpair
        obtain ⟨ihv, ihp⟩ := ih hSrest (some rec0) g n hacc
        refine ⟨?_, ?_⟩
        · rw [hstep, ihv]
          show ominT (some rec0.t) (minT S r tmin (rec0.t : EReal)) =
            ominT (some rec0.t) (minT (o :: S) r tmin (rec0.t : EReal))
          rw [minT_cons,
            show acceptT o r tmin (rec0.t : EReal) = none by
              rw [acceptT, hO]; rfl,
            ominT_none_left]
        · intro rec hrec
          rw [hstep] at hrec
          rcases ihp rec hrec with h1 | ⟨o2, ho2, h2⟩
          · exact Or.inl h1
          · exact Or.inr ⟨o2, List.mem_cons_of_mem o ho2, h2⟩

end MinTLemmas

/-! ### Boxes and the BVH constructor -/

section BuildLemmas

lemma boxContains_refl (A : Aabb) : boxContains A A := by
  unfold boxContains
  exact ⟨le_refl _, le_refl _, le_refl _, le_refl _, le_refl _, le_refl _⟩

lemma boxContains_trans (A B C : Aabb) (h1 : boxContains A B)
    (h2 : boxContains B C) : boxContains A C := by
  unfold boxContains at *
  exact ⟨le_trans h1.1 h2.1, le_trans h1.2.1 h2.2.1,
    le_trans h1.2.2.1 h2.2.2.1, le_trans h2.2.2.2.1 h1.2.2.2.1,
    le_trans h2.2.2.2.2.1 h1.2.2.2.2.1, le_trans h2.2.2.2.2.2 h1.2.2.2.2.2⟩

lemma surroundingBox_contains_left (A B : Aabb) :
    boxContains (surroundingBox A B) A := by
  unfold boxContains surroundingBox
  exact ⟨min_le_left _ _, min_le_left _ _, min_le_left _ _,
    le_max_left _ _, le_max_left _ _, le_max_left _ _⟩

lemma surroundingBox_contains_right (A B : Aabb) :
    boxContains (surroundingBox A B) B := by
  unfold boxContains surroundingBox
  exact ⟨min_le_right _ _, min_le_right _ _, min_le_right _ _,
    le_max_right _ _, le_max_right _ _, le_max_right _ _⟩

lemma surroundingBox_self (A : Aabb) : surroundingBox A A = A := by
  unfold surroundingBox
  cases A with
  | mk mn mx =>
    cases mn
    cases mx
    simp [min_self, max_self]

lemma bb_sphere (c : Vec3) (rad : ℝ) (m : ℕ) (t0 t1 : ℝ) :
    Hittable.boundingBox (.sphere c rad m) t0 t1 =
      some ⟨c.sub ⟨rad, rad, rad⟩, c.add ⟨rad, rad, rad⟩⟩ := by
  simp [Hittable.boundingBox]

lemma bb_bvh (l rgt : Hittable) (box : Aabb) (t0 t1 : ℝ) :
    Hittable.boundingBox (.bvhNode l rgt box) t0 t1 = some box := by
  simp [Hittable.boundingBox]

lemma leaves_bvh (l rgt : Hittable) (box : Aabb) :
    leaves (.bvhNode l rgt box) = leaves l ++ leaves rgt := rfl

lemma leaves_sphere (c : Vec3) (rad : ℝ) (m : ℕ) :
    leaves (.sphere c rad m) = [.sphere c rad m] := rfl

lemma leaves_isPS (h : Hittable) (hps : IsPS h) : leaves h = [h] := by
  obtain ⟨c, rad, m, rfl, -⟩ := hps
  rfl

lemma leaves_ne_nil (h : Hittable) : leaves h ≠ [] := by
  refine leaves.induct (fun h => leaves h ≠ []) ?_ ?_ h
  · intro l rgt box ihl ihr
    rw [leaves_bvh]
    intro hc
    exact ihl (List.append_eq_nil.mp hc).1
  · intro h hnot
    cases h with
    | bvhNode l rgt box => exact absurd rfl (hnot l rgt box)
    | sphere c rad m => exact List.cons_ne_nil _ _
    | movingSphere c0 c1 t0 t1 rad m => exact List.cons_ne_nil _ _
    | constantMedium b d m => exact List.cons_ne_nil _ _
    | list objs => exact List.cons_ne_nil _ _

lemma eraseBoxes_bvh (l rgt : Hittable) (box : Aabb) :
    eraseBoxes (.bvhNode l rgt box) =
      .bvhNode (eraseBoxes l) (eraseBoxes rgt) defAabb := rfl

lemma buildNode_nil (g : ℕ → Fin 3) (k : ℕ) (t0 t1 : ℝ) :
    buildNode [] g k t0 t1 = (.list [], k + 1) := by
  rw [buildNode]

lemma buildNode_one (a : Hittable) (g : ℕ → Fin 3) (k : ℕ) (t0 t1 : ℝ) :
    buildNode [a] g k t0 t1 = (.bvhNode a a (nodeBox a a t0 t1), k + 1) := by
  rw [buildNode]

lemma buildNode_two (a b : Hittable) (g : ℕ → Fin 3) (k : ℕ) (t0 t1 : ℝ) :
    buildNode [a, b] g k t0 t1 =
      (if boxCompare a b (g k) then
        (.bvhNode a b (nodeBox a b t0 t1), k + 1)
       else (.bvhNode b a (nodeBox b a t0 t1), k + 1)) := by
  rw [buildNode]

lemma buildNode_big (a b c : Hittable) (rest : List Hittable)
    (g : ℕ → Fin 3) (k : ℕ) (t0 t1 : ℝ) :
    buildNode (a :: b :: c :: rest) g k t0 t1 =
      (Hittable.bvhNode
        (buildNode ((List.mergeSort (a :: b :: c :: rest)
          (fun u v => !(decide (boxCompare v u (g k))))).take
            ((a :: b :: c :: rest).length / 2)) g (k + 1) t0 t1).1
        (buildNode ((List.mergeSort (a :: b :: c :: rest)
          (fun u v => !(decide (boxCompare v u (g k))))).drop
            ((a :: b :: c :: rest).length / 2)) g
          (buildNode ((List.mergeSort (a :: b :: c :: rest)
            (fun u v => !(decide (boxCompare v u (g k))))).take
              ((a :: b :: c :: rest).length / 2)) g (k + 1) t0 t1).2 t0 t1).1
        (nodeBox
          (buildNode ((List.mergeSort (a :: b :: c :: rest)
            (fun u v => !(decide (boxCompare v u (g k))))).take
              ((a :: b :: c :: rest).length / 2)) g (k + 1) t0 t1).1
          (buildNode ((List.mergeSort (a :: b :: c :: rest)
            (fun u v => !(decide (boxCompare v u (g k))))).drop
              ((a :: b :: c :: rest).length / 2)) g
            (buildNode ((List.mergeSort (a :: b :: c :: rest)
              (fun u v => !(decide (boxCompare v u (g k))))).take
                ((a :: b :: c :: rest).length / 2)) g (k + 1) t0 t1).2 t0 t1).1
          t0 t1),
       (buildNode ((List.mergeSort (a :: b :: c :: rest)
          (fun u v => !(decide (boxCompare v u (g k))))).drop
            ((a :: b :: c :: rest).length / 2)) g
         (buildNode ((List.mergeSort (a :: b :: c :: rest)
           (fun u v => !(decide (boxCompare v u (g k))))).take
             ((a :: b :: c :: rest).length / 2)) g (k + 1) t0 t1).2 t0 t1).2) := by
  rw [buildNode]

lemma buildNode_isNode (S : List Hittable) (hS : S ≠ []) (g : ℕ → Fin 3)
    (k : ℕ) (t0 t1 : ℝ) :
    ∃ l rgt box, (buildNode S g k t0 t1).1 = .bvhNode l rgt box := by
  match S with
  | [a] => exact ⟨a, a, _, by rw [buildNode_one]⟩
  | [a, b] =>
    rw [buildNode_two]
    by_cases hcmp : boxCompare a b (g k)
    · exact ⟨a, b, _, by rw [if_pos hcmp]⟩
    · exact ⟨b, a, _, by rw [if_neg hcmp]⟩
  | a :: b :: c :: rest =>
    rw [buildNode_big]
    exact ⟨_, _, _, rfl⟩

lemma take_ne (objs : List Hittable) (mid : ℕ) (h1 : 1 ≤ mid)
    (h2 : mid ≤ objs.length) : objs.take mid ≠ [] := by
  intro hcon
  have hl := congrArg List.length hcon
  rw [List.length_take] at hl
  simp only [List.length_nil] at hl
  omega

lemma drop_ne (objs : List Hittable) (mid : ℕ) (h2 : mid < objs.length) :
    objs.drop mid ≠ [] := by
  intro hcon
  have hl := congrArg List.length hcon
  rw [List.length_drop] at hl
  simp only [List.length_nil] at hl
  omega

lemma buildNode_leaves (S : List Hittable) (g : ℕ → Fin 3) (k : ℕ)
    (t0 t1 : ℝ) :
    (∀ h ∈ S, IsPS h) → S ≠ [] →
      ∀ x, x ∈ leaves (buildNode S g k t0 t1).1 ↔ x ∈ S := by
  refine buildNode.induct
    (fun S g k t0 t1 => (∀ h ∈ S, IsPS h) → S ≠ [] →
      ∀ x, x ∈ leaves (buildNode S g k t0 t1).1 ↔ x ∈ S)
    ?_ ?_ ?_ ?_ ?_ S g k t0 t1
  · intro g k t0 t1 _ hne
    exact absurd rfl hne
  · intro g k t0 t1 a hPS _ x
    rw [buildNode_one, leaves_bvh, leaves_isPS a (hPS a (by simp))]
    simp
  · intro g k t0 t1 axis a b hcmp hPS _ x
    rw [buildNode_two, if_pos hcmp, leaves_bvh,
      leaves_isPS a (hPS a (by simp)), leaves_isPS b (hPS b (by simp))]
    simp
  · intro g k t0 t1 axis a b hcmp hPS _ x
    rw [buildNode_two, if_neg hcmp, leaves_bvh,
      leaves_isPS b (hPS b (by simp)), leaves_isPS a (hPS a (by simp))]
    simp [or_comm]
  · intro g k t0 t1 axis a b c rest objs mid lp ihl ihl2 ihr hPS _ x
    clear ihl2
    simp only [lp, mid, objs, axis] at ihl ihr ⊢
    have hperm : List.Perm (List.mergeSort (a :: b :: c :: rest)
        (fun u v => !(decide (boxCompare v u (g k))))) (a :: b :: c :: rest) :=
      List.mergeSort_perm (a :: b :: c :: rest) _
    have hlen := hperm.length_eq
    have hlen3 : (a :: b :: c :: rest).length = rest.length + 3 := by
      simp [List.length_cons]
    have hm1 : 1 ≤ (a :: b :: c :: rest).length / 2 := by omega
    have hm2 : (a :: b :: c :: rest).length / 2 <
        (List.mergeSort (a :: b :: c :: rest)
          (fun u v => !(decide (boxCompare v u (g k))))).length := by omega
    have htake_ne := take_ne _ _ hm1 (le_of_lt hm2)
    have hdrop_ne := drop_ne _ _ hm2
    have htakePS : ∀ h ∈ (List.mergeSort (a :: b :: c :: rest)
        (fun u v => !(decide (boxCompare v u (g k))))).take
          ((a :: b :: c :: rest).length / 2), IsPS h := fun h hh =>
      hPS h (hperm.mem_iff.mp (List.take_subset _ _ hh))
    have hdropPS : ∀ h ∈ (List.mergeSort (a :: b :: c :: rest)
        (fun u v => !(decide (boxCompare v u (g k))))).drop
          ((a :: b :: c :: rest).length / 2), IsPS h := fun h hh =>
      hPS h (hperm.mem_iff.mp (List.drop_subset _ _ hh))
    rw [buildNode_big, leaves_bvh, List.mem_append,
      ihl htakePS htake_ne x, ihr hdropPS hdrop_ne x]
    constructor
    · rintro (hx | hx)
      · exact hperm.mem_iff.mp (List.take_subset _ _ hx)
      · exact hperm.mem_iff.mp (List.drop_subset _ _ hx)
    · intro hx
      have hx2 : x ∈ (List.mergeSort (a :: b :: c :: rest)
          (fun u v => !(decide (boxCompare v u (g k))))).take
            ((a :: b :: c :: rest).length / 2) ++
          (List.mergeSort (a :: b :: c :: rest)
            (fun u v => !(decide (boxCompare v u (g k))))).drop
              ((a :: b :: c :: rest).length / 2) := by
        rw [List.take_append_drop]
        exact hperm.mem_iff.mpr hx
      exact List.mem_append.mp hx2

lemma SBT_box_leaves (h : Hittable) (hS : SBT h) (t0 t1 : ℝ) :
    ∀ s ∈ leaves h, boxContains ((Hittable.boundingBox h t0 t1).getD defAabb)
      ((Hittable.boundingBox s 0 0).getD defAabb) := by
  cases hS with
  | leaf hps =>
    obtain ⟨c, rad, m, rfl, -⟩ := hps
    intro s hs
    rw [leaves_sphere] at hs
    simp only [List.mem_singleton] at hs
    subst hs
    rw [bb_sphere, bb_sphere]
    exact boxContains_refl _
  | node hl hr hcont =>
    intro s hs
    rw [bb_bvh]
    exact hcont s (by rw [← leaves_bvh]; exact hs)

lemma SBT_node_of_children (L R : Hittable) (t0 t1 : ℝ)
    (hL : SBT L) (hR : SBT R) :
    SBT (.bvhNode L R (nodeBox L R t0 t1)) := by
  refine SBT.node hL hR ?_
  intro s hs
  rcases List.mem_append.mp hs with hs | hs
  · exact boxContains_trans _ _ _ (surroundingBox_contains_left _ _)
      (SBT_box_leaves L hL t0 t1 s hs)
  · exact boxContains_trans _ _ _ (surroundingBox_contains_right _ _)
      (SBT_box_leaves R hR t0 t1 s hs)

lemma buildNode_SBT (S : List Hittable) (g : ℕ → Fin 3) (k : ℕ)
    (t0 t1 : ℝ) :
    (∀ h ∈ S, IsPS h) → S ≠ [] → SBT (buildNode S g k t0 t1).1 := by
  refine buildNode.induct
    (fun S g k t0 t1 => (∀ h ∈ S, IsPS h) → S ≠ [] →
      SBT (buildNode S g k t0 t1).1)
    ?_ ?_ ?_ ?_ ?_ S g k t0 t1
  · intro g k t0 t1 _ hne
    exact absurd rfl hne
  · intro g k t0 t1 a hPS _
    rw [buildNode_one]
    exact SBT_node_of_children a a t0 t1 (.leaf (hPS a (by simp)))
      (.leaf (hPS a (by simp)))
  · intro g k t0 t1 axis a b hcmp hPS _
    rw [buildNode_two, if_pos hcmp]
    exact SBT_node_of_children a b t0 t1 (.leaf (hPS a (by simp)))
      (.leaf (hPS b (by simp)))
  · intro g k t0 t1 axis a b hcmp hPS _
    rw [buildNode_two, if_neg hcmp]
    exact SBT_node_of_children b a t0 t1 (.leaf (hPS b (by simp)))
      (.leaf (hPS a (by simp)))
  · intro g k t0 t1 axis a b c rest objs mid lp ihl ihl2 ihr hPS _
    clear ihl2
    simp only [lp, mid, objs, axis] at ihl ihr ⊢
    have hperm : List.Perm (List.mergeSort (a :: b :: c :: rest)
        (fun u v => !(decide (boxCompare v u (g k))))) (a :: b :: c :: rest) :=
      List.mergeSort_perm (a :: b :: c :: rest) _
    have hlen := hperm.length_eq
    have hlen3 : (a :: b :: c :: rest).length = rest.length + 3 := by
      simp [List.length_cons]
    have hm1 : 1 ≤ (a :: b :: c :: rest).length / 2 := by omega
    have hm2 : (a :: b :: c :: rest).length / 2 <
        (List.mergeSort (a :: b :: c :: rest)
          (fun u v => !(decide (boxCompare v u (g k))))).length := by omega
    have htake_ne := take_ne _ _ hm1 (le_of_lt hm2)
    have hdrop_ne := drop_ne _ _ hm2
    have htakePS : ∀ h ∈ (List.mergeSort (a :: b :: c :: rest)
        (fun u v => !(decide (boxCompare v u (g k))))).take
          ((a :: b :: c :: rest).length / 2), IsPS h := fun h hh =>
      hPS h (hperm.mem_iff.mp (List.take_subset _ _ hh))
    have hdropPS : ∀ h ∈ (List.mergeSort (a :: b :: c :: rest)
        (fun u v => !(decide (boxCompare v u (g k))))).drop
          ((a :: b :: c :: rest).length / 2), IsPS h := fun h hh =>
      hPS h (hperm.mem_iff.mp (List.drop_subset _ _ hh))
    rw [buildNode_big]
    exact SBT_node_of_children _ _ t0 t1 (ihl htakePS htake_ne)
      (ihr hdropPS hdrop_ne)

lemma buildNode_window (S : List Hittable) (g : ℕ → Fin 3) (k : ℕ)
    (t0 t1 : ℝ) : ∀ u0 u1 : ℝ,
    eraseBoxes (buildNode S g k t0 t1).1 =
      eraseBoxes (buildNode S g k u0 u1).1 ∧
    (buildNode S g k t0 t1).2 = (buildNode S g k u0 u1).2 := by
  refine buildNode.induct
    (fun S g k t0 t1 => ∀ u0 u1 : ℝ,
      eraseBoxes (buildNode S g k t0 t1).1 =
        eraseBoxes (buildNode S g k u0 u1).1 ∧
      (buildNode S g k t0 t1).2 = (buildNode S g k u0 u1).2)
    ?_ ?_ ?_ ?_ ?_ S g k t0 t1
  · intro g k t0 t1 u0 u1
    rw [buildNode_nil, buildNode_nil]
    exact ⟨rfl, rfl⟩
  · intro g k t0 t1 a u0 u1
    rw [buildNode_one, buildNode_one]
    exact ⟨rfl, rfl⟩
  · intro g k t0 t1 axis a b hcmp u0 u1
    rw [buildNode_two, buildNode_two, if_pos hcmp, if_pos hcmp]
    exact ⟨rfl, rfl⟩
  · intro g k t0 t1 axis a b hcmp u0 u1
    rw [buildNode_two, buildNode_two, if_neg hcmp, if_neg hcmp]
    exact ⟨rfl, rfl⟩
  · intro g k t0 t1 axis a b c rest objs mid lp ihl ihl2 ihr u0 u1
    clear ihl2
    simp only [lp, mid, objs, axis] at ihl ihr ⊢
    obtain ⟨hl1, hl2⟩ := ihl u0 u1
    rw [buildNode_big, buildNode_big, ← hl2]
    obtain ⟨hr1, hr2⟩ := ihr u0 u1
    rw [eraseBoxes_bvh, eraseBoxes_bvh, hl1, hr1, hr2]
    exact ⟨rfl, rfl⟩

lemma SBT_NoMedium (h : Hittable) (hS : SBT h) : NoMedium h := by
  induction hS with
  | leaf hps =>
    obtain ⟨c, rad, m, rfl, -⟩ := hps
    trivial
  | node hl hr hcont ihl ihr => exact ⟨ihl, ihr⟩

lemma SBT_leaves_isPS (h : Hittable) (hS : SBT h) :
    ∀ s ∈ leaves h, IsPS s := by
  induction hS with
  | leaf hps =>
    intro s hs
    rw [leaves_isPS _ hps] at hs
    simp only [List.mem_singleton] at hs
    subst hs
    exact hps
  | node hl hr hcont ihl ihr =>
    intro s hs
    rw [leaves_bvh] at hs
    rcases List.mem_append.mp hs with hs | hs
    · exact ihl s hs
    · exact ihr s hs

lemma isPS_box_valid (s : Hittable) (hps : IsPS s) :
    ((Hittable.boundingBox s 0 0).getD defAabb).minimum.x ≤
      ((Hittable.boundingBox s 0 0).getD defAabb).maximum.x ∧
    ((Hittable.boundingBox s 0 0).getD defAabb).minimum.y ≤
      ((Hittable.boundingBox s 0 0).getD defAabb).maximum.y ∧
    ((Hittable.boundingBox s 0 0).getD defAabb).minimum.z ≤
      ((Hittable.boundingBox s 0 0).getD defAabb).maximum.z := by
  obtain ⟨c, rad, m, rfl, hrad⟩ := hps
  rw [bb_sphere]
  simp only [Option.getD_some]
  unfold Vec3.sub Vec3.add
  refine ⟨?_, ?_, ?_⟩ <;> (simp only []; linarith)

lemma SBT_node_box_valid (L R : Hittable) (box : Aabb)
    (hS : SBT (.bvhNode L R box)) :
    box.minimum.x ≤ box.maximum.x ∧ box.minimum.y ≤ box.maximum.y ∧
      box.minimum.z ≤ box.maximum.z := by
  cases hS with
  | leaf hps =>
    obtain ⟨c, rad, m, heq, -⟩ := hps
    exact absurd heq (by intro hc; cases hc)
  | node hl hr hcont =>
    obtain ⟨s, hs⟩ := List.exists_mem_of_ne_nil _ (leaves_ne_nil L)
    have hc := hcont s (List.mem_append.mpr (Or.inl hs))
    have hv := isPS_box_valid s (SBT_leaves_isPS L hl s hs)
    unfold boxContains at hc
    exact ⟨le_trans hc.1 (le_trans hv.1 hc.2.2.2.1),
      le_trans hc.2.1 (le_trans hv.2.1 hc.2.2.2.2.1),
      le_trans hc.2.2.1 (le_trans hv.2.2 hc.2.2.2.2.2)⟩

end BuildLemmas

/-! ### Why a failed slab test forces the hit parameter onto the interval
boundary -/

section BoxFail

lemma axLo_le (lo hi o d t : ℝ) (h1 : lo ≤ o + t * d) (h2 : o + t * d ≤ hi) :
    axLo lo hi o d ≤ (t : EReal) := by
  unfold axLo
  by_cases hd : d = 0
  · rw [if_pos hd]
    exact bot_le
  · rw [if_neg hd, EReal.coe_le_coe_iff]
    rcases lt_or_gt_of_ne hd with hneg | hpos
    · refine le_trans (min_le_right _ _) ?_
      rw [div_le_iff_of_neg hneg]
      linarith
    · refine le_trans (min_le_left _ _) ?_
      rw [div_le_iff hpos]
      linarith

lemma le_axHi (lo hi o d t : ℝ) (h1 : lo ≤ o + t * d) (h2 : o + t * d ≤ hi) :
    (t : EReal) ≤ axHi lo hi o d := by
  unfold axHi
  by_cases hd : d = 0
  · rw [if_pos hd]
    exact le_top
  · rw [if_neg hd, EReal.coe_le_coe_iff]
    rcases lt_or_gt_of_ne hd with hneg | hpos
    · refine le_trans ?_ (le_max_left _ _)
      rw [le_div_iff_of_neg hneg]
      linarith
    · refine le_trans ?_ (le_max_right _ _)
      rw [le_div_iff hpos]
      linarith

lemma axLo_eq_plane (lo hi o d t : ℝ) (hd : d ≠ 0)
    (h : axLo lo hi o d = (t : EReal)) :
    o + t * d = lo ∨ o + t * d = hi := by
  unfold axLo at h
  rw [if_neg hd] at h
  have h2 : min ((lo - o) / d) ((hi - o) / d) = t := by exact_mod_cast h
  rcases min_choice ((lo - o) / d) ((hi - o) / d) with hm | hm <;> rw [hm] at h2
  · left
    rw [div_eq_iff hd] at h2
    linarith
  · right
    rw [div_eq_iff hd] at h2
    linarith

lemma axHi_eq_plane (lo hi o d t : ℝ) (hd : d ≠ 0)
    (h : axHi lo hi o d = (t : EReal)) :
    o + t * d = lo ∨ o + t * d = hi := by
  unfold axHi at h
  rw [if_neg hd] at h
  have h2 : max ((lo - o) / d) ((hi - o) / d) = t := by exact_mod_cast h
  rcases max_choice ((lo - o) / d) ((hi - o) / d) with hm | hm <;> rw [hm] at h2
  · left
    rw [div_eq_iff hd] at h2
    linarith
  · right
    rw [div_eq_iff hd] at h2
    linarith

lemma emax4_attain (x y z w t : EReal)
    (h : max (max (max x y) z) w = t) : x = t ∨ y = t ∨ z = t ∨ w = t := by
  rcases max_choice (max (max x y) z) w with h1 | h1 <;> rw [h1] at h
  · rcases max_choice (max x y) z with h2 | h2 <;> rw [h2] at h
    · rcases max_choice x y with h3 | h3 <;> rw [h3] at h
      · exact Or.inl h
      · exact Or.inr (Or.inl h)
    · exact Or.inr (Or.inr (Or.inl h))
  · exact Or.inr (Or.inr (Or.inr h))

lemma emin4_attain (x y z w t : EReal)
    (h : min (min (min x y) z) w = t) : x = t ∨ y = t ∨ z = t ∨ w = t := by
  rcases min_choice (min (min x y) z) w with h1 | h1 <;> rw [h1] at h
  · rcases min_choice (min x y) z with h2 | h2 <;> rw [h2] at h
    · rcases min_choice x y with h3 | h3 <;> rw [h3] at h
      · exact Or.inl h
      · exact Or.inr (Or.inl h)
    · exact Or.inr (Or.inr (Or.inl h))
  · exact Or.inr (Or.inr (Or.inr h))

lemma extreme_sq (lo hi pa ca rad : ℝ)
    (hlo : lo ≤ ca - rad) (hhi : ca + rad ≤ hi)
    (hb1 : -rad ≤ pa - ca) (hb2 : pa - ca ≤ rad)
    (hplane : pa = lo ∨ pa = hi) :
    (pa - ca) * (pa - ca) = rad * rad := by
  rcases hplane with h | h
  · have he : pa - ca = -rad := by linarith
    rw [he]
    ring
  · have he : pa - ca = rad := by linarith
    rw [he]

lemma axis_attain_lo (lo hi o d ca rad t : ℝ)
    (hlo : lo ≤ ca - rad) (hhi : ca + rad ≤ hi)
    (hb1 : -rad ≤ o + t * d - ca) (hb2 : o + t * d - ca ≤ rad)
    (heq : axLo lo hi o d = (t : EReal)) :
    (o + t * d - ca) * (o + t * d - ca) = rad * rad := by
  by_cases hd : d = 0
  · unfold axLo at heq
    rw [if_pos hd] at heq
    exact absurd heq (ne_of_lt (EReal.bot_lt_coe t))
  · exact extreme_sq lo hi (o + t * d) ca rad hlo hhi hb1 hb2
      (axLo_eq_plane lo hi o d t hd heq)

lemma axis_attain_hi (lo hi o d ca rad t : ℝ)
    (hlo : lo ≤ ca - rad) (hhi : ca + rad ≤ hi)
    (hb1 : -rad ≤ o + t * d - ca) (hb2 : o + t * d - ca ≤ rad)
    (heq : axHi lo hi o d = (t : EReal)) :
    (o + t * d - ca) * (o + t * d - ca) = rad * rad := by
  by_cases hd : d = 0
  · unfold axHi at heq
    rw [if_pos hd] at heq
    exact absurd heq (ne_of_gt (EReal.coe_lt_top t))
  · exact extreme_sq lo hi (o + t * d) ca rad hlo hhi hb1 hb2
      (axHi_eq_plane lo hi o d t hd heq)

lemma axis_attain_both_false (lo hi o d ca rad t : ℝ) (hrad : 0 < rad)
    (hlo : lo ≤ ca - rad) (hhi : ca + rad ≤ hi)
    (hLo : axLo lo hi o d = (t : EReal)) (hHi : axHi lo hi o d = (t : EReal)) :
    False := by
  by_cases hd : d = 0
  · unfold axLo at hLo
    rw [if_pos hd] at hLo
    exact absurd hLo (ne_of_lt (EReal.bot_lt_coe t))
  · unfold axLo at hLo
    unfold axHi at hHi
    rw [if_neg hd] at hLo hHi
    have h1 : min ((lo - o) / d) ((hi - o) / d) = t := by exact_mod_cast hLo
    have h2 : max ((lo - o) / d) ((hi - o) / d) = t := by exact_mod_cast hHi
    have hq : (lo - o) / d = (hi - o) / d := by
      have l1 := min_le_left ((lo - o) / d) ((hi - o) / d)
      have l2 := min_le_right ((lo - o) / d) ((hi - o) / d)
      have l3 := le_max_left ((lo - o) / d) ((hi - o) / d)
      have l4 := le_max_right ((lo - o) / d) ((hi - o) / d)
      linarith
    have hlh : lo = hi := by
      have hmul := congrArg (fun z => z * d) hq
      simp only at hmul
      rw [div_mul_cancel₀ _ hd, div_mul_cancel₀ _ hd] at hmul
      linarith
    linarith

set_option maxHeartbeats 1600000 in
/-- If the node box (which contains the sphere `c`/`rad`) fails the slab test
on `[tmin, tmax]` although the sphere is hit at parameter `t > tmin` of that
interval, then `t` must be the upper boundary `tmax` itself. -/
lemma boxfail_forces_tmax (box : Aabb) (r : Ray) (tmin tmax : EReal)
    (hvx : box.minimum.x ≤ box.maximum.x) (hvy : box.minimum.y ≤ box.maximum.y)
    (hvz : box.minimum.z ≤ box.maximum.z)
    (c : Vec3) (rad : ℝ) (hrad : 0 < rad)
    (hcont : boxContains box ⟨c.sub ⟨rad, rad, rad⟩, c.add ⟨rad, rad, rad⟩⟩)
    (t : ℝ) (hsph : ((r.at t).sub c).lengthSquared = rad * rad)
    (htmin : tmin < (t : EReal)) (htmax : (t : EReal) ≤ tmax)
    (hfail : ¬ aabbHit box r tmin tmax) :
    (t : EReal) = tmax := by
  unfold boxContains at hcont
  obtain ⟨hc1, hc2, hc3, hc4, hc5, hc6⟩ := hcont
  have hlox : box.minimum.x ≤ c.x - rad := hc1
  have hloy : box.minimum.y ≤ c.y - rad := hc2
  have hloz : box.minimum.z ≤ c.z - rad := hc3
  have hhix : c.x + rad ≤ box.maximum.x := hc4
  have hhiy : c.y + rad ≤ box.maximum.y := hc5
  have hhiz : c.z + rad ≤ box.maximum.z := hc6
  have hsum : (r.orig.x + t * r.dir.x - c.x) * (r.orig.x + t * r.dir.x - c.x) +
      (r.orig.y + t * r.dir.y - c.y) * (r.orig.y + t * r.dir.y - c.y) +
      (r.orig.z + t * r.dir.z - c.z) * (r.orig.z + t * r.dir.z - c.z) =
      rad * rad := hsph
  have hsqx : (r.orig.x + t * r.dir.x - c.x) * (r.orig.x + t * r.dir.x - c.x) ≤
      rad * rad := by
    nlinarith [mul_self_nonneg (r.orig.y + t * r.dir.y - c.y),
      mul_self_nonneg (r.orig.z + t * r.dir.z - c.z)]
  have hsqy : (r.orig.y + t * r.dir.y - c.y) * (r.orig.y + t * r.dir.y - c.y) ≤
      rad * rad := by
    nlinarith [mul_self_nonneg (r.orig.x + t * r.dir.x - c.x),
      mul_self_nonneg (r.orig.z + t * r.dir.z - c.z)]
  have hsqz : (r.orig.z + t * r.dir.z - c.z) * (r.orig.z + t * r.dir.z - c.z) ≤
      rad * rad := by
    nlinarith [mul_self_nonneg (r.orig.x + t * r.dir.x - c.x),
      mul_self_nonneg (r.orig.y + t * r.dir.y - c.y)]
  have hbx1 : -rad ≤ r.orig.x + t * r.dir.x - c.x := by
    nlinarith [sq_nonneg (r.orig.x + t * r.dir.x - c.x + rad)]
  have hbx2 : r.orig.x + t * r.dir.x - c.x ≤ rad := by
    nlinarith [sq_nonneg (r.orig.x + t * r.dir.x - c.x - rad)]
  have hby1 : -rad ≤ r.orig.y + t * r.dir.y - c.y := by
    nlinarith [sq_nonneg (r.orig.y + t * r.dir.y - c.y + rad)]
  have hby2 : r.orig.y + t * r.dir.y - c.y ≤ rad := by
    nlinarith [sq_nonneg (r.orig.y + t * r.dir.y - c.y - rad)]
  have hbz1 : -rad ≤ r.orig.z + t * r.dir.z - c.z := by
    nlinarith [sq_nonneg (r.orig.z + t * r.dir.z - c.z + rad)]
  have hbz2 : r.orig.z + t * r.dir.z - c.z ≤ rad := by
    nlinarith [sq_nonneg (r.orig.z + t * r.dir.z - c.z - rad)]
  have hPx1 : box.minimum.x ≤ r.orig.x + t * r.dir.x := by linarith
  have hPx2 : r.orig.x + t * r.dir.x ≤ box.maximum.x := by linarith
  have hPy1 : box.minimum.y ≤ r.orig.y + t * r.dir.y := by linarith
  have hPy2 : r.orig.y + t * r.dir.y ≤ box.maximum.y := by linarith
  have hPz1 : box.minimum.z ≤ r.orig.z + t * r.dir.z := by linarith
  have hPz2 : r.orig.z + t * r.dir.z ≤ box.maximum.z := by linarith
  have hfeasx : axFeasible box.minimum.x box.maximum.x r.orig.x r.dir.x := by
    by_cases hd : r.dir.x = 0
    · refine Or.inr ⟨?_, ?_⟩
      · have hh := hPx1
        rw [hd, mul_zero, add_zero] at hh
        exact hh
      · have hh := hPx2
        rw [hd, mul_zero, add_zero] at hh
        exact hh
    · exact Or.inl hd
  have hfeasy : axFeasible box.minimum.y box.maximum.y r.orig.y r.dir.y := by
    by_cases hd : r.dir.y = 0
    · refine Or.inr ⟨?_, ?_⟩
      · have hh := hPy1
        rw [hd, mul_zero, add_zero] at hh
        exact hh
      · have hh := hPy2
        rw [hd, mul_zero, add_zero] at hh
        exact hh
    · exact Or.inl hd
  have hfeasz : axFeasible box.minimum.z box.maximum.z r.orig.z r.dir.z := by
    by_cases hd : r.dir.z = 0
    · refine Or.inr ⟨?_, ?_⟩
      · have hh := hPz1
        rw [hd, mul_zero, add_zero] at hh
        exact hh
      · have hh := hPz2
        rw [hd, mul_zero, add_zero] at hh
        exact hh
    · exact Or.inl hd
  have hspec_fail : ¬ slabSpecHit box r tmin tmax := fun hs =>
    hfail ((aabbHit_iff_slabSpec box r tmin tmax hvx hvy hvz).mpr hs)
  unfold slabSpecHit at hspec_fail
  push_neg at hspec_fail
  have hUL := hspec_fail ⟨hfeasx, hfeasy, hfeasz⟩
  have hLx := axLo_le box.minimum.x box.maximum.x r.orig.x r.dir.x t hPx1 hPx2
  have hLy := axLo_le box.minimum.y box.maximum.y r.orig.y r.dir.y t hPy1 hPy2
  have hLz := axLo_le box.minimum.z box.maximum.z r.orig.z r.dir.z t hPz1 hPz2
  have hUx := le_axHi box.minimum.x box.maximum.x r.orig.x r.dir.x t hPx1 hPx2
  have hUy := le_axHi box.minimum.y box.maximum.y r.orig.y r.dir.y t hPy1 hPy2
  have hUz := le_axHi box.minimum.z box.maximum.z r.orig.z r.dir.z t hPz1 hPz2
  have hLle : max (max (max tmin
        (axLo box.minimum.x box.maximum.x r.orig.x r.dir.x))
        (axLo box.minimum.y box.maximum.y r.orig.y r.dir.y))
      (axLo box.minimum.z box.maximum.z r.orig.z r.dir.z) ≤ (t : EReal) :=
    max_le (max_le (max_le (le_of_lt htmin) hLx) hLy) hLz
  have hUge : (t : EReal) ≤ min (min (min tmax
        (axHi box.minimum.x box.maximum.x r.orig.x r.dir.x))
        (axHi box.minimum.y box.maximum.y r.orig.y r.dir.y))
      (axHi box.minimum.z box.maximum.z r.orig.z r.dir.z) :=
    le_min (le_min (le_min htmax hUx) hUy) hUz
  have hLeq : max (max (max tmin
        (axLo box.minimum.x box.maximum.x r.orig.x r.dir.x))
        (axLo box.minimum.y box.maximum.y r.orig.y r.dir.y))
      (axLo box.minimum.z box.maximum.z r.orig.z r.dir.z) = (t : EReal) :=
    le_antisymm hLle (le_trans hUge hUL)
  have hUeq : min (min (min tmax
        (axHi box.minimum.x box.maximum.x r.orig.x r.dir.x))
        (axHi box.minimum.y box.maximum.y r.orig.y r.dir.y))
      (axHi box.minimum.z box.maximum.z r.orig.z r.dir.z) = (t : EReal) :=
    le_antisymm (le_trans hUL hLle) hUge
  have hthird_x := mul_self_nonneg (r.orig.x + t * r.dir.x - c.x)
  have hthird_y := mul_self_nonneg (r.orig.y + t * r.dir.y - c.y)
  have hthird_z := mul_self_nonneg (r.orig.z + t * r.dir.z - c.z)
  have hradsq := mul_pos hrad hrad
  rcases emax4_attain _ _ _ _ _ hLeq with h0 | hAx | hAy | hAz
  · exact absurd h0 (ne_of_lt htmin)
  · rcases emin4_attain _ _ _ _ _ hUeq with h0 | hBx | hBy | hBz
    · exact h0.symm
    · exact absurd (axis_attain_both_false box.minimum.x box.maximum.x
        r.orig.x r.dir.x c.x rad t hrad hlox hhix hAx hBx) (fun hb => hb)
    · have hEx := axis_attain_lo box.minimum.x box.maximum.x r.orig.x r.dir.x
        c.x rad t hlox hhix hbx1 hbx2 hAx
      have hEy := axis_attain_hi box.minimum.y box.maximum.y r.orig.y r.dir.y
        c.y rad t hloy hhiy hby1 hby2 hBy
      exact absurd hsum (by intro hc0; linarith)
    · have hEx := axis_attain_lo box.minimum.x box.maximum.x r.orig.x r.dir.x
        c.x rad t hlox hhix hbx1 hbx2 hAx
      have hEz := axis_attain_hi box.minimum.z box.maximum.z r.orig.z r.dir.z
        c.z rad t hloz hhiz hbz1 hbz2 hBz
      exact absurd hsum (by intro hc0; linarith)
  · rcases emin4_attain _ _ _ _ _ hUeq with h0 | hBx | hBy | hBz
    · exact h0.symm
    · have hEy := axis_attain_lo box.minimum.y box.maximum.y r.orig.y r.dir.y
        c.y rad t hloy hhiy hby1 hby2 hAy
      have hEx := axis_attain_hi box.minimum.x box.maximum.x r.orig.x r.dir.x
        c.x rad t hlox hhix hbx1 hbx2 hBx
      exact absurd hsum (by intro hc0; linarith)
    · exact absurd (axis_attain_both_false box.minimum.y box.maximum.y
        r.orig.y r.dir.y c.y rad t hrad hloy hhiy hAy hBy) (fun hb => hb)
    · have hEy := axis_attain_lo box.minimum.y box.maximum.y r.orig.y r.dir.y
        c.y rad t hloy hhiy hby1 hby2 hAy
      have hEz := axis_attain_hi box.minimum.z box.maximum.z r.orig.z r.dir.z
        c.z rad t hloz hhiz hbz1 hbz2 hBz
      exact absurd hsum (by intro hc0; linarith)
  · rcases emin4_attain _ _ _ _ _ hUeq with h0 | hBx | hBy | hBz
    · exact h0.symm
    · have hEz := axis_attain_lo box.minimum.z box.maximum.z r.orig.z r.dir.z
        c.z rad t hloz hhiz hbz1 hbz2 hAz
      have hEx := axis_attain_hi box.minimum.x box.maximum.x r.orig.x r.dir.x
        c.x rad t hlox hhix hbx1 hbx2 hBx
      exact absurd hsum (by intro hc0; linarith)
    · have hEz := axis_attain_lo box.minimum.z box.maximum.z r.orig.z r.dir.z
        c.z rad t hloz hhiz hbz1 hbz2 hAz
      have hEy := axis_attain_hi box.minimum.y box.maximum.y r.orig.y r.dir.y
        c.y rad t hloy hhiy hby1 hby2 hBy
      exact absurd hsum (by intro hc0; linarith)
    · exact absurd (axis_attain_both_false box.minimum.z box.maximum.z
        r.orig.z r.dir.z c.z rad t hrad hloz hhiz hAz hBz) (fun hb => hb)

end BoxFail

/-! ### BVH traversal versus the minimum-tracking scan -/

section BvhAgree

lemma hit1_bvh_nobox (l rgt : Hittable) (box : Aabb) (r : Ray)
    (tmin tmax : EReal) (hbox : ¬ aabbHit box r tmin tmax) :
    hit1 (.bvhNode l rgt box) r tmin tmax = none := by
  rw [hit1, hit_bvh_nobox l rgt box r tmin tmax g0 0 hbox]

lemma hit1_pair (h : Hittable) (r : Ray) (tmin tmax : EReal)
    (hNM : NoMedium h) :
    Hittable.hit h r tmin tmax g0 0 = (hit1 h r tmin tmax, 0) :=
  Prod.ext rfl (hit_det h r tmin tmax g0 0 hNM g0 0).1

lemma hit1_bvh_ss (l rgt : Hittable) (box : Aabb) (r : Ray)
    (tmin tmax : EReal) (recL recR : HitRecord)
    (hbox : aabbHit box r tmin tmax)
    (hNMl : NoMedium l) (hNMr : NoMedium rgt)
    (hL : hit1 l r tmin tmax = some recL)
    (hR : hit1 rgt r tmin (recL.t : EReal) = some recR) :
    hit1 (.bvhNode l rgt box) r tmin tmax = some recR := by
  have hLp := hit1_pair l r tmin tmax hNMl
  rw [hL] at hLp
  have hRp := hit1_pair rgt r tmin (recL.t : EReal) hNMr
  rw [hR] at hRp
  rw [hit1, hit_bvh_ss l rgt box r tmin tmax g0 0 0 0 recL recR hbox hLp hRp]

lemma hit1_bvh_sn (l rgt : Hittable) (box : Aabb) (r : Ray)
    (tmin tmax : EReal) (recL : HitRecord)
    (hbox : aabbHit box r tmin tmax)
    (hNMl : NoMedium l) (hNMr : NoMedium rgt)
    (hL : hit1 l r tmin tmax = some recL)
    (hR : hit1 rgt r tmin (recL.t : EReal) = none) :
    hit1 (.bvhNode l rgt box) r tmin tmax = some recL := by
  have hLp := hit1_pair l r tmin tmax hNMl
  rw [hL] at hLp
  have hRp := hit1_pair rgt r tmin (recL.t : EReal) hNMr
  rw [hR] at hRp
  rw [hit1, hit_bvh_sn l rgt box r tmin tmax g0 0 0 0 recL hbox hLp hRp]

lemma hit1_bvh_ns (l rgt : Hittable) (box : Aabb) (r : Ray)
    (tmin tmax : EReal) (recR : HitRecord)
    (hbox : aabbHit box r tmin tmax)
    (hNMl : NoMedium l) (hNMr : NoMedium rgt)
    (hL : hit1 l r tmin tmax = none)
    (hR : hit1 rgt r tmin tmax = some recR) :
    hit1 (.bvhNode l rgt box) r tmin tmax = some recR := by
  have hLp := hit1_pair l r tmin tmax hNMl
  rw [hL] at hLp
  have hRp := hit1_pair rgt r tmin tmax hNMr
  rw [hR] at hRp
  rw [hit1, hit_bvh_ns l rgt box r tmin tmax g0 0 0 0 recR hbox hLp hRp]

lemma hit1_bvh_nn (l rgt : Hittable) (box : Aabb) (r : Ray)
    (tmin tmax : EReal)
    (hbox : aabbHit box r tmin tmax)
    (hNMl : NoMedium l) (hNMr : NoMedium rgt)
    (hL : hit1 l r tmin tmax = none)
    (hR : hit1 rgt r tmin tmax = none) :
    hit1 (.bvhNode l rgt box) r tmin tmax = none := by
  have hLp := hit1_pair l r tmin tmax hNMl
  rw [hL] at hLp
  have hRp := hit1_pair rgt r tmin tmax hNMr
  rw [hR] at hRp
  rw [hit1, hit_bvh_nn l rgt box r tmin tmax g0 0 0 0 hbox hLp hRp]

lemma SBT_node_parts (l rgt : Hittable) (box : Aabb)
    (hS : SBT (.bvhNode l rgt box)) :
    SBT l ∧ SBT rgt ∧
      ∀ s ∈ leaves l ++ leaves rgt,
        boxContains box ((Hittable.boundingBox s 0 0).getD defAabb) := by
  cases hS with
  | leaf hps =>
    obtain ⟨c, rad, m, heq, -⟩ := hps
    exact absurd heq (by intro hc; cases hc)
  | node hl hr hcont => exact ⟨hl, hr, hcont⟩

/-- Under a failed node box test, any leaf hit the node prunes sits exactly
at the interval's upper boundary (provided it is above the lower one). -/
lemma leaf_accept_tmax (l rgt : Hittable) (box : Aabb) (r : Ray)
    (tmin tmax : EReal)
    (hS : SBT (.bvhNode l rgt box)) (hdir : r.dir ≠ Vec3.zero)
    (hfail : ¬ aabbHit box r tmin tmax)
    (s : Hittable) (hs : s ∈ leaves (.bvhNode l rgt box))
    (rec : HitRecord) (hrec : hit1 s r tmin tmax = some rec)
    (htmin : tmin < (rec.t : EReal)) :
    (rec.t : EReal) = tmax := by
  obtain ⟨hl, hr, hcont⟩ := SBT_node_parts l rgt box hS
  have hv := SBT_node_box_valid l rgt box hS
  have hps : IsPS s := SBT_leaves_isPS (.bvhNode l rgt box) hS s hs
  obtain ⟨c, rad, m, rfl, hrad⟩ := hps
  rw [hit1_sphere] at hrec
  have hfacts := sphereHit_some_facts c rad m r tmin tmax rec hrec
  have hsph := hfacts.2.2.2.2.2.2 hdir
  have hcs := hcont (.sphere c rad m) (by rw [← leaves_bvh]; exact hs)
  rw [bb_sphere] at hcs
  simp only [Option.getD_some] at hcs
  exact boxfail_forces_tmax box r tmin tmax hv.1 hv.2.1 hv.2.2 c rad hrad hcs
    rec.t hsph htmin hfacts.2.1 hfail

lemma node_fail_minT (l rgt : Hittable) (box : Aabb) (r : Ray)
    (tmin tmax : EReal)
    (hS : SBT (.bvhNode l rgt box)) (hdir : r.dir ≠ Vec3.zero)
    (hfail : ¬ aabbHit box r tmin tmax)
    (hH1 : ∀ s ∈ leaves (.bvhNode l rgt box), ∀ rec,
      hit1 s r tmin tmax = some rec → tmin < (rec.t : EReal)) :
    minT (leaves (.bvhNode l rgt box)) r tmin tmax = none ∨
      ∃ t0, minT (leaves (.bvhNode l rgt box)) r tmin tmax = some t0 ∧
        (t0 : EReal) = tmax := by
  cases hM : minT (leaves (.bvhNode l rgt box)) r tmin tmax with
  | none => exact Or.inl rfl
  | some t0 =>
    right
    refine ⟨t0, rfl, ?_⟩
    obtain ⟨s, hs, hacc⟩ := minT_mem _ r tmin tmax t0 hM
    unfold acceptT at hacc
    cases hrec : hit1 s r tmin tmax with
    | none =>
      rw [hrec] at hacc
      exact absurd hacc (by simp)
    | some rec =>
      rw [hrec] at hacc
      simp only [Option.map_some'] at hacc
      rw [← Option.some.inj hacc]
      exact leaf_accept_tmax l rgt box r tmin tmax hS hdir hfail s hs rec hrec
        (hH1 s hs rec hrec)

/-- The heart of the C1 analysis: over a well-formed sphere BVH, as long as
no leaf accepts a hit exactly at the lower query bound, the traversal result
agrees in its parameter with the spec's minimum-tracking scan over the
leaves, except that a subtree whose box test fails may lose hits lying
exactly at the (possibly shrunk) upper bound--in which case the traversal
reports a miss and the scan's minimum is that bound itself. -/
lemma bvh_agree (h : Hittable) (hS : SBT h) (r : Ray)
    (hdir : r.dir ≠ Vec3.zero) :
    ∀ tmin tmax : EReal,
      (∀ s ∈ leaves h, ∀ rec, hit1 s r tmin tmax = some rec →
        tmin < (rec.t : EReal)) →
      Option.map HitRecord.t (hit1 h r tmin tmax) =
        minT (leaves h) r tmin tmax ∨
      (hit1 h r tmin tmax = none ∧
        ∃ t0, minT (leaves h) r tmin tmax = some t0 ∧ (t0 : EReal) = tmax) := by
  induction hS with
  | @leaf s hps =>
    intro tmin tmax hH1
    left
    rw [leaves_isPS s hps, minT_cons, minT_nil]
    unfold acceptT
    cases hit1 s r tmin tmax with
    | none => rfl
    | some rec => rfl
  | @node l rgt box hl hrr hcont ihl ihr =>
    intro tmin tmax hH1
    have hSnode : SBT (.bvhNode l rgt box) := SBT.node hl hrr hcont
    have hNMl : NoMedium l := SBT_NoMedium l hl
    have hNMr : NoMedium rgt := SBT_NoMedium rgt hrr
    have hH1l : ∀ s ∈ leaves l, ∀ rec, hit1 s r tmin tmax = some rec →
        tmin < (rec.t : EReal) :=
      fun s hs => hH1 s (by rw [leaves_bvh]; exact List.mem_append_left _ hs)
    have hH1r : ∀ s ∈ leaves rgt, ∀ rec, hit1 s r tmin tmax = some rec →
        tmin < (rec.t : EReal) :=
      fun s hs => hH1 s (by rw [leaves_bvh]; exact List.mem_append_right _ hs)
    by_cases hbox : aabbHit box r tmin tmax
    · cases hL : hit1 l r tmin tmax with
      | some recL =>
        rcases ihl tmin tmax hH1l with ihlv | ⟨hlnone, -⟩
        swap
        · rw [hL] at hlnone
          exact absurd hlnone (by simp)
        rw [hL] at ihlv
        simp only [Option.map_some'] at ihlv
        have hbL := hit_bounds_det l r tmin tmax g0 0 hNMl recL hL
        have hShrR : ∀ s ∈ leaves rgt, ShrinkOK s := fun s hs =>
          shrinkOK_of_sphereLike s
            (sphereLike_of_isPS s (SBT_leaves_isPS rgt hrr s hs))
        have hH1rs : ∀ s ∈ leaves rgt, ∀ rec,
            hit1 s r tmin (recL.t : EReal) = some rec →
            tmin < (rec.t : EReal) := by
          intro s hs rec hrec
          have hfull :=
            ((hShrR s hs r tmin (recL.t : EReal) tmax rec hbL.2).mp hrec).1
          exact hH1r s hs rec hfull
        have hminshr :=
          minT_shrink (leaves rgt) hShrR r tmin (recL.t : EReal) tmax hbL.2
        cases hR : hit1 rgt r tmin (recL.t : EReal) with
        | some recR =>
          have hnode :=
            hit1_bvh_ss l rgt box r tmin tmax recL recR hbox hNMl hNMr hL hR
          left
          rcases ihr tmin (recL.t : EReal) hH1rs with ihrv | ⟨hrnone, -⟩
          swap
          · rw [hR] at hrnone
            exact absurd hrnone (by simp)
          rw [hR] at ihrv
          simp only [Option.map_some'] at ihrv
          rw [hminshr] at ihrv
          rw [hnode, leaves_bvh, minT_append, ← ihlv]
          simp only [Option.map_some']
          cases hMr : minT (leaves rgt) r tmin tmax with
          | none =>
            rw [hMr] at ihrv
            exact absurd ihrv (by simp)
          | some tr =>
            rw [hMr] at ihrv
            have ihrv2 : some recR.t =
                if (tr : EReal) ≤ (recL.t : EReal) then some tr else none :=
              ihrv
            by_cases htr : (tr : EReal) ≤ (recL.t : EReal)
            · rw [if_pos htr] at ihrv2
              have htrr : tr ≤ recL.t := by exact_mod_cast htr
              rw [Option.some.inj ihrv2, ominT_some_some, min_eq_right htrr]
            · rw [if_neg htr] at ihrv2
              exact absurd ihrv2 (by simp)
        | none =>
          have hnode :=
            hit1_bvh_sn l rgt box r tmin tmax recL hbox hNMl hNMr hL hR
          left
          rw [hnode, leaves_bvh, minT_append, ← ihlv]
          simp only [Option.map_some']
          rcases ihr tmin (recL.t : EReal) hH1rs with ihrv | ⟨-, tr0, hMr0, htr0⟩
          · rw [hR] at ihrv
            simp only [Option.map_none'] at ihrv
            rw [hminshr] at ihrv
            cases hMr : minT (leaves rgt) r tmin tmax with
            | none => rw [ominT_some_none]
            | some tr =>
              rw [hMr] at ihrv
              have ihrv2 : (none : Option ℝ) =
                  if (tr : EReal) ≤ (recL.t : EReal) then some tr else none :=
                ihrv
              by_cases htr : (tr : EReal) ≤ (recL.t : EReal)
              · rw [if_pos htr] at ihrv2
                exact absurd ihrv2.symm (by simp)
              · have h1 : recL.t ≤ tr :=
                  le_of_lt (by exact_mod_cast not_le.mp htr)
                rw [ominT_some_some, min_eq_left h1]
          · have htr0' : tr0 = recL.t := by exact_mod_cast htr0
            rw [hminshr] at hMr0
            cases hMr : minT (leaves rgt) r tmin tmax with
            | none =>
              rw [hMr] at hMr0
              exact absurd hMr0 (by simp)
            | some tr =>
              rw [hMr] at hMr0
              have hMr02 : (if (tr : EReal) ≤ (recL.t : EReal) then some tr
                  else none) = some tr0 := hMr0
              by_cases htr : (tr : EReal) ≤ (recL.t : EReal)
              · rw [if_pos htr] at hMr02
                have : tr = recL.t := (Option.some.inj hMr02).trans htr0'
                rw [ominT_some_some, this, min_self]
              · rw [if_neg htr] at hMr02
                exact absurd hMr02 (by simp)
      | none =>
        cases hR : hit1 rgt r tmin tmax with
        | some recR =>
          have hnode :=
            hit1_bvh_ns l rgt box r tmin tmax recR hbox hNMl hNMr hL hR
          left
          rcases ihr tmin tmax hH1r with ihrv | ⟨hrnone, -⟩
          swap
          · rw [hR] at hrnone
            exact absurd hrnone (by simp)
          rw [hR] at ihrv
          simp only [Option.map_some'] at ihrv
          rw [hnode, leaves_bvh, minT_append, ← ihrv]
          simp only [Option.map_some']
          rcases ihl tmin tmax hH1l with ihlv | ⟨-, tl0, hMl, htl0⟩
          · rw [hL] at ihlv
            simp only [Option.map_none'] at ihlv
            rw [← ihlv, ominT_none_left]
          · rw [hMl]
            have hbR := hit_bounds_det rgt r tmin tmax g0 0 hNMr recR hR
            have hle : recR.t ≤ tl0 := by
              have := hbR.2
              rw [← htl0] at this
              exact_mod_cast this
            rw [ominT_some_some, min_eq_right hle]
        | none =>
          have hnode := hit1_bvh_nn l rgt box r tmin tmax hbox hNMl hNMr hL hR
          rcases ihl tmin tmax hH1l with ihlv | ⟨-, tl0, hMl, htl0⟩ <;>
            rcases ihr tmin tmax hH1r with ihrv | ⟨-, tr0, hMr, htr0⟩
          · left
            rw [hL] at ihlv
            rw [hR] at ihrv
            simp only [Option.map_none'] at ihlv ihrv
            rw [hnode, leaves_bvh, minT_append, ← ihlv, ← ihrv]
            rfl
          · right
            refine ⟨hnode, tr0, ?_, htr0⟩
            rw [hL] at ihlv
            simp only [Option.map_none'] at ihlv
            rw [leaves_bvh, minT_append, ← ihlv, hMr, ominT_none_left]
          · right
            refine ⟨hnode, tl0, ?_, htl0⟩
            rw [hR] at ihrv
            simp only [Option.map_none'] at ihrv
            rw [leaves_bvh, minT_append, hMl, ← ihrv]
            rfl
          · right
            refine ⟨hnode, tl0, ?_, htl0⟩
            have heq : tl0 = tr0 := by
              have := htl0.trans htr0.symm
              exact_mod_cast this
            rw [leaves_bvh, minT_append, hMl, hMr, ominT_some_some, heq,
              min_self]
    · have hnone := hit1_bvh_nobox l rgt box r tmin tmax hbox
      rcases node_fail_minT l rgt box r tmin tmax hSnode hdir hbox hH1 with
        hM | ⟨t0, hM, ht0⟩
      · left
        rw [hnone, hM]
        rfl
      · right
        exact ⟨hnone, t0, hM, ht0⟩

end BvhAgree

/-! ### The list scan at the top level -/

section ListEval

/-- `hittable_list::hit` computes (in its parameter) exactly the spec's
minimum-tracking scan, and any record it returns is some member's
full-interval hit. -/
lemma hit1_list_eval (S : List Hittable) (r : Ray) (tmin tmax : EReal)
    (hS : ∀ o ∈ S, SphereLike o) :
    Option.map HitRecord.t (hit1 (.list S) r tmin tmax) =
      minT S r tmin tmax ∧
    ∀ rec, hit1 (.list S) r tmin tmax = some rec →
      ∃ o ∈ S, hit1 o r tmin tmax = some rec := by
  obtain ⟨hv, hp⟩ := hitLoop_minT S r tmin tmax hS none g0 0 (by simp)
  constructor
  · rw [hit1, hit_list, hv]
    show ominT none (minT S r tmin tmax) = minT S r tmin tmax
    rw [ominT_none_left]
  · intro rec hrec
    rw [hit1, hit_list] at hrec
    rcases hp rec hrec with h1 | h2
    · exact absurd h1 (by simp)
    · exact h2

end ListEval

/-! ### Normals and face orientation -/

section FaceLemmas

lemma RadNZ_sphere (c : Vec3) (rad : ℝ) (m : ℕ) :
    RadNZ (.sphere c rad m) ↔ rad ≠ 0 := by rw [RadNZ]

lemma RadNZ_movingSphere (c0 c1 : Vec3) (tm0 tm1 rad : ℝ) (m : ℕ) :
    RadNZ (.movingSphere c0 c1 tm0 tm1 rad m) ↔ rad ≠ 0 := by rw [RadNZ]

lemma RadNZ_list (objs : List Hittable) :
    RadNZ (.list objs) ↔ RadNZL objs := by rw [RadNZ]

lemma RadNZ_bvh (l rgt : Hittable) (box : Aabb) :
    RadNZ (.bvhNode l rgt box) ↔ RadNZ l ∧ RadNZ rgt := by rw [RadNZ]

lemma RadNZL_cons (o : Hittable) (os : List Hittable) :
    RadNZL (o :: os) ↔ RadNZ o ∧ RadNZL os := by rw [RadNZL]

lemma Vec3.neg_neg (v : Vec3) : v.neg.neg = v := by
  unfold Vec3.neg
  simp

lemma Vec3.length_eq_one (v : Vec3) (h : v.lengthSquared = 1) :
    v.length = 1 := by
  rw [Vec3.length, h, Real.sqrt_one]

/-- `set_face_normal` stores a unit normal (when the outward one is unit)
and its front flag is exactly the sign test against the outward normal,
recoverable from the record as stored-or-negated. -/
lemma setFaceNormal_spec (r : Ray) (outward : Vec3)
    (hlen : outward.lengthSquared = 1) :
    ((setFaceNormal r outward).2).lengthSquared = 1 ∧
    ((setFaceNormal r outward).1 ↔
      Vec3.dot r.dir (if (setFaceNormal r outward).1
        then (setFaceNormal r outward).2
        else ((setFaceNormal r outward).2).neg) < 0) := by
  unfold setFaceNormal
  simp only []
  by_cases hf : Vec3.dot r.dir outward < 0
  · rw [if_pos hf, if_pos hf]
    exact ⟨hlen, ⟨fun _ => hf, fun _ => hf⟩⟩
  · rw [if_neg hf, if_neg hf, Vec3.neg_neg]
    rw [Vec3.lengthSquared_neg]
    exact ⟨hlen, ⟨fun hc => absurd hc hf, fun hc => absurd hc hf⟩⟩

lemma sphereHit_face (c : Vec3) (rad : ℝ) (hrz : rad ≠ 0) (m : ℕ) (r : Ray)
    (hdir : r.dir ≠ Vec3.zero) (tmin tmax : EReal) (rec : HitRecord)
    (h : sphereHit c rad m r tmin tmax = some rec) :
    rec.normal.lengthSquared = 1 ∧
    (rec.frontFace ↔ Vec3.dot r.dir
      (if rec.frontFace then rec.normal else rec.normal.neg) < 0) := by
  have hfacts := sphereHit_some_facts c rad m r tmin tmax rec h
  have hsph := hfacts.2.2.2.2.2.2 hdir
  have hlen : (((r.at rec.t).sub c).divs rad).lengthSquared = 1 := by
    rw [Vec3.lengthSquared_divs, hsph]
    field_simp
    ring
  have hspec := setFaceNormal_spec r (((r.at rec.t).sub c).divs rad) hlen
  rw [hfacts.2.2.2.2.1, hfacts.2.2.2.2.2.1]
  exact hspec

lemma movingSphereHit_face (c0 c1 : Vec3) (tm0 tm1 rad : ℝ) (hrz : rad ≠ 0)
    (m : ℕ) (r : Ray) (hdir : r.dir ≠ Vec3.zero) (tmin tmax : EReal)
    (rec : HitRecord)
    (h : movingSphereHit c0 c1 tm0 tm1 rad m r tmin tmax = some rec) :
    rec.normal.lengthSquared = 1 ∧
    (rec.frontFace ↔ Vec3.dot r.dir
      (if rec.frontFace then rec.normal else rec.normal.neg) < 0) := by
  have hfacts := movingSphereHit_some_facts c0 c1 tm0 tm1 rad m r tmin tmax rec h
  have hsph := hfacts.2.2.2.2.2.2 hdir
  have hlen : (((r.at rec.t).sub (msCenter c0 c1 tm0 tm1 r.tm)).divs
      rad).lengthSquared = 1 := by
    rw [Vec3.lengthSquared_divs, hsph]
    field_simp
    ring
  have hspec := setFaceNormal_spec r
    (((r.at rec.t).sub (msCenter c0 c1 tm0 tm1 r.tm)).divs rad) hlen
  rw [hfacts.2.2.2.2.1, hfacts.2.2.2.2.2.1]
  exact hspec

/-- Unit normal and the front-face law, for every hit of a media-free scene
whose sphere radii are nonzero (with nondegenerate ray direction). -/
lemma hit_face_det (h : Hittable) (r : Ray) (tmin tmax : EReal)
    (g : ℕ → ℝ) (n : ℕ) :
    NoMedium h → RadNZ h → r.dir ≠ Vec3.zero →
    ∀ rec, (Hittable.hit h r tmin tmax g n).1 = some rec →
      rec.normal.lengthSquared = 1 ∧
      (rec.frontFace ↔ Vec3.dot r.dir
        (if rec.frontFace then rec.normal else rec.normal.neg) < 0) := by
  refine Hittable.hit.induct
    (fun h r tmin tmax g n => NoMedium h → RadNZ h → r.dir ≠ Vec3.zero →
      ∀ rec, (Hittable.hit h r tmin tmax g n).1 = some rec →
      rec.normal.lengthSquared = 1 ∧
      (rec.frontFace ↔ Vec3.dot r.dir
        (if rec.frontFace then rec.normal else rec.normal.neg) < 0))
    (fun os r tmin tmax acc g n => NoMediumL os → RadNZL os →
      r.dir ≠ Vec3.zero →
      (∀ rec0, acc = some rec0 →
        rec0.normal.lengthSquared = 1 ∧
        (rec0.frontFace ↔ Vec3.dot r.dir
          (if rec0.frontFace then rec0.normal else rec0.normal.neg) < 0)) →
      ∀ rec, (hitLoop os r tmin tmax acc g n).1 = some rec →
      rec.normal.lengthSquared = 1 ∧
      (rec.frontFace ↔ Vec3.dot r.dir
        (if rec.frontFace then rec.normal else rec.normal.neg) < 0))
    ?_ ?_ ?_ ?_ ?_ ?_ ?_ ?_ ?_ ?_ ?_ ?_ ?_ ?_ h r tmin tmax g n
  · intro c rad m r tmin tmax g n _ hRZ hdir rec hrec
    rw [hit_sphere] at hrec
    exact sphereHit_face c rad ((RadNZ_sphere c rad m).mp hRZ) m r hdir
      tmin tmax rec hrec
  · intro c0 c1 tm0 tm1 rad m r tmin tmax g n _ hRZ hdir rec hrec
    rw [hit_movingSphere] at hrec
    exact movingSphereHit_face c0 c1 tm0 tm1 rad
      ((RadNZ_movingSphere c0 c1 tm0 tm1 rad m).mp hRZ) m r hdir
      tmin tmax rec hrec
  · intro b negInv m r tmin tmax g n n2 _ _ hNM
    exact absurd hNM (NoMedium_medium _ _ _)
  · intro b negInv m r tmin tmax g n rec2 n2 _ n3 _ _ _ hNM
    exact absurd hNM (NoMedium_medium _ _ _)
  · intro b negInv m r tmin tmax g n rec2 n2 _ rec3 n3 _ _ _ hNM
    exact absurd hNM (NoMedium_medium _ _ _)
  · intro objs r tmin tmax g n ih hNM hRZ hdir rec hrec
    rw [hit_list] at hrec
    exact ih ((NoMedium_list objs).mp hNM) ((RadNZ_list objs).mp hRZ) hdir
      (by simp) rec hrec
  · intro l rgt box r tmin tmax g n hbox recL n1 hL recR n2 hR ihL ihR
      hNM hRZ hdir rec hrec
    obtain ⟨hNl, hNr⟩ := (NoMedium_bvh l rgt box).mp hNM
    obtain ⟨hRl, hRr⟩ := (RadNZ_bvh l rgt box).mp hRZ
    rw [hit_bvh_ss l rgt box r tmin tmax g n n1 n2 recL recR hbox hL hR] at hrec
    obtain rfl : recR = rec := Option.some.inj hrec
    exact ihR hNr hRr hdir recR (by rw [hR])
  · intro l rgt box r tmin tmax g n hbox recL n1 hL n2 hR ihL ihR
      hNM hRZ hdir rec hrec
    obtain ⟨hNl, hNr⟩ := (NoMedium_bvh l rgt box).mp hNM
    obtain ⟨hRl, hRr⟩ := (RadNZ_bvh l rgt box).mp hRZ
    rw [hit_bvh_sn l rgt box r tmin tmax g n n1 n2 recL hbox hL hR] at hrec
    obtain rfl : recL = rec := Option.some.inj hrec
    exact ihL hNl hRl hdir recL (by rw [hL])
  · intro l rgt box r tmin tmax g n hbox n1 hL recR n2 hR ihL ihR
      hNM hRZ hdir rec hrec
    obtain ⟨hNl, hNr⟩ := (NoMedium_bvh l rgt box).mp hNM
    obtain ⟨hRl, hRr⟩ := (RadNZ_bvh l rgt box).mp hRZ
    rw [hit_bvh_ns l rgt box r tmin tmax g n n1 n2 recR hbox hL hR] at hrec
    obtain rfl : recR = rec := Option.some.inj hrec
    exact ihR hNr hRr hdir recR (by rw [hR])
  · intro l rgt box r tmin tmax g n hbox n1 hL n2 hR ihL ihR hNM hRZ hdir rec hrec
    rw [hit_bvh_nn l rgt box r tmin tmax g n n1 n2 hbox hL hR] at hrec
    exact absurd hrec (by simp)
  · intro l rgt box r tmin tmax g n hbox _hNM _hRZ _hdir rec hrec
    rw [hit_bvh_nobox _ _ _ _ _ _ _ _ hbox] at hrec
    exact absurd hrec (by simp)
  · intro r tmin tmax acc g n _ _ _ hacc rec hrec
    rw [hitLoop_nil] at hrec
    exact hacc rec hrec
  · intro o os r tmin tmax acc g n closest rec1 n1 hO ihO ihLoop
      hNM hRZ hdir hacc rec hrec
    obtain ⟨hNo, hNos⟩ := (NoMediumL_cons o os).mp hNM
    obtain ⟨hRo, hRos⟩ := (RadNZL_cons o os).mp hRZ
    have hb1 := ihO hNo hRo hdir rec1 (by rw [hO])
    rw [hitLoop_cons_some o os r tmin tmax acc g n n1 rec1 hO] at hrec
    refine ihLoop hNos hRos hdir ?_ rec hrec
    intro rec0 h0
    obtain rfl : rec1 = rec0 := Option.some.inj h0
    exact hb1
  · intro o os r tmin tmax acc g n closest n1 hO ihO ihLoop
      hNM hRZ hdir hacc rec hrec
    obtain ⟨hNo, hNos⟩ := (NoMediumL_cons o os).mp hNM
    obtain ⟨hRo, hRos⟩ := (RadNZL_cons o os).mp hRZ
    rw [hitLoop_cons_none o os r tmin tmax acc g n n1 hO] at hrec
    exact ihLoop hNos hRos hdir hacc rec hrec

end FaceLemmas

/-! ### Parameter bounds, media included -/

section MediaBounds

lemma MediaNeg_medium (b : Hittable) (d : ℝ) (m : ℕ) :
    MediaNeg (.constantMedium b d m) ↔ d < 0 ∧ MediaNeg b := by rw [MediaNeg]

lemma MediaNeg_list (objs : List Hittable) :
    MediaNeg (.list objs) ↔ MediaNegL objs := by rw [MediaNeg]

lemma MediaNeg_bvh (l rgt : Hittable) (box : Aabb) :
    MediaNeg (.bvhNode l rgt box) ↔ MediaNeg l ∧ MediaNeg rgt := by
  rw [MediaNeg]

lemma MediaNegL_cons (o : Hittable) (os : List Hittable) :
    MediaNegL (o :: os) ↔ MediaNeg o ∧ MediaNegL os := by rw [MediaNegL]

lemma mulE_coe (a b : ℝ) : mulE a ((b : ℝ) : EReal) = ((a * b : ℝ) : EReal) :=
  rfl

lemma mulE_bot_of_neg (a : ℝ) (ha : a < 0) : mulE a ⊥ = ⊤ := by
  simp only [mulE]
  rw [if_neg (not_lt.mpr (le_of_lt ha)), if_pos ha]

/-- The scatter of `constant_medium::hit` keeps the parameter inside the
query interval provided the stored `neg_inv_density` is negative and the
random draw lies in `[0, 1)`. -/
lemma mediumStep_bounds (negInv : ℝ) (hneg : negInv < 0) (m : ℕ) (r : Ray)
    (tr tR : ℝ) (rec1t rec2t : ℝ) (g : ℕ → ℝ) (n : ℕ)
    (hg0 : 0 ≤ g n) (hg1 : g n < 1) (rec : HitRecord)
    (h : (mediumStep negInv m r ((tr : ℝ) : EReal) ((tR : ℝ) : EReal)
      rec1t rec2t g n).1 = some rec) :
    tr ≤ rec.t ∧ rec.t ≤ tR := by
  simp only [mediumStep] at h
  have hr1a : (if ((rec1t : ℝ) : EReal) < ((tr : ℝ) : EReal)
      then ((tr : ℝ) : EReal) else ((rec1t : ℝ) : EReal)) =
      ((if rec1t < tr then tr else rec1t : ℝ) : EReal) := by
    by_cases hc : rec1t < tr
    · rw [if_pos (EReal.coe_lt_coe_iff.mpr hc), if_pos hc]
    · rw [if_neg (fun hcc => hc (EReal.coe_lt_coe_iff.mp hcc)), if_neg hc]
  have hr2a : (if ((tR : ℝ) : EReal) < ((rec2t : ℝ) : EReal)
      then ((tR : ℝ) : EReal) else ((rec2t : ℝ) : EReal)) =
      ((if tR < rec2t then tR else rec2t : ℝ) : EReal) := by
    by_cases hc : tR < rec2t
    · rw [if_pos (EReal.coe_lt_coe_iff.mpr hc), if_pos hc]
    · rw [if_neg (fun hcc => hc (EReal.coe_lt_coe_iff.mp hcc)), if_neg hc]
  rw [hr1a, hr2a] at h
  set A : ℝ := if rec1t < tr then tr else rec1t with hA
  set B : ℝ := if tR < rec2t then tR else rec2t with hB
  have htrA : tr ≤ A := by
    rw [hA]
    by_cases hc : rec1t < tr
    · rw [if_pos hc]
    · rw [if_neg hc]
      exact le_of_not_lt hc
  have hBtR : B ≤ tR := by
    rw [hB]
    by_cases hc : tR < rec2t
    · rw [if_pos hc]
    · rw [if_neg hc]
      exact le_of_not_lt hc
  by_cases hBA : ((B : ℝ) : EReal) ≤ ((A : ℝ) : EReal)
  · rw [if_pos hBA] at h
    exact absurd h (by simp)
  · rw [if_neg hBA] at h
    have hr1b : (if ((A : ℝ) : EReal) < (0 : EReal) then (0 : EReal)
        else ((A : ℝ) : EReal)) = ((if A < 0 then 0 else A : ℝ) : EReal) := by
      by_cases hc : A < 0
      · rw [if_pos (by exact_mod_cast hc), if_pos hc]
        exact EReal.coe_zero.symm
      · rw [if_neg (by exact_mod_cast hc), if_neg hc]
    rw [hr1b] at h
    set C : ℝ := if A < 0 then 0 else A with hC
    have hAC : A ≤ C := by
      rw [hC]
      by_cases hc : A < 0
      · rw [if_pos hc]
        exact le_of_lt hc
      · rw [if_neg hc]
    rw [EReal.toReal_coe, EReal.toReal_coe] at h
    have hrl0 : 0 ≤ r.dir.length := by
      rw [Vec3.length]
      exact Real.sqrt_nonneg _
    by_cases hgz : g n = 0
    · rw [hgz] at h
      rw [show logE 0 = ⊥ from by rw [logE, if_pos rfl]] at h
      rw [mulE_bot_of_neg negInv hneg] at h
      rw [if_pos (EReal.coe_lt_top _)] at h
      exact absurd h (by simp)
    · have hgpos : 0 < g n := lt_of_le_of_ne hg0 (Ne.symm hgz)
      have hlogneg : Real.log (g n) < 0 := Real.log_neg hgpos hg1
      rw [show logE (g n) = ((Real.log (g n) : ℝ) : EReal) from
        by rw [logE, if_neg hgz]] at h
      rw [mulE_coe] at h
      have hdpos : 0 < negInv * Real.log (g n) :=
        mul_pos_of_neg_of_neg hneg hlogneg
      by_cases hsc : (((B - C) * r.dir.length : ℝ) : EReal) <
          ((negInv * Real.log (g n) : ℝ) : EReal)
      · rw [if_pos hsc] at h
        exact absurd h (by simp)
      · rw [if_neg hsc] at h
        have hdle : negInv * Real.log (g n) ≤ (B - C) * r.dir.length := by
          exact_mod_cast not_lt.mp hsc
        rw [EReal.toReal_coe] at h
        have hinj := Option.some.inj h
        have hrlpos : 0 < r.dir.length := by
          rcases lt_or_eq_of_le hrl0 with hp | hzz
          · exact hp
          · exfalso
            rw [← hzz, mul_zero] at hdle
            exact absurd (lt_of_lt_of_le hdpos hdle) (lt_irrefl 0)
        constructor
        · rw [← hinj]
          show tr ≤ C + negInv * Real.log (g n) / r.dir.length
          have hnn : 0 ≤ negInv * Real.log (g n) / r.dir.length :=
            div_nonneg (le_of_lt hdpos) hrl0
          linarith
        · rw [← hinj]
          show C + negInv * Real.log (g n) / r.dir.length ≤ tR
          have hq : negInv * Real.log (g n) / r.dir.length ≤ B - C :=
            (div_le_iff hrlpos).mpr hdle
          linarith

lemma hit_medium_none1 (b : Hittable) (negInv : ℝ) (m : ℕ) (r : Ray)
    (tmin tmax : EReal) (g : ℕ → ℝ) (n n1 : ℕ)
    (h1 : Hittable.hit b r ⊥ ⊤ g n = (none, n1)) :
    Hittable.hit (.constantMedium b negInv m) r tmin tmax g n = (none, n1) := by
  rw [hit_medium, h1]

lemma hit_medium_sn (b : Hittable) (negInv : ℝ) (m : ℕ) (r : Ray)
    (tmin tmax : EReal) (g : ℕ → ℝ) (n : ℕ) (rec1 : HitRecord) (n1 n2 : ℕ)
    (h1 : Hittable.hit b r ⊥ ⊤ g n = (some rec1, n1))
    (h2 : Hittable.hit b r ((rec1.t + 1 / 10000 : ℝ) : EReal) ⊤ g n1 =
      (none, n2)) :
    Hittable.hit (.constantMedium b negInv m) r tmin tmax g n = (none, n2) := by
  rw [hit_medium, h1]
  show (match Hittable.hit b r ((rec1.t + 1 / 10000 : ℝ) : EReal) ⊤ g n1 with
    | (none, n2) => ((none : Option HitRecord), n2)
    | (some rec2, n2) => mediumStep negInv m r tmin tmax rec1.t rec2.t g n2) =
    (none, n2)
  rw [h2]

lemma hit_medium_ss (b : Hittable) (negInv : ℝ) (m : ℕ) (r : Ray)
    (tmin tmax : EReal) (g : ℕ → ℝ) (n : ℕ) (rec1 rec2 : HitRecord)
    (n1 n2 : ℕ)
    (h1 : Hittable.hit b r ⊥ ⊤ g n = (some rec1, n1))
    (h2 : Hittable.hit b r ((rec1.t + 1 / 10000 : ℝ) : EReal) ⊤ g n1 =
      (some rec2, n2)) :
    Hittable.hit (.constantMedium b negInv m) r tmin tmax g n =
      mediumStep negInv m r tmin tmax rec1.t rec2.t g n2 := by
  rw [hit_medium, h1]
  show (match Hittable.hit b r ((rec1.t + 1 / 10000 : ℝ) : EReal) ⊤ g n1 with
    | (none, n2) => ((none : Option HitRecord), n2)
    | (some rec2, n2) => mediumStep negInv m r tmin tmax rec1.t rec2.t g n2) =
    mediumStep negInv m r tmin tmax rec1.t rec2.t g n2
  rw [h2]

/-- C3, media included: with strictly negative stored densities and a random
stream confined to `[0, 1)`, every accepted parameter of any variant lies in
the (finite) query interval. -/
lemma hit_bounds_media (h : Hittable) (r : Ray) (tmin tmax : EReal)
    (g : ℕ → ℝ) (n : ℕ) :
    MediaNeg h → (∀ k, 0 ≤ g k ∧ g k < 1) →
    ∀ (tr tR : ℝ), tmin = ((tr : ℝ) : EReal) → tmax = ((tR : ℝ) : EReal) →
    ∀ rec, (Hittable.hit h r tmin tmax g n).1 = some rec →
      tr ≤ rec.t ∧ rec.t ≤ tR := by
  refine Hittable.hit.induct
    (fun h r tmin tmax g n => MediaNeg h → (∀ k, 0 ≤ g k ∧ g k < 1) →
      ∀ (tr tR : ℝ), tmin = ((tr : ℝ) : EReal) → tmax = ((tR : ℝ) : EReal) →
      ∀ rec, (Hittable.hit h r tmin tmax g n).1 = some rec →
        tr ≤ rec.t ∧ rec.t ≤ tR)
    (fun os r tmin tmax acc g n => MediaNegL os → (∀ k, 0 ≤ g k ∧ g k < 1) →
      ∀ (tr tR : ℝ), tmin = ((tr : ℝ) : EReal) → tmax = ((tR : ℝ) : EReal) →
      (∀ rec0, acc = some rec0 → tr ≤ rec0.t ∧ rec0.t ≤ tR) →
      ∀ rec, (hitLoop os r tmin tmax acc g n).1 = some rec →
        tr ≤ rec.t ∧ rec.t ≤ tR)
    ?_ ?_ ?_ ?_ ?_ ?_ ?_ ?_ ?_ ?_ ?_ ?_ ?_ ?_ h r tmin tmax g n
  · intro c rad m r tmin tmax g n _ _ tr tR htmin htmax rec hrec
    subst htmin
    subst htmax
    rw [hit_sphere] at hrec
    have hfacts := sphereHit_some_facts c rad m r _ _ rec hrec
    exact ⟨by exact_mod_cast hfacts.1, by exact_mod_cast hfacts.2.1⟩
  · intro c0 c1 tm0 tm1 rad m r tmin tmax g n _ _ tr tR htmin htmax rec hrec
    subst htmin
    subst htmax
    rw [hit_movingSphere] at hrec
    have hfacts := movingSphereHit_some_facts c0 c1 tm0 tm1 rad m r _ _ rec hrec
    exact ⟨by exact_mod_cast hfacts.1, by exact_mod_cast hfacts.2.1⟩
  · intro b negInv m r tmin tmax g n n2 heq1 _ hMN hg tr tR htmin htmax rec hrec
    rw [hit_medium_none1 b negInv m r tmin tmax g n n2 heq1] at hrec
    exact absurd hrec (by simp)
  · intro b negInv m r tmin tmax g n rec2 n2 heq1 n3 heq2 _ _
      hMN hg tr tR htmin htmax rec hrec
    rw [hit_medium_sn b negInv m r tmin tmax g n rec2 n2 n3 heq1 heq2] at hrec
    exact absurd hrec (by simp)
  · intro b negInv m r tmin tmax g n rec2 n2 heq1 rec3 n3 heq2 _ _
      hMN hg tr tR htmin htmax rec hrec
    subst htmin
    subst htmax
    rw [hit_medium_ss b negInv m r _ _ g n rec2 rec3 n2 n3 heq1 heq2] at hrec
    have hneg := ((MediaNeg_medium b negInv m).mp hMN).1
    exact mediumStep_bounds negInv hneg m r tr tR rec2.t rec3.t g n3
      (hg n3).1 (hg n3).2 rec hrec
  · intro objs r tmin tmax g n ih hMN hg tr tR htmin htmax rec hrec
    rw [hit_list] at hrec
    exact ih ((MediaNeg_list objs).mp hMN) hg tr tR htmin htmax
      (by simp) rec hrec
  · intro l rgt box r tmin tmax g n hbox recL n1 hL recR n2 hR ihL ihR
      hMN hg tr tR htmin htmax rec hrec
    obtain ⟨hMl, hMr⟩ := (MediaNeg_bvh l rgt box).mp hMN
    rw [hit_bvh_ss l rgt box r tmin tmax g n n1 n2 recL recR hbox hL hR] at hrec
    obtain rfl : recR = rec := Option.some.inj hrec
    have hbL := ihL hMl hg tr tR htmin htmax recL (by rw [hL])
    have hbR := ihR hMr hg tr recL.t htmin rfl recR (by rw [hR])
    exact ⟨hbR.1, le_trans hbR.2 hbL.2⟩
  · intro l rgt box r tmin tmax g n hbox recL n1 hL n2 hR ihL ihR
      hMN hg tr tR htmin htmax rec hrec
    obtain ⟨hMl, hMr⟩ := (MediaNeg_bvh l rgt box).mp hMN
    rw [hit_bvh_sn l rgt box r tmin tmax g n n1 n2 recL hbox hL hR] at hrec
    obtain rfl : recL = rec := Option.some.inj hrec
    exact ihL hMl hg tr tR htmin htmax recL (by rw [hL])
  · intro l rgt box r tmin tmax g n hbox n1 hL recR n2 hR ihL ihR
      hMN hg tr tR htmin htmax rec hrec
    obtain ⟨hMl, hMr⟩ := (MediaNeg_bvh l rgt box).mp hMN
    rw [hit_bvh_ns l rgt box r tmin tmax g n n1 n2 recR hbox hL hR] at hrec
    obtain rfl : recR = rec := Option.some.inj hrec
    exact ihR hMr hg tr tR htmin htmax recR (by rw [hR])
  · intro l rgt box r tmin tmax g n hbox n1 hL n2 hR ihL ihR
      hMN hg tr tR htmin htmax rec hrec
    rw [hit_bvh_nn l rgt box r tmin tmax g n n1 n2 hbox hL hR] at hrec
    exact absurd hrec (by simp)
  · intro l rgt box r tmin tmax g n hbox _hMN _hg tr tR _ _ rec hrec
    rw [hit_bvh_nobox _ _ _ _ _ _ _ _ hbox] at hrec
    exact absurd hrec (by simp)
  · intro r tmin tmax acc g n _ _ tr tR _ _ hacc rec hrec
    rw [hitLoop_nil] at hrec
    exact hacc rec hrec
  · intro o os r tmin tmax acc g n closest rec1 n1 hO ihO ihLoop
      hMN hg tr tR htmin htmax hacc rec hrec
    obtain ⟨hMo, hMos⟩ := (MediaNegL_cons o os).mp hMN
    rcases acc with _ | rec0
    · have hb1 := ihO hMo hg tr tR htmin htmax rec1 (by rw [hO])
      rw [hitLoop_cons_some o os r tmin tmax none g n n1 rec1 hO] at hrec
      refine ihLoop hMos hg tr tR htmin htmax ?_ rec hrec
      intro rec2 h2
      rw [← Option.some.inj h2]
      exact hb1
    · have hb0 := hacc rec0 rfl
      have hb1 := ihO hMo hg tr rec0.t htmin rfl rec1 (by rw [hO])
      rw [hitLoop_cons_some o os r tmin tmax (some rec0) g n n1 rec1 hO] at hrec
      refine ihLoop hMos hg tr tR htmin htmax ?_ rec hrec
      intro rec2 h2
      rw [← Option.some.inj h2]
      exact ⟨hb1.1, le_trans hb1.2 hb0.2⟩
  · intro o os r tmin tmax acc g n closest n1 hO ihO ihLoop
      hMN hg tr tR htmin htmax hacc rec hrec
    obtain ⟨hMo, hMos⟩ := (MediaNegL_cons o os).mp hMN
    rw [hitLoop_cons_none o os r tmin tmax acc g n n1 hO] at hrec
    exact ihLoop hMos hg tr tR htmin htmax hacc rec hrec

end MediaBounds

/-! ### The list bounding box -/

section BBoxLemmas

lemma bb_list_nil (t0 t1 : ℝ) :
    Hittable.boundingBox (.list []) t0 t1 = none := by
  simp [Hittable.boundingBox]

lemma bb_list_cons (o : Hittable) (os : List Hittable) (t0 t1 : ℝ) :
    Hittable.boundingBox (.list (o :: os)) t0 t1 =
      bbLoop (o :: os) t0 t1 none := by
  simp [Hittable.boundingBox]

lemma bbLoop_nil (t0 t1 : ℝ) (acc : Option Aabb) :
    bbLoop [] t0 t1 acc = acc := by
  rw [bbLoop.eq_def]

lemma bbLoop_cons (o : Hittable) (os : List Hittable) (t0 t1 : ℝ)
    (acc : Option Aabb) :
    bbLoop (o :: os) t0 t1 acc =
      (match Hittable.boundingBox o t0 t1 with
       | none => none
       | some tb =>
         match acc with
         | none => bbLoop os t0 t1 (some tb)
         | some ob => bbLoop os t0 t1 (some (surroundingBox ob tb))) := by
  rw [bbLoop.eq_def]

lemma bbLoop_none_of_mem (objs : List Hittable) (t0 t1 : ℝ) (o : Hittable)
    (ho : o ∈ objs) (hnone : Hittable.boundingBox o t0 t1 = none) :
    ∀ acc, bbLoop objs t0 t1 acc = none := by
  induction objs with
  | nil => exact absurd ho (List.not_mem_nil o)
  | cons o2 os ih =>
    intro acc
    rw [bbLoop_cons]
    rcases List.mem_cons.mp ho with rfl | ho2
    · rw [hnone]
    · cases hb2 : Hittable.boundingBox o2 t0 t1 with
      | none => rfl
      | some tb =>
        cases acc with
        | none => exact ih ho2 (some tb)
        | some ob => exact ih ho2 (some (surroundingBox ob tb))

lemma bbLoop_fold (objs : List Hittable) (t0 t1 : ℝ) :
    ∀ boxes : List Aabb,
      objs.map (fun o => Hittable.boundingBox o t0 t1) = boxes.map some →
      ∀ b0, bbLoop objs t0 t1 (some b0) =
        some (boxes.foldl surroundingBox b0) := by
  induction objs with
  | nil =>
    intro boxes hmap b0
    cases boxes with
    | nil => rw [bbLoop_nil, List.foldl_nil]
    | cons b bs => exact absurd hmap (by simp)
  | cons o os ih =>
    intro boxes hmap b0
    cases boxes with
    | nil => exact absurd hmap (by simp)
    | cons b bs =>
      simp only [List.map_cons, List.cons.injEq] at hmap
      rw [bbLoop_cons, hmap.1, List.foldl_cons]
      exact ih bs hmap.2 (surroundingBox b0 b)

lemma all_some_map (objs : List Hittable) (t0 t1 : ℝ)
    (h : ∀ o ∈ objs, Hittable.boundingBox o t0 t1 ≠ none) :
    objs.map (fun o => Hittable.boundingBox o t0 t1) =
      (objs.map (fun o => (Hittable.boundingBox o t0 t1).getD defAabb)).map
        some := by
  induction objs with
  | nil => rfl
  | cons o os ih =>
    simp only [List.map_cons, List.map_map, List.cons.injEq]
    constructor
    · cases hb : Hittable.boundingBox o t0 t1 with
      | none => exact absurd hb (h o (List.mem_cons_self o os))
      | some b => rfl
    · have := ih (fun o2 ho2 => h o2 (List.mem_cons_of_mem o ho2))
      simpa using this

lemma foldl_surr_contains (bs : List Aabb) :
    ∀ b0 : Aabb, boxContains (bs.foldl surroundingBox b0) b0 ∧
      ∀ b ∈ bs, boxContains (bs.foldl surroundingBox b0) b := by
  induction bs with
  | nil =>
    intro b0
    exact ⟨boxContains_refl b0, fun b hb => absurd hb (List.not_mem_nil b)⟩
  | cons b bs ih =>
    intro b0
    rw [List.foldl_cons]
    obtain ⟨h0, hmem⟩ := ih (surroundingBox b0 b)
    refine ⟨boxContains_trans _ _ _ h0 (surroundingBox_contains_left b0 b), ?_⟩
    intro b2 hb2
    rcases List.mem_cons.mp hb2 with rfl | hb2
    · exact boxContains_trans _ _ _ h0 (surroundingBox_contains_right b0 b2)
    · exact hmem b2 hb2

end BBoxLemmas

/-! ### Concrete evaluations -/

section DemoEval

lemma sphereHit_demo5 (m : ℕ) (tmin tmax : EReal)
    (h1 : ¬ (((4:ℝ) : EReal) < tmin ∨ tmax < ((4:ℝ) : EReal))) :
    sphereHit ⟨0,0,0⟩ 1 m ⟨⟨0,0,-5⟩, ⟨0,0,1⟩, 0⟩ tmin tmax =
      some (sphereRec ⟨0,0,0⟩ 1 m ⟨⟨0,0,-5⟩, ⟨0,0,1⟩, 0⟩ 4) := by
  simp only [sphereHit]
  rw [show Vec3.dot ((Vec3.mk 0 0 (-5)).sub ⟨0,0,0⟩)
      (Ray.mk ⟨0,0,-5⟩ ⟨0,0,1⟩ 0).dir = -5 from by simp [Vec3.dot, Vec3.sub]]
  rw [show (Ray.mk (Vec3.mk 0 0 (-5)) ⟨0,0,1⟩ 0).dir.lengthSquared = 1 from
    by simp [Vec3.lengthSquared]]
  rw [show ((Vec3.mk 0 0 (-5)).sub ⟨0,0,0⟩).lengthSquared = 25 from
    by simp [Vec3.lengthSquared, Vec3.sub]; norm_num]
  rw [show ((-5:ℝ)) * (-5) - 1 * (25 - 1 * 1) = 1 from by norm_num]
  rw [Real.sqrt_one]
  rw [if_neg (by norm_num : ¬ ((1:ℝ) < 0))]
  rw [show (-(-5:ℝ) - 1) / 1 = 4 from by norm_num]
  rw [if_neg h1]

lemma sphereHit_demo0_full (mb : ℕ) :
    sphereHit ⟨0,0,0⟩ 1 mb ⟨⟨0,0,0⟩, ⟨0,0,1⟩, 0⟩ ⊥ ⊤ =
      some (sphereRec ⟨0,0,0⟩ 1 mb ⟨⟨0,0,0⟩, ⟨0,0,1⟩, 0⟩ (-1)) := by
  simp only [sphereHit]
  rw [show Vec3.dot ((Vec3.mk 0 0 0).sub ⟨0,0,0⟩)
      (Ray.mk ⟨0,0,0⟩ ⟨0,0,1⟩ 0).dir = 0 from by simp [Vec3.dot, Vec3.sub]]
  rw [show (Ray.mk (Vec3.mk 0 0 0) ⟨0,0,1⟩ 0).dir.lengthSquared = 1 from
    by simp [Vec3.lengthSquared]]
  rw [show ((Vec3.mk 0 0 0).sub ⟨0,0,0⟩).lengthSquared = 0 from
    by simp [Vec3.lengthSquared, Vec3.sub]]
  rw [show (0:ℝ) * 0 - 1 * (0 - 1 * 1) = 1 from by norm_num]
  rw [Real.sqrt_one]
  rw [if_neg (by norm_num : ¬ ((1:ℝ) < 0))]
  rw [show (-(0:ℝ) - 1) / 1 = -1 from by norm_num]
  rw [if_neg (by simp : ¬ ((((-1:ℝ)) : EReal) < ⊥ ∨ (⊤ : EReal) < (((-1:ℝ)) : EReal)))]

lemma sphereHit_demo0_second (mb : ℕ) :
    sphereHit ⟨0,0,0⟩ 1 mb ⟨⟨0,0,0⟩, ⟨0,0,1⟩, 0⟩
        (((-1 : ℝ) + 1 / 10000 : ℝ) : EReal) ⊤ =
      some (sphereRec ⟨0,0,0⟩ 1 mb ⟨⟨0,0,0⟩, ⟨0,0,1⟩, 0⟩ 1) := by
  simp only [sphereHit]
  rw [show Vec3.dot ((Vec3.mk 0 0 0).sub ⟨0,0,0⟩)
      (Ray.mk ⟨0,0,0⟩ ⟨0,0,1⟩ 0).dir = 0 from by simp [Vec3.dot, Vec3.sub]]
  rw [show (Ray.mk (Vec3.mk 0 0 0) ⟨0,0,1⟩ 0).dir.lengthSquared = 1 from
    by simp [Vec3.lengthSquared]]
  rw [show ((Vec3.mk 0 0 0).sub ⟨0,0,0⟩).lengthSquared = 0 from
    by simp [Vec3.lengthSquared, Vec3.sub]]
  rw [show (0:ℝ) * 0 - 1 * (0 - 1 * 1) = 1 from by norm_num]
  rw [Real.sqrt_one]
  rw [if_neg (by norm_num : ¬ ((1:ℝ) < 0))]
  rw [show (-(0:ℝ) - 1) / 1 = -1 from by norm_num]
  rw [if_pos (Or.inl (show (((-1:ℝ)) : EReal) < (((-1 : ℝ) + 1 / 10000 : ℝ) : EReal) from
    by exact_mod_cast (by norm_num : (-1:ℝ) < -1 + 1 / 10000)))]
  rw [show (-(0:ℝ) + 1) / 1 = 1 from by norm_num]
  rw [if_neg (show ¬ ((((1:ℝ)) : EReal) < (((-1 : ℝ) + 1 / 10000 : ℝ) : EReal) ∨
      (⊤ : EReal) < (((1:ℝ)) : EReal)) from by
    rw [not_or]
    constructor
    · intro hc
      exact absurd (EReal.coe_lt_coe_iff.mp hc) (by norm_num)
    · exact not_top_lt)]

lemma sphereHit_c1cex :
    sphereHit ⟨0,0,0⟩ 1 0 ⟨⟨-2/3,-1/3,-1/3⟩, ⟨1,1,1⟩, 0⟩
        ((1:ℝ) : EReal) ((1:ℝ) : EReal) =
      some (sphereRec ⟨0,0,0⟩ 1 0 ⟨⟨-2/3,-1/3,-1/3⟩, ⟨1,1,1⟩, 0⟩ 1) := by
  simp only [sphereHit]
  rw [show Vec3.dot ((Vec3.mk (-2/3) (-1/3) (-1/3)).sub ⟨0,0,0⟩)
      (Ray.mk ⟨-2/3,-1/3,-1/3⟩ ⟨1,1,1⟩ 0).dir = -4/3 from by
    simp [Vec3.dot, Vec3.sub]
    norm_num]
  rw [show (Ray.mk (Vec3.mk (-2/3) (-1/3) (-1/3)) ⟨1,1,1⟩ 0).dir.lengthSquared =
      3 from by simp [Vec3.lengthSquared]; norm_num]
  rw [show ((Vec3.mk (-2/3) (-1/3) (-1/3)).sub ⟨0,0,0⟩).lengthSquared = 2/3 from
    by simp [Vec3.lengthSquared, Vec3.sub]; norm_num]
  rw [show (-4/3:ℝ) * (-4/3) - 3 * (2/3 - 1 * 1) = 25/9 from by norm_num]
  rw [show (25/9 : ℝ) = (5/3) ^ 2 from by norm_num,
    Real.sqrt_sq (by norm_num : (0:ℝ) ≤ 5/3)]
  rw [if_neg (by norm_num : ¬ (((5:ℝ)/3) ^ 2 < 0))]
  rw [show (-(-4/3:ℝ) - 5/3) / 3 = -1/9 from by norm_num]
  rw [if_pos (Or.inl (show (((-1/9:ℝ)) : EReal) < ((1:ℝ) : EReal) from
    by exact_mod_cast (by norm_num : (-1/9:ℝ) < 1)))]
  rw [show (-(-4/3:ℝ) + 5/3) / 3 = 1 from by norm_num]
  rw [if_neg (show ¬ (((1:ℝ) : EReal) < ((1:ℝ) : EReal) ∨
      ((1:ℝ) : EReal) < ((1:ℝ) : EReal)) from by
    rw [not_or]
    exact ⟨lt_irrefl _, lt_irrefl _⟩)]

lemma aabbFail_c1cex :
    ¬ aabbHit ⟨⟨-1,-1,-1⟩, ⟨1,1,1⟩⟩ ⟨⟨-2/3,-1/3,-1/3⟩, ⟨1,1,1⟩, 0⟩
      ((1:ℝ) : EReal) ((1:ℝ) : EReal) := by
  intro hcon
  apply hcon.1
  have hslab : slabAxis (-1) 1 (-2/3) 1 (.fin 1) (.fin 1) =
      (DReal.fin 1, DReal.fin 1) := by
    simp only [slabAxis, DReal.recip, DReal.mul, DReal.lt]
    norm_num
  show DReal.le
    (slabAxis (-1) 1 (-2/3) 1 (DReal.ofEReal ((1:ℝ) : EReal))
      (DReal.ofEReal ((1:ℝ) : EReal))).2
    (slabAxis (-1) 1 (-2/3) 1 (DReal.ofEReal ((1:ℝ) : EReal))
      (DReal.ofEReal ((1:ℝ) : EReal))).1
  rw [DReal.ofEReal_coe, hslab]
  show (1:ℝ) ≤ 1
  exact le_refl 1

lemma nodeBox_c1cex :
    nodeBox (.sphere ⟨0,0,0⟩ 1 0) (.sphere ⟨0,0,0⟩ 1 0) 0 0 =
      ⟨⟨-1,-1,-1⟩, ⟨1,1,1⟩⟩ := by
  unfold nodeBox
  rw [bb_sphere]
  simp only [Option.getD_some]
  simp [surroundingBox, Vec3.sub, Vec3.add, Aabb.mk.injEq, Vec3.mk.injEq]

lemma medium_demo (negInv : ℝ) (m mb : ℕ) (g : ℕ → ℝ) (n : ℕ) :
    Hittable.hit (.constantMedium (.sphere ⟨0,0,0⟩ 1 mb) negInv m)
        ⟨⟨0,0,0⟩, ⟨0,0,1⟩, 0⟩ ((0:ℝ) : EReal) ((10:ℝ) : EReal) g n =
      mediumStep negInv m ⟨⟨0,0,0⟩, ⟨0,0,1⟩, 0⟩ ((0:ℝ) : EReal)
        ((10:ℝ) : EReal) (-1) 1 g n := by
  have h1 : Hittable.hit (.sphere ⟨0,0,0⟩ 1 mb) ⟨⟨0,0,0⟩, ⟨0,0,1⟩, 0⟩ ⊥ ⊤ g n =
      (some (sphereRec ⟨0,0,0⟩ 1 mb ⟨⟨0,0,0⟩, ⟨0,0,1⟩, 0⟩ (-1)), n) := by
    rw [hit_sphere, sphereHit_demo0_full mb]
  have h2 : Hittable.hit (.sphere ⟨0,0,0⟩ 1 mb) ⟨⟨0,0,0⟩, ⟨0,0,1⟩, 0⟩
      (((sphereRec ⟨0,0,0⟩ 1 mb ⟨⟨0,0,0⟩, ⟨0,0,1⟩, 0⟩ (-1)).t + 1 / 10000 : ℝ)
        : EReal) ⊤ g n =
      (some (sphereRec ⟨0,0,0⟩ 1 mb ⟨⟨0,0,0⟩, ⟨0,0,1⟩, 0⟩ 1), n) := by
    rw [hit_sphere]
    exact congrArg (fun z => (z, n)) (sphereHit_demo0_second mb)
  exact hit_medium_ss (.sphere ⟨0,0,0⟩ 1 mb) negInv m ⟨⟨0,0,0⟩, ⟨0,0,1⟩, 0⟩
    ((0:ℝ) : EReal) ((10:ℝ) : EReal) g n _ _ n n h1 h2

lemma mediumStep_demo_scatter (negInv : ℝ) (m : ℕ) (g : ℕ → ℝ) (n : ℕ)
    (x : ℝ) (hx : g n = Real.exp x) (hle : negInv * x ≤ 1) :
    ∃ rec, mediumStep negInv m ⟨⟨0,0,0⟩, ⟨0,0,1⟩, 0⟩ ((0:ℝ) : EReal)
        ((10:ℝ) : EReal) (-1) 1 g n = (some rec, n + 1) ∧
      rec.t = negInv * x ∧ rec.normal = ⟨1,0,0⟩ ∧ rec.frontFace ∧
      rec.mat = m := by
  simp only [mediumStep]
  rw [hx]
  rw [show (if (((-1:ℝ)) : EReal) < ((0:ℝ) : EReal) then ((0:ℝ) : EReal)
      else (((-1:ℝ)) : EReal)) = ((0:ℝ) : EReal) from
    if_pos (by exact_mod_cast (by norm_num : (-1:ℝ) < 0))]
  rw [show (if ((10:ℝ) : EReal) < ((1:ℝ) : EReal) then ((10:ℝ) : EReal)
      else ((1:ℝ) : EReal)) = ((1:ℝ) : EReal) from
    if_neg (fun hc => absurd (EReal.coe_lt_coe_iff.mp hc) (by norm_num))]
  rw [if_neg (show ¬ ((1:ℝ) : EReal) ≤ ((0:ℝ) : EReal) from
    fun hc => absurd (EReal.coe_le_coe_iff.mp hc) (by norm_num))]
  rw [show (if ((0:ℝ) : EReal) < (0 : EReal) then (0 : EReal)
      else ((0:ℝ) : EReal)) = ((0:ℝ) : EReal) from
    if_neg (by rw [EReal.coe_zero]; exact lt_irrefl 0)]
  rw [show logE (Real.exp x) = ((x : ℝ) : EReal) from by
    rw [logE, if_neg (Real.exp_ne_zero x), Real.log_exp]]
  rw [mulE_coe]
  simp only [EReal.toReal_coe]
  rw [show (Ray.mk (Vec3.mk 0 0 0) ⟨0,0,1⟩ 0).dir.length = 1 from by
    rw [Vec3.length, show (Vec3.mk (0:ℝ) 0 1).lengthSquared = 1 from
      by simp [Vec3.lengthSquared], Real.sqrt_one]]
  rw [if_neg (show ¬ ((((1:ℝ) - 0) * 1 : ℝ) : EReal) <
      ((negInv * x : ℝ) : EReal) from by
    intro hc
    have := EReal.coe_lt_coe_iff.mp hc
    rw [show ((1:ℝ) - 0) * 1 = 1 from by norm_num] at this
    exact absurd this (not_lt.mpr hle))]
  refine ⟨_, rfl, ?_, rfl, trivial, rfl⟩
  show (0:ℝ) + negInv * x / 1 = negInv * x
  norm_num

lemma mediumStep_demo_miss (negInv : ℝ) (m : ℕ) (g : ℕ → ℝ) (n : ℕ)
    (x : ℝ) (hx : g n = Real.exp x) (hlt : 1 < negInv * x) :
    mediumStep negInv m ⟨⟨0,0,0⟩, ⟨0,0,1⟩, 0⟩ ((0:ℝ) : EReal)
      ((10:ℝ) : EReal) (-1) 1 g n = (none, n + 1) := by
  simp only [mediumStep]
  rw [hx]
  rw [show (if (((-1:ℝ)) : EReal) < ((0:ℝ) : EReal) then ((0:ℝ) : EReal)
      else (((-1:ℝ)) : EReal)) = ((0:ℝ) : EReal) from
    if_pos (by exact_mod_cast (by norm_num : (-1:ℝ) < 0))]
  rw [show (if ((10:ℝ) : EReal) < ((1:ℝ) : EReal) then ((10:ℝ) : EReal)
      else ((1:ℝ) : EReal)) = ((1:ℝ) : EReal) from
    if_neg (fun hc => absurd (EReal.coe_lt_coe_iff.mp hc) (by norm_num))]
  rw [if_neg (show ¬ ((1:ℝ) : EReal) ≤ ((0:ℝ) : EReal) from
    fun hc => absurd (EReal.coe_le_coe_iff.mp hc) (by norm_num))]
  rw [show (if ((0:ℝ) : EReal) < (0 : EReal) then (0 : EReal)
      else ((0:ℝ) : EReal)) = ((0:ℝ) : EReal) from
    if_neg (by rw [EReal.coe_zero]; exact lt_irrefl 0)]
  rw [show logE (Real.exp x) = ((x : ℝ) : EReal) from by
    rw [logE, if_neg (Real.exp_ne_zero x), Real.log_exp]]
  rw [mulE_coe]
  simp only [EReal.toReal_coe]
  rw [show (Ray.mk (Vec3.mk 0 0 0) ⟨0,0,1⟩ 0).dir.length = 1 from by
    rw [Vec3.length, show (Vec3.mk (0:ℝ) 0 1).lengthSquared = 1 from
      by simp [Vec3.lengthSquared], Real.sqrt_one]]
  rw [if_pos (show ((((1:ℝ) - 0) * 1 : ℝ) : EReal) <
      ((negInv * x : ℝ) : EReal) from by
    rw [show ((1:ℝ) - 0) * 1 = 1 from by norm_num]
    exact_mod_cast hlt)]

lemma bb_movingSphere (c0 c1 : Vec3) (tm0 tm1 rad : ℝ) (m : ℕ) (t0 t1 : ℝ) :
    Hittable.boundingBox (.movingSphere c0 c1 tm0 tm1 rad m) t0 t1 =
      some (surroundingBox
        ⟨(msCenter c0 c1 tm0 tm1 t0).sub ⟨rad, rad, rad⟩,
         (msCenter c0 c1 tm0 tm1 t0).add ⟨rad, rad, rad⟩⟩
        ⟨(msCenter c0 c1 tm0 tm1 t1).sub ⟨rad, rad, rad⟩,
         (msCenter c0 c1 tm0 tm1 t1).add ⟨rad, rad, rad⟩⟩) := by
  simp [Hittable.boundingBox]

lemma c10_demo_window0 :
    boxCompareAt (.movingSphere ⟨0,0,0⟩ ⟨10,0,0⟩ 0 1 1 0)
      (.sphere ⟨5,0,0⟩ 1 0) 0 0 0 := by
  unfold boxCompareAt
  rw [bb_movingSphere, bb_sphere]
  simp only [Option.getD_some]
  norm_num [msCenter, surroundingBox, Vec3.sub, Vec3.add, Vec3.smul,
    Vec3.nth, Vec3.mk.injEq]

lemma c10_demo_window1 :
    ¬ boxCompareAt (.movingSphere ⟨0,0,0⟩ ⟨10,0,0⟩ 0 1 1 0)
      (.sphere ⟨5,0,0⟩ 1 0) 0 1 1 := by
  unfold boxCompareAt
  rw [bb_movingSphere, bb_sphere]
  simp only [Option.getD_some]
  norm_num [msCenter, surroundingBox, Vec3.sub, Vec3.add, Vec3.smul,
    Vec3.nth, Vec3.mk.injEq]

lemma boxCompare_listnil : ¬ boxCompare (.list []) (.list []) 0 := by
  unfold boxCompare
  rw [bb_list_nil]
  simp [defAabb, Vec3.nth, Vec3.zero]

lemma buildNode_c9demo :
    buildNode [.list [], .list []] (fun _ => 0) 0 0 0 =
      (.bvhNode (.list []) (.list []) (surroundingBox defAabb defAabb), 1) := by
  rw [buildNode_two, if_neg boxCompare_listnil]
  have hbox : nodeBox (.list []) (.list []) 0 0 =
      surroundingBox defAabb defAabb := by
    unfold nodeBox
    rw [bb_list_nil]
    rfl
  rw [hbox]

end DemoEval

/-! ### The claims -/

section Claims

/-- Claim C1 (amended): over a nonempty set of positive-radius static
spheres and a nondegenerate ray, `bvh_node::hit` on a BVH built with any
axis choices and any time window returns the same hit/no-hit outcome and
the same parameter as `hittable_list::hit`, provided no member's accepted
hit lies exactly on the query boundary `t_min`/`t_max` (the unamended claim
is refuted by `claim_C1_counterexample`: a boundary hit passes the sphere's
closed root test but is pruned by the box test's `t_max <= t_min`
early-out). -/
theorem claim_C1 (S : List Hittable) (ga : ℕ → Fin 3) (k : ℕ) (w0 w1 : ℝ)
    (r : Ray) (tmin tmax : EReal)
    (hS : ∀ o ∈ S, IsPS o) (hne : S ≠ []) (hdir : r.dir ≠ Vec3.zero)
    (hstrict : ∀ o ∈ S, ∀ rec, hit1 o r tmin tmax = some rec →
      tmin < (rec.t : EReal) ∧ (rec.t : EReal) < tmax) :
    Option.map HitRecord.t
        (hit1 (buildNode S ga k w0 w1).1 r tmin tmax) =
      Option.map HitRecord.t (hit1 (.list S) r tmin tmax) := by
  have hSL : ∀ o ∈ S, SphereLike o := fun o ho => sphereLike_of_isPS o (hS o ho)
  have hmem := buildNode_leaves S ga k w0 w1 hS hne
  have hTree := buildNode_SBT S ga k w0 w1 hS hne
  have hH1 : ∀ s ∈ leaves (buildNode S ga k w0 w1).1, ∀ rec,
      hit1 s r tmin tmax = some rec → tmin < (rec.t : EReal) :=
    fun s hs rec hrec => (hstrict s ((hmem s).mp hs) rec hrec).1
  rcases bvh_agree (buildNode S ga k w0 w1).1 hTree r hdir tmin tmax hH1 with
    hv | ⟨-, t0, hM, ht0⟩
  · rw [hv, (hit1_list_eval S r tmin tmax hSL).1]
    exact minT_congr _ _ r tmin tmax hmem
  · exfalso
    obtain ⟨o, ho, hacc⟩ := minT_mem _ r tmin tmax t0 hM
    unfold acceptT at hacc
    cases hrec : hit1 o r tmin tmax with
    | none =>
      rw [hrec] at hacc
      exact absurd hacc (by simp)
    | some rec =>
      rw [hrec] at hacc
      simp only [Option.map_some'] at hacc
      have hlt := (hstrict o ((hmem o).mp ho) rec hrec).2
      rw [Option.some.inj hacc, ht0] at hlt
      exact absurd hlt (lt_irrefl tmax)

/-- Witness for C1 at a concrete scene: one unit sphere, the axis ray, and
the interval `[0, +inf)`. -/
theorem claim_C1_witness :
    Option.map HitRecord.t
        (hit1 (buildNode [.sphere ⟨0,0,0⟩ 1 7] (fun _ => 0) 0 0 0).1
          ⟨⟨0,0,-5⟩, ⟨0,0,1⟩, 0⟩ ((0:ℝ) : EReal) ⊤) =
      Option.map HitRecord.t
        (hit1 (.list [.sphere ⟨0,0,0⟩ 1 7]) ⟨⟨0,0,-5⟩, ⟨0,0,1⟩, 0⟩
          ((0:ℝ) : EReal) ⊤) := by
  refine claim_C1 _ _ _ _ _ _ _ _ ?_ ?_ ?_ ?_
  · intro o ho
    rcases List.mem_cons.mp ho with rfl | h2
    · exact ⟨⟨0,0,0⟩, 1, 7, rfl, by norm_num⟩
    · exact absurd h2 (List.not_mem_nil o)
  · exact List.cons_ne_nil _ _
  · intro hc
    have hz := congrArg Vec3.z hc
    have h1 : (1:ℝ) = 0 := hz
    norm_num at h1
  · intro o ho rec hrec
    rcases List.mem_cons.mp ho with rfl | h2
    swap
    · exact absurd h2 (List.not_mem_nil o)
    rw [hit1_sphere, sphereHit_demo5 7 _ _ (by
      rw [not_or]
      exact ⟨fun hc => absurd (EReal.coe_lt_coe_iff.mp hc) (by norm_num),
        not_top_lt⟩)] at hrec
    rw [← Option.some.inj hrec]
    constructor
    · show ((0:ℝ) : EReal) < ((4:ℝ) : EReal)
      exact_mod_cast (by norm_num : (0:ℝ) < 4)
    · show ((4:ℝ) : EReal) < ⊤
      exact EReal.coe_lt_top 4

/-- Counterexample to the unamended C1: for the degenerate query
`t_min = t_max = 1` the list scan accepts the boundary root `t = 1` of the
sphere (closed comparisons), while the BVH over the same single sphere
fails its box test (`t_max <= t_min` after tightening) and reports a miss. -/
theorem claim_C1_counterexample :
    (∃ rec, hit1 (.list [.sphere ⟨0,0,0⟩ 1 0])
        ⟨⟨-2/3,-1/3,-1/3⟩, ⟨1,1,1⟩, 0⟩ ((1:ℝ) : EReal) ((1:ℝ) : EReal) =
        some rec ∧ rec.t = 1) ∧
    hit1 (buildNode [.sphere ⟨0,0,0⟩ 1 0] (fun _ => 0) 0 0 0).1
      ⟨⟨-2/3,-1/3,-1/3⟩, ⟨1,1,1⟩, 0⟩ ((1:ℝ) : EReal) ((1:ℝ) : EReal) =
      none := by
  constructor
  · refine ⟨sphereRec ⟨0,0,0⟩ 1 0 ⟨⟨-2/3,-1/3,-1/3⟩, ⟨1,1,1⟩, 0⟩ 1, ?_, rfl⟩
    have hO : Hittable.hit (.sphere ⟨0,0,0⟩ 1 0)
        ⟨⟨-2/3,-1/3,-1/3⟩, ⟨1,1,1⟩, 0⟩ ((1:ℝ) : EReal) ((1:ℝ) : EReal) g0 0 =
        (some (sphereRec ⟨0,0,0⟩ 1 0 ⟨⟨-2/3,-1/3,-1/3⟩, ⟨1,1,1⟩, 0⟩ 1), 0) := by
      rw [hit_sphere, sphereHit_c1cex]
    rw [hit1, hit_list,
      hitLoop_cons_some _ _ _ _ _ none g0 0 0 _ hO, hitLoop_nil]
  · rw [buildNode_one]
    show hit1 (.bvhNode (.sphere ⟨0,0,0⟩ 1 0) (.sphere ⟨0,0,0⟩ 1 0)
      (nodeBox (.sphere ⟨0,0,0⟩ 1 0) (.sphere ⟨0,0,0⟩ 1 0) 0 0)) _ _ _ = none
    rw [nodeBox_c1cex]
    exact hit1_bvh_nobox _ _ _ _ _ _ aabbFail_c1cex

/-- Claim C2 (amended): when `hittable_list::hit` returns a record, it is a
member's full-interval hit whose parameter is minimal among all members'
accepted parameters, and the returned parameter (hit/no-hit and value) is
independent of the member order; the full record is not order-independent
(`claim_C2_counterexample`: coincident spheres with different materials tie
at the same `t` and the scan keeps the later member). -/
theorem claim_C2 (S : List Hittable) (r : Ray) (tmin tmax : EReal)
    (hS : ∀ o ∈ S, SphereLike o) :
    (∀ rec, hit1 (.list S) r tmin tmax = some rec →
      (∃ o ∈ S, hit1 o r tmin tmax = some rec) ∧
      ∀ o ∈ S, ∀ rec2, hit1 o r tmin tmax = some rec2 → rec.t ≤ rec2.t) ∧
    ∀ S2 : List Hittable, (∀ x, x ∈ S ↔ x ∈ S2) →
      Option.map HitRecord.t (hit1 (.list S) r tmin tmax) =
        Option.map HitRecord.t (hit1 (.list S2) r tmin tmax) := by
  constructor
  · intro rec hrec
    obtain ⟨hv, hp⟩ := hit1_list_eval S r tmin tmax hS
    refine ⟨hp rec hrec, ?_⟩
    intro o ho rec2 h2
    have hmin : minT S r tmin tmax = some rec.t := by
      rw [← hv, hrec]
      rfl
    refine minT_le S r tmin tmax rec.t hmin o ho rec2.t ?_
    unfold acceptT
    rw [h2]
    rfl
  · intro S2 hmemiff
    have hS2 : ∀ o ∈ S2, SphereLike o := fun o ho => hS o ((hmemiff o).mpr ho)
    rw [(hit1_list_eval S r tmin tmax hS).1,
      (hit1_list_eval S2 r tmin tmax hS2).1]
    exact minT_congr S S2 r tmin tmax hmemiff

/-- Witness for C2: the two orders of two coincident unit spheres give the
same hit parameter. -/
theorem claim_C2_witness :
    Option.map HitRecord.t
        (hit1 (.list [.sphere ⟨0,0,0⟩ 1 1, .sphere ⟨0,0,0⟩ 1 2])
          ⟨⟨0,0,-5⟩, ⟨0,0,1⟩, 0⟩ ((0:ℝ) : EReal) ⊤) =
      Option.map HitRecord.t
        (hit1 (.list [.sphere ⟨0,0,0⟩ 1 2, .sphere ⟨0,0,0⟩ 1 1])
          ⟨⟨0,0,-5⟩, ⟨0,0,1⟩, 0⟩ ((0:ℝ) : EReal) ⊤) := by
  refine (claim_C2 _ _ _ _ ?_).2 _ ?_
  · intro o ho
    rcases List.mem_cons.mp ho with rfl | h2
    · exact Or.inl ⟨_, _, _, rfl⟩
    rcases List.mem_cons.mp h2 with rfl | h3
    · exact Or.inl ⟨_, _, _, rfl⟩
    · exact absurd h3 (List.not_mem_nil o)
  · intro x
    simp only [List.mem_cons, List.not_mem_nil, or_false]
    exact or_comm

/-- Counterexample to the unamended C2: swapping two coincident spheres
with different materials changes the returned record (the parameter ties,
and the closed comparison keeps the later member). -/
theorem claim_C2_counterexample :
    ∃ rec1 rec2,
      hit1 (.list [.sphere ⟨0,0,0⟩ 1 1, .sphere ⟨0,0,0⟩ 1 2])
          ⟨⟨0,0,-5⟩, ⟨0,0,1⟩, 0⟩ ((0:ℝ) : EReal) ⊤ = some rec1 ∧
      hit1 (.list [.sphere ⟨0,0,0⟩ 1 2, .sphere ⟨0,0,0⟩ 1 1])
          ⟨⟨0,0,-5⟩, ⟨0,0,1⟩, 0⟩ ((0:ℝ) : EReal) ⊤ = some rec2 ∧
      rec1 ≠ rec2 := by
  have hcond1 : ¬ (((4:ℝ) : EReal) < ((0:ℝ) : EReal) ∨
      (⊤ : EReal) < ((4:ℝ) : EReal)) := by
    rw [not_or]
    exact ⟨fun hc => absurd (EReal.coe_lt_coe_iff.mp hc) (by norm_num),
      not_top_lt⟩
  have hcond2 : ¬ (((4:ℝ) : EReal) < ((0:ℝ) : EReal) ∨
      ((4:ℝ) : EReal) < ((4:ℝ) : EReal)) := by
    rw [not_or]
    exact ⟨fun hc => absurd (EReal.coe_lt_coe_iff.mp hc) (by norm_num),
      lt_irrefl _⟩
  have hlist : ∀ mA mB : ℕ,
      hit1 (.list [.sphere ⟨0,0,0⟩ 1 mA, .sphere ⟨0,0,0⟩ 1 mB])
          ⟨⟨0,0,-5⟩, ⟨0,0,1⟩, 0⟩ ((0:ℝ) : EReal) ⊤ =
        some (sphereRec ⟨0,0,0⟩ 1 mB ⟨⟨0,0,-5⟩, ⟨0,0,1⟩, 0⟩ 4) := by
    intro mA mB
    have hO1 : Hittable.hit (.sphere ⟨0,0,0⟩ 1 mA) ⟨⟨0,0,-5⟩, ⟨0,0,1⟩, 0⟩
        ((0:ℝ) : EReal) ⊤ g0 0 =
        (some (sphereRec ⟨0,0,0⟩ 1 mA ⟨⟨0,0,-5⟩, ⟨0,0,1⟩, 0⟩ 4), 0) := by
      rw [hit_sphere, sphereHit_demo5 mA _ _ hcond1]
    have hO2 : Hittable.hit (.sphere ⟨0,0,0⟩ 1 mB) ⟨⟨0,0,-5⟩, ⟨0,0,1⟩, 0⟩
        ((0:ℝ) : EReal)
        (((sphereRec ⟨0,0,0⟩ 1 mA ⟨⟨0,0,-5⟩, ⟨0,0,1⟩, 0⟩ 4).t : ℝ) : EReal)
        g0 0 =
        (some (sphereRec ⟨0,0,0⟩ 1 mB ⟨⟨0,0,-5⟩, ⟨0,0,1⟩, 0⟩ 4), 0) := by
      rw [hit_sphere]
      exact congrArg (fun z => (z, 0)) (sphereHit_demo5 mB _ _ hcond2)
    rw [hit1, hit_list,
      hitLoop_cons_some _ _ _ _ _ none g0 0 0 _ hO1,
      hitLoop_cons_some _ _ _ _ _ (some _) g0 0 0 _ hO2, hitLoop_nil]
  refine ⟨_, _, hlist 1 2, hlist 2 1, ?_⟩
  intro hcon
  have hmat := congrArg HitRecord.mat hcon
  have h21 : (2:ℕ) = 1 := hmat
  exact absurd h21 (by decide)

/-- Claim C3 (amended): for finite query intervals, scenes whose
`constant_medium` members all store a strictly negative `neg_inv_density`
(the constructor's `-1/d` for positive density `d`), and random draws in
`[0, 1)`, every accepted `parameterT` of every variant lies in
`[tMin, tMax]`.  The unamended claim fails for a negative-density medium
(`claim_C3_counterexample`: the scatter parameter falls below `tMin`). -/
theorem claim_C3 (h : Hittable) (r : Ray) (tr tR : ℝ) (g : ℕ → ℝ) (n : ℕ)
    (hMN : MediaNeg h) (hg : ∀ k, 0 ≤ g k ∧ g k < 1) (rec : HitRecord)
    (hrec : (Hittable.hit h r ((tr : ℝ) : EReal) ((tR : ℝ) : EReal) g n).1 =
      some rec) :
    tr ≤ rec.t ∧ rec.t ≤ tR :=
  hit_bounds_media h r _ _ g n hMN hg tr tR rfl rfl rec hrec

/-- Witness for C3: a physically built medium (density `1`, so
`neg_inv_density = -1`) scatters inside `[0, 10]`. -/
theorem claim_C3_witness :
    ∃ rec, (Hittable.hit (.constantMedium (.sphere ⟨0,0,0⟩ 1 5) (-1) 6)
        ⟨⟨0,0,0⟩, ⟨0,0,1⟩, 0⟩ ((0:ℝ) : EReal) ((10:ℝ) : EReal)
        (fun _ => Real.exp (-(1/2))) 0).1 = some rec ∧
      0 ≤ rec.t ∧ rec.t ≤ 10 := by
  obtain ⟨rec, hstep, -, -, -, -⟩ := mediumStep_demo_scatter (-1) 6
    (fun _ => Real.exp (-(1/2))) 0 (-(1/2)) rfl (by norm_num)
  have heval : (Hittable.hit (.constantMedium (.sphere ⟨0,0,0⟩ 1 5) (-1) 6)
      ⟨⟨0,0,0⟩, ⟨0,0,1⟩, 0⟩ ((0:ℝ) : EReal) ((10:ℝ) : EReal)
      (fun _ => Real.exp (-(1/2))) 0).1 = some rec := by
    rw [medium_demo, hstep]
  refine ⟨rec, heval, claim_C3 _ _ 0 10 _ 0 ?_ ?_ rec heval⟩
  · refine (MediaNeg_medium _ _ _).mpr ⟨by norm_num, ?_⟩
    rw [MediaNeg]
    trivial
  · intro k
    refine ⟨le_of_lt (Real.exp_pos _), ?_⟩
    rw [Real.exp_lt_one_iff]
    norm_num

/-- Counterexample to the unamended C3: a `constant_medium` built from a
negative density stores `neg_inv_density = 1 > 0` and scatters at
`t = -1/2 < tMin = 0`. -/
theorem claim_C3_counterexample :
    ∃ rec, (Hittable.hit (.constantMedium (.sphere ⟨0,0,0⟩ 1 5) 1 6)
        ⟨⟨0,0,0⟩, ⟨0,0,1⟩, 0⟩ ((0:ℝ) : EReal) ((10:ℝ) : EReal)
        (fun _ => Real.exp (-(1/2))) 0).1 = some rec ∧
      rec.t < 0 := by
  obtain ⟨rec, hstep, ht, -, -, -⟩ := mediumStep_demo_scatter 1 6
    (fun _ => Real.exp (-(1/2))) 0 (-(1/2)) rfl (by norm_num)
  refine ⟨rec, ?_, ?_⟩
  · rw [medium_demo, hstep]
  · rw [ht]
    norm_num

/-- Claim C4 (amended): over media-free scenes with nonzero sphere radii
and a nondegenerate ray direction, every returned record carries a
unit-length normal, and `frontFace` holds exactly when the ray direction
makes a negative dot product with the outward normal (recovered from the
stored normal as stored-when-front, negated otherwise).  The unamended
claim fails for `constant_medium`, which hard-codes `normal = (1,0,0)` and
`front_face = true` (`claim_C4_counterexample`). -/
theorem claim_C4 (h : Hittable) (r : Ray) (tmin tmax : EReal) (g : ℕ → ℝ)
    (n : ℕ) (hNM : NoMedium h) (hRZ : RadNZ h) (hdir : r.dir ≠ Vec3.zero)
    (rec : HitRecord) (hrec : (Hittable.hit h r tmin tmax g n).1 = some rec) :
    rec.normal.length = 1 ∧
    (rec.frontFace ↔ Vec3.dot r.dir
      (if rec.frontFace then rec.normal else rec.normal.neg) < 0) := by
  have hface := hit_face_det h r tmin tmax g n hNM hRZ hdir rec hrec
  exact ⟨Vec3.length_eq_one _ hface.1, hface.2⟩

/-- Witness for C4 at the concrete sphere scenario. -/
theorem claim_C4_witness :
    ∃ rec, (Hittable.hit (.sphere ⟨0,0,0⟩ 1 0) ⟨⟨0,0,-5⟩, ⟨0,0,1⟩, 0⟩
        ((0:ℝ) : EReal) ⊤ g0 0).1 = some rec ∧
      rec.normal.length = 1 ∧
      (rec.frontFace ↔ Vec3.dot (Vec3.mk 0 0 1)
        (if rec.frontFace then rec.normal else rec.normal.neg) < 0) := by
  have heval : (Hittable.hit (.sphere ⟨0,0,0⟩ 1 0) ⟨⟨0,0,-5⟩, ⟨0,0,1⟩, 0⟩
      ((0:ℝ) : EReal) ⊤ g0 0).1 =
      some (sphereRec ⟨0,0,0⟩ 1 0 ⟨⟨0,0,-5⟩, ⟨0,0,1⟩, 0⟩ 4) := by
    rw [hit_sphere, sphereHit_demo5 0 _ _ (by
      rw [not_or]
      exact ⟨fun hc => absurd (EReal.coe_lt_coe_iff.mp hc) (by norm_num),
        not_top_lt⟩)]
  refine ⟨_, heval, claim_C4 _ _ _ _ g0 0 ?_ ?_ ?_ _ heval⟩
  · rw [NoMedium]
    trivial
  · rw [RadNZ]
    norm_num
  · intro hc
    have hz := congrArg Vec3.z hc
    have h1 : (1:ℝ) = 0 := hz
    norm_num at h1

/-- Counterexample to the unamended C4: the medium's record claims a front
face although the ray direction is orthogonal to the stored (hard-coded)
normal. -/
theorem claim_C4_counterexample :
    ∃ rec, (Hittable.hit (.constantMedium (.sphere ⟨0,0,0⟩ 1 5) (-1) 6)
        ⟨⟨0,0,0⟩, ⟨0,0,1⟩, 0⟩ ((0:ℝ) : EReal) ((10:ℝ) : EReal)
        (fun _ => Real.exp (-(1/2))) 0).1 = some rec ∧
      rec.frontFace ∧
      ¬ Vec3.dot (Vec3.mk 0 0 1)
        (if rec.frontFace then rec.normal else rec.normal.neg) < 0 := by
  obtain ⟨rec, hstep, -, hnormal, hfront, -⟩ := mediumStep_demo_scatter (-1) 6
    (fun _ => Real.exp (-(1/2))) 0 (-(1/2)) rfl (by norm_num)
  refine ⟨rec, by rw [medium_demo, hstep], hfront, ?_⟩
  rw [if_pos hfront, hnormal]
  simp [Vec3.dot]

/-- Claim C5: `hittable_list::bounding_box` fails exactly when the list is
empty or some member reports no box; on success it is the
`surrounding_box` fold of the members' boxes (the spec-side `unionBoxes`),
and that union contains every member's box. -/
theorem claim_C5 (objs : List Hittable) (t0 t1 : ℝ) :
    (Hittable.boundingBox (.list objs) t0 t1 = none ↔
      objs = [] ∨ ∃ o ∈ objs, Hittable.boundingBox o t0 t1 = none) ∧
    ∀ boxes : List Aabb,
      objs.map (fun o => Hittable.boundingBox o t0 t1) = boxes.map some →
      Hittable.boundingBox (.list objs) t0 t1 = unionBoxes boxes ∧
      ∀ b2 ∈ boxes, ∀ u, unionBoxes boxes = some u → boxContains u b2 := by
  constructor
  · constructor
    · intro hnone
      by_contra hcon
      push_neg at hcon
      obtain ⟨hne, hall⟩ := hcon
      cases objs with
      | nil => exact absurd rfl hne
      | cons o os =>
        rw [bb_list_cons] at hnone
        cases hb : Hittable.boundingBox o t0 t1 with
        | none =>
          exact (hall o (List.mem_cons_self o os)) hb
        | some b =>
          rw [bbLoop_cons, hb] at hnone
          have hmapos : os.map (fun o => Hittable.boundingBox o t0 t1) =
              (os.map (fun o =>
                (Hittable.boundingBox o t0 t1).getD defAabb)).map some :=
            all_some_map os t0 t1
              (fun o2 ho2 => hall o2 (List.mem_cons_of_mem o ho2))
          have hnone2 : bbLoop os t0 t1 (some b) = none := hnone
          rw [bbLoop_fold os t0 t1 _ hmapos b] at hnone2
          exact absurd hnone2 (by simp)
    · intro hcase
      rcases hcase with rfl | ⟨o, ho, hnone⟩
      · exact bb_list_nil t0 t1
      · cases objs with
        | nil => exact absurd ho (List.not_mem_nil o)
        | cons o2 os =>
          rw [bb_list_cons]
          exact bbLoop_none_of_mem (o2 :: os) t0 t1 o ho hnone none
  · intro boxes hmap
    constructor
    · cases objs with
      | nil =>
        cases boxes with
        | nil =>
          rw [bb_list_nil]
          rfl
        | cons b bs => exact absurd hmap (by simp)
      | cons o os =>
        cases boxes with
        | nil => exact absurd hmap (by simp)
        | cons b bs =>
          simp only [List.map_cons, List.cons.injEq] at hmap
          rw [bb_list_cons, bbLoop_cons, hmap.1]
          show bbLoop os t0 t1 (some b) = unionBoxes (b :: bs)
          rw [bbLoop_fold os t0 t1 bs hmap.2 b]
          rfl
    · intro b2 hb2 u hu
      cases boxes with
      | nil => exact absurd hb2 (List.not_mem_nil _)
      | cons b bs =>
        have hu2 : u = bs.foldl surroundingBox b := (Option.some.inj hu).symm
        subst hu2
        obtain ⟨h0, hmem⟩ := foldl_surr_contains bs b
        rcases List.mem_cons.mp hb2 with rfl | hmem2
        · exact h0
        · exact hmem b2 hmem2

/-- Claim C6: for boxes with `min <= max` on every axis, `aabb::hit` (with
its IEEE division by zero producing signed infinities, `0 * inf = NaN`, and
all NaN comparisons false) returns true exactly as the per-axis slab
characterization prescribes, also when direction components are exactly
zero. -/
theorem claim_C6 (bb : Aabb) (r : Ray) (tmin tmax : EReal)
    (hx : bb.minimum.x ≤ bb.maximum.x) (hy : bb.minimum.y ≤ bb.maximum.y)
    (hz : bb.minimum.z ≤ bb.maximum.z) :
    aabbHit bb r tmin tmax ↔ slabSpecHit bb r tmin tmax :=
  aabbHit_iff_slabSpec bb r tmin tmax hx hy hz

/-- Witness for C6 at a concrete box and an axis ray whose `x` and `y`
direction components are exactly zero. -/
theorem claim_C6_witness :
    aabbHit ⟨⟨-1,-1,-1⟩, ⟨1,1,1⟩⟩ ⟨⟨0,0,-5⟩, ⟨0,0,1⟩, 0⟩
        ((0:ℝ) : EReal) ⊤ ↔
      slabSpecHit ⟨⟨-1,-1,-1⟩, ⟨1,1,1⟩⟩ ⟨⟨0,0,-5⟩, ⟨0,0,1⟩, 0⟩
        ((0:ℝ) : EReal) ⊤ :=
  claim_C6 _ _ _ _ (by norm_num) (by norm_num) (by norm_num)

/-- Claim C7: `sphere::hit` returns no hit on a negative discriminant, and
on Scenario 1 (unit sphere at the origin, ray from `(0,0,-5)` toward
`(0,0,1)`, `tMin = 0`, `tMax = +inf`) it accepts the smaller root, with
`t = 4`, point `(0,0,-1)`, normal `(0,0,-1)` and a front face. -/
theorem claim_C7 :
    (∀ (c : Vec3) (rad : ℝ) (m : ℕ) (r : Ray) (tmin tmax : EReal),
      Vec3.dot (r.orig.sub c) r.dir * Vec3.dot (r.orig.sub c) r.dir -
        r.dir.lengthSquared * ((r.orig.sub c).lengthSquared - rad * rad) < 0 →
      sphereHit c rad m r tmin tmax = none) ∧
    ∃ rec, sphereHit ⟨0,0,0⟩ 1 0 ⟨⟨0,0,-5⟩, ⟨0,0,1⟩, 0⟩ ((0:ℝ) : EReal) ⊤ =
        some rec ∧
      rec.t = 4 ∧ rec.p = ⟨0,0,-1⟩ ∧ rec.normal = ⟨0,0,-1⟩ ∧
      rec.frontFace := by
  constructor
  · intro c rad m r tmin tmax hdisc
    simp only [sphereHit]
    rw [if_pos hdisc]
  · have hout : (((Ray.mk ⟨0,0,-5⟩ ⟨0,0,1⟩ 0).at 4).sub
        (Vec3.mk 0 0 0)).divs 1 = Vec3.mk 0 0 (-1) := by
      simp [Ray.at, Vec3.add, Vec3.smul, Vec3.sub, Vec3.divs, Vec3.mk.injEq]
      norm_num
    refine ⟨sphereRec ⟨0,0,0⟩ 1 0 ⟨⟨0,0,-5⟩, ⟨0,0,1⟩, 0⟩ 4,
      sphereHit_demo5 0 _ _ (by
        rw [not_or]
        exact ⟨fun hc => absurd (EReal.coe_lt_coe_iff.mp hc) (by norm_num),
          not_top_lt⟩), rfl, ?_, ?_, ?_⟩
    · show (Ray.mk (Vec3.mk 0 0 (-5)) ⟨0,0,1⟩ 0).at 4 = Vec3.mk 0 0 (-1)
      simp [Ray.at, Vec3.add, Vec3.smul, Vec3.mk.injEq]
      norm_num
    · show (setFaceNormal (Ray.mk ⟨0,0,-5⟩ ⟨0,0,1⟩ 0)
        ((((Ray.mk ⟨0,0,-5⟩ ⟨0,0,1⟩ 0).at 4).sub (Vec3.mk 0 0 0)).divs 1)).2 =
        Vec3.mk 0 0 (-1)
      rw [hout]
      unfold setFaceNormal
      simp only []
      rw [if_pos (show Vec3.dot (Vec3.mk 0 0 1) (Vec3.mk 0 0 (-1)) < 0 from by
        simp [Vec3.dot])]
    · show Vec3.dot (Vec3.mk 0 0 1)
        ((((Ray.mk ⟨0,0,-5⟩ ⟨0,0,1⟩ 0).at 4).sub (Vec3.mk 0 0 0)).divs 1) < 0
      rw [hout]
      simp [Vec3.dot]

/-- Claim C8 (amended): for scenes without a `constant_medium`, `hit`
neither reads nor advances the process-wide RNG, so the second of two
identical queries (run from the state the first left behind) returns the
identical result.  The unamended claim is refuted by
`claim_C8_counterexample`: a `constant_medium` consumes a `random_double`
per query, so two successive identical queries can disagree. -/
theorem claim_C8 (h : Hittable) (r : Ray) (tmin tmax : EReal) (g : ℕ → ℝ)
    (n : ℕ) (hNM : NoMedium h) :
    Hittable.hit h r tmin tmax g ((Hittable.hit h r tmin tmax g n).2) =
      Hittable.hit h r tmin tmax g n := by
  rw [(hit_det h r tmin tmax g n hNM g n).1]

/-- Witness for C8: the sphere scenario repeated. -/
theorem claim_C8_witness :
    Hittable.hit (.sphere ⟨0,0,0⟩ 1 0) ⟨⟨0,0,-5⟩, ⟨0,0,1⟩, 0⟩
        ((0:ℝ) : EReal) ⊤ g0
        ((Hittable.hit (.sphere ⟨0,0,0⟩ 1 0) ⟨⟨0,0,-5⟩, ⟨0,0,1⟩, 0⟩
          ((0:ℝ) : EReal) ⊤ g0 0).2) =
      Hittable.hit (.sphere ⟨0,0,0⟩ 1 0) ⟨⟨0,0,-5⟩, ⟨0,0,1⟩, 0⟩
        ((0:ℝ) : EReal) ⊤ g0 0 :=
  claim_C8 _ _ _ _ g0 0 (by rw [NoMedium]; trivial)

/-- Counterexample to the unamended C8: against a scene holding a
`constant_medium`, the first query scatters (drawing one random number) and
the identical second query, continuing from the advanced RNG state,
misses. -/
theorem claim_C8_counterexample :
    ∃ rec, Hittable.hit (.constantMedium (.sphere ⟨0,0,0⟩ 1 5) (-1) 6)
        ⟨⟨0,0,0⟩, ⟨0,0,1⟩, 0⟩ ((0:ℝ) : EReal) ((10:ℝ) : EReal)
        (fun k => if k = 0 then Real.exp (-(1/2)) else Real.exp (-2)) 0 =
        (some rec, 1) ∧
      (Hittable.hit (.constantMedium (.sphere ⟨0,0,0⟩ 1 5) (-1) 6)
        ⟨⟨0,0,0⟩, ⟨0,0,1⟩, 0⟩ ((0:ℝ) : EReal) ((10:ℝ) : EReal)
        (fun k => if k = 0 then Real.exp (-(1/2)) else Real.exp (-2)) 1).1 =
        none := by
  obtain ⟨rec, hstep, -, -, -, -⟩ := mediumStep_demo_scatter (-1) 6
    (fun k => if k = 0 then Real.exp (-(1/2)) else Real.exp (-2)) 0
    (-(1/2)) (by simp) (by norm_num)
  refine ⟨rec, ?_, ?_⟩
  · rw [medium_demo, hstep]
  · rw [medium_demo, mediumStep_demo_miss (-1) 6 _ 1 (-2) (by simp)
      (by norm_num)]

/-- Claim C9: `bvh_node::bounding_box` unconditionally reports the stored
box; the constructor never aborts on children without boxes — a node built
over two boxless children carries the default-constructed boxes' union. -/
theorem claim_C9 :
    (∀ (l rgt : Hittable) (box : Aabb) (t0 t1 : ℝ),
      ∃ b2, Hittable.boundingBox (.bvhNode l rgt box) t0 t1 = some b2) ∧
    (∀ (S : List Hittable) (ga : ℕ → Fin 3) (k : ℕ) (t0 t1 : ℝ), S ≠ [] →
      ∃ l rgt b2, (buildNode S ga k t0 t1).1 = .bvhNode l rgt b2) ∧
    buildNode [.list [], .list []] (fun _ => 0) 0 0 0 =
      (.bvhNode (.list []) (.list [])
        (surroundingBox defAabb defAabb), 1) := by
  refine ⟨?_, ?_, buildNode_c9demo⟩
  · intro l rgt box t0 t1
    exact ⟨box, bb_bvh l rgt box t0 t1⟩
  · intro S ga k t0 t1 hne
    exact buildNode_isNode S hne ga k t0 t1

/-- Claim C10: `box_compare` evaluates the children's boxes at the time
window `(0, 0)` — the spec-side windowed comparator at `(0, 0)`, never at
the construction window — so the tree shape and RNG consumption of the
constructor ignore the window, although the ordering of a moving sphere
genuinely depends on the window it is evaluated at. -/
theorem claim_C10 :
    (∀ (a b : Hittable) (axis : Fin 3),
      boxCompare a b axis ↔ boxCompareAt a b axis 0 0) ∧
    (∀ (S : List Hittable) (ga : ℕ → Fin 3) (k : ℕ) (w0 w1 u0 u1 : ℝ),
      eraseBoxes (buildNode S ga k w0 w1).1 =
        eraseBoxes (buildNode S ga k u0 u1).1 ∧
      (buildNode S ga k w0 w1).2 = (buildNode S ga k u0 u1).2) ∧
    (boxCompareAt (.movingSphere ⟨0,0,0⟩ ⟨10,0,0⟩ 0 1 1 0)
        (.sphere ⟨5,0,0⟩ 1 0) 0 0 0 ∧
      ¬ boxCompareAt (.movingSphere ⟨0,0,0⟩ ⟨10,0,0⟩ 0 1 1 0)
        (.sphere ⟨5,0,0⟩ 1 0) 0 1 1) := by
  refine ⟨?_, ?_, c10_demo_window0, c10_demo_window1⟩
  · intro a b axis
    exact Iff.rfl
  · intro S ga k w0 w1 u0 u1
    exact buildNode_window S ga k w0 w1 u0 u1

end Claims

end
